import Mathlib

/-!
Radio-resource procedures of the control layer (Control/RadioResource.cpp)

A shallow embedding of the channel-request arbitrator (`decodeChannelNeeded`,
`requestingLUR`, `AccessGrantResponder`), of the paging-response handler, of
the paging registry (`Pager::addID`, `Pager::removeID`, `Pager::pageAll`), of
the handover engine (`HandoverEntry`, `OutgoingHandover`, `Handover`) and of
the assignment-complete and handover-complete handlers, followed by the
properties proved about them.

Conventions of the embedding.

* `unsigned` values are `Nat`, `int`/`long` values are `Int`; the one narrowing
  cast of the modelled code, `(int)gBTS.SDCCHAvailable()`, is written out
  (`castInt`).
* `float` values (`RSSI`, `timingError`) are rationals; the one `float`
  operation of the modelled code, the sum `timingError + 0.5F`, is rounded to
  binary32 (`binary32`); a conversion `(int)x` is the truncation of `x`, which
  is what C defines when the truncated value fits `int`.
* The global collaborators (`gConfig`, `gBTS`, the AGCH, `gTMSITable`) are not
  part of the translated sources; what they answer during one call is an
  explicit argument, and what the code does to them is recorded, in program
  order, as a list of `Event`s.
* A failed `assert` aborts the process: functions that contain one return
  `Option`, with `none` for the abort.
-/

namespace OpenBTS

/-! ## Channel request arbitrator -/

/-- Modelled from the spec: the channel type codes `GSM::ChannelType` are
declared in GSMCommon.h, which is not among the translated sources. The
arbitrator hands out the full-rate traffic class (`TCHFType`), the basic
control class (`SDCCHType`) and the undefined class (`UndefinedCHType`); the
other codes stand for the channel types it never returns, for which the
`switch` of `AccessGrantResponder` has its `default: assert(0)` arm. -/
inductive ChannelType where
  | SCHType
  | FCCHType
  | BCCHType
  | CCCHType
  | RACHType
  | SACCHType
  | SDCCHType
  | FACCHType
  | TCHFType
  | TCHHType
  | AnyTCHType
  | LoopbackFullType
  | LoopbackHalfType
  | AnyDCCHType
  | UndefinedCHType
  deriving DecidableEq, Repr

/-- The `gConfig` keys read by the arbitrator.
`NECI` is `GSM.CellSelection.NECI`, `VEA` is `defines("Control.VEA")`,
`maxAge` is `RACHSpreadSlots[txInteger] + RACHWaitSParam[txInteger]` (the two
tables live in GSMCommon.cpp), `TAMax` is `GSM.MS.TA.Max`, `AGCHQMax` is
`GSM.CCCH.AGCH.QMax` and `SDCCHReserve` is `GSM.Channels.SDCCHReserve`. -/
structure Config where
  NECI : Int
  VEA : Bool
  maxAge : Int
  TAMax : Int
  AGCHQMax : Int
  SDCCHReserve : Int
  deriving DecidableEq, Repr

/-- `decodeChannelNeeded(unsigned RA)`: the channel type needed for a request
reference. `none` is the failed `assert(NECI==1)`. -/
def decodeChannelNeeded (cfg : Config) (RA : Nat) : Option ChannelType :=
  let RA4 := RA >>> 4
  let RA5 := RA >>> 5
  if RA5 = 0x04 then some ChannelType.TCHFType
  else if RA4 = 0x01 then some ChannelType.SDCCHType
  else if RA4 = 0x02 then some ChannelType.TCHFType
  else if RA4 = 0x03 then some ChannelType.TCHFType
  else if cfg.NECI = 0 then
    if RA5 = 0x07 then some ChannelType.SDCCHType
    else if RA5 = 0x00 then some ChannelType.SDCCHType
    else some ChannelType.UndefinedCHType
  else if cfg.NECI ≠ 1 then none
  else
    -- the two tests after the VEA branches, then the fall-through
    let rest :=
      if RA4 = 0x00 then some ChannelType.SDCCHType
      else if RA4 = 0x01 then some ChannelType.SDCCHType
      else some ChannelType.UndefinedCHType
    if cfg.VEA then
      -- Very Early Assignment
      if RA5 = 0x07 then some ChannelType.TCHFType
      else if RA4 = 0x04 then some ChannelType.TCHFType
      else rest
    else
      -- Early Assignment
      if RA5 = 0x07 then some ChannelType.SDCCHType
      else if RA4 = 0x04 then some ChannelType.SDCCHType
      else rest

/-- The priority ladder as the specification words it: paging-answer and
explicit channel-type patterns first, then the policy-dependent
location-update / MO-call patterns, then undefined. -/
def channelLadder (NECI : Int) (VEA : Bool) (RA : Nat) : ChannelType :=
  if RA >>> 5 = 4 then ChannelType.TCHFType
  else if RA >>> 4 = 1 then ChannelType.SDCCHType
  else if RA >>> 4 = 2 ∨ RA >>> 4 = 3 then ChannelType.TCHFType
  else if NECI = 0 ∧ (RA >>> 5 = 7 ∨ RA >>> 5 = 0) then ChannelType.SDCCHType
  else if NECI = 1 ∧ (RA >>> 5 = 7 ∨ RA >>> 4 = 4) then
    (if VEA then ChannelType.TCHFType else ChannelType.SDCCHType)
  else if NECI = 1 ∧ RA >>> 4 = 0 then ChannelType.SDCCHType
  else ChannelType.UndefinedCHType

/-- `requestingLUR(unsigned RA)`: true if RA indicates a location update. -/
def requestingLUR (cfg : Config) (RA : Nat) : Bool :=
  if cfg.NECI = 0 then decide (RA >>> 5 = 0x00)
  else decide (RA >>> 4 = 0x00)

/-- The C conversion `(int)x` of a `float` value `x`: truncation toward zero.
C defines the conversion only when the truncated value fits `int`; outside
that range the value given here is the truncation all the same, and what is
proved of a converted value is stated for the range. -/
def truncToInt (q : ℚ) : Int :=
  if 0 ≤ q then q.floor else -((-q).floor)

/-- The C conversion `(int)n` of an unsigned count: reduction modulo `2^32`,
read as a two's-complement 32-bit value. -/
def castInt (n : Nat) : Int :=
  if n % 2 ^ 32 < 2 ^ 31 then ((n % 2 ^ 32 : Nat) : Int)
  else ((n % 2 ^ 32 : Nat) : Int) - 2 ^ 32

/-- A logical channel handed out by `gBTS.getTCH()` / `gBTS.getSDCCH()`,
identified by its channel description. -/
abbrev LCH := Nat

/-- What `gBTS` and the AGCH answer during one `AccessGrantResponder` call.
`age` is the value of `gBTS.time() - when`; `AGCH` is the result of
`gBTS.getAGCH()` (`none` for a null pointer) together with its `load()`;
`growT3122` is the value (milliseconds) returned by `gBTS.growT3122()`;
`getTCH` / `getSDCCH` are the results of the channel requests (`none` for a
null pointer). -/
structure BTS where
  hold : Bool
  age : Int
  AGCH : Option Nat
  SDCCHAvailable : Nat
  growT3122 : Nat
  getTCH : Option LCH
  getSDCCH : Option LCH
  deriving DecidableEq, Repr

/-- Messages sent on the AGCH: `L3ImmediateAssignment(L3RequestReference(RA,when),
channelDescription, L3TimingAdvance(initialTA))` and
`L3ImmediateAssignmentReject(L3RequestReference(RA,when), waitTime)`. -/
inductive AGCHMessage where
  | L3ImmediateAssignment (RA when : Nat) (chan : LCH) (initialTA : Int)
  | L3ImmediateAssignmentReject (RA when : Nat) (waitTime : Nat)
  deriving DecidableEq, Repr

/-- The three `gReports` counters touched by the arbitrator. -/
inductive Counter where
  | RACH_TA_All
  | RACH_RA_All
  | RACH_TA_Accepted
  deriving DecidableEq, Repr

/-- Calls made by `AccessGrantResponder` on its collaborators. -/
inductive Event where
  | reportsIncr (c : Counter) (v : Int)
  | growT3122
  | shrinkT3122
  | getTCH
  | getSDCCH
  | AGCHSend (m : AGCHMessage)
  | setPhy (chan : LCH) (RSSI timingError : ℚ)
  deriving DecidableEq, Repr

/-- Rounding of a rational to an integer: to nearest, ties to even. -/
def roundHalfEven (q : ℚ) : Int :=
  let f := q.floor
  let r := q - f
  if r < 1 / 2 then f
  else if r > 1 / 2 then f + 1
  else if f % 2 = 0 then f else f + 1

/-- The spacing of the binary32 values around `x`: `2 ^ (e - 23)`, where `e` is
the exponent of `x` (the largest `e` with `2 ^ e ≤ |x|`), not below the exponent
-126 of the subnormal range. -/
def binary32Quantum (x : ℚ) : ℚ :=
  2 ^ (max (Int.log 2 |x|) (-126) - 23)

/-- The value of type `float` (IEEE 754 binary32) that an arithmetic operation
with exact result `x` delivers: `x` rounded to a whole multiple of the spacing
around it, to nearest, ties to even. Results of magnitude `2 ^ 128` or more,
which overflow, are outside the modelled range. -/
def binary32 (x : ℚ) : ℚ :=
  if x = 0 then 0 else roundHalfEven (x / binary32Quantum x) * binary32Quantum x

/-- The clamped initial timing advance of the assignment message:
`(int)(timingError + 0.5F)`, the sum being a `float`, then raised to 0 and
lowered to 62. -/
def initialTA (timingError : ℚ) : Int :=
  let ta0 := truncToInt (binary32 (timingError + 1 / 2))
  let ta1 := if ta0 < 0 then 0 else ta0
  if ta1 > 62 then 62 else ta1

/-- The channel request issued for a decoded channel type (the `switch` of
`AccessGrantResponder`): the call made and the provider's answer; `none` is
the `default: assert(0)` arm. -/
def allocateChannel (bts : BTS) : ChannelType → Option (Event × Option LCH)
  | ChannelType.TCHFType => some (Event.getTCH, bts.getTCH)
  | ChannelType.SDCCHType => some (Event.getSDCCH, bts.getSDCCH)
  | ChannelType.UndefinedCHType => some (Event.getSDCCH, bts.getSDCCH)
  | _ => none

/-- `AccessGrantResponder(RA, when, RSSI, timingError)`: the calls it makes on
its collaborators, in program order; `none` when an `assert` fails. -/
def AccessGrantResponder (cfg : Config) (bts : BTS) (RA when : Nat)
    (RSSI timingError : ℚ) : Option (List Event) :=
  let reports := [Event.reportsIncr Counter.RACH_TA_All (truncToInt timingError),
                  Event.reportsIncr Counter.RACH_RA_All (RA : Int)]
  -- Are we holding off new allocations?
  if bts.hold then some reports
  -- Check burst age.
  else if bts.age > cfg.maxAge then some (reports ++ [Event.growT3122])
  -- Screen for delay.
  else if timingError > (cfg.TAMax : ℚ) then some reports
  else
    match bts.AGCH with
    | none => none
    | some load =>
      -- Check AGCH load now.
      if (load : Int) > cfg.AGCHQMax then some reports
      -- Check for location update.
      else if requestingLUR cfg RA ∧ castInt bts.SDCCHAvailable ≤ cfg.SDCCHReserve then
        some (reports ++ [Event.growT3122,
          Event.AGCHSend (AGCHMessage.L3ImmediateAssignmentReject RA when (bts.growT3122 / 1000))])
      else
        -- Allocate the channel according to the needed type indicated by RA.
        match decodeChannelNeeded cfg RA with
        | none => none
        | some type =>
          match allocateChannel bts type with
          | none => none
          | some (request, none) =>
            -- Nothing available: rejection.
            some (reports ++ [request, Event.growT3122,
              Event.AGCHSend
                (AGCHMessage.L3ImmediateAssignmentReject RA when (bts.growT3122 / 1000))])
          | some (request, some chan) =>
            some (reports ++ [request,
              Event.setPhy chan RSSI timingError,
              Event.reportsIncr Counter.RACH_TA_Accepted (truncToInt timingError),
              Event.AGCHSend
                (AGCHMessage.L3ImmediateAssignment RA when chan (initialTA timingError)),
              Event.shrinkT3122])

/-- The messages sent on the AGCH, in order. -/
def agchSent : List Event → List AGCHMessage
  | [] => []
  | Event.AGCHSend m :: es => m :: agchSent es
  | _ :: es => agchSent es

/-- The number of `gBTS.growT3122()` calls. -/
def growCount : List Event → Nat
  | [] => 0
  | Event.growT3122 :: es => growCount es + 1
  | _ :: es => growCount es

/-- The number of `gBTS.shrinkT3122()` calls. -/
def shrinkCount : List Event → Nat
  | [] => 0
  | Event.shrinkT3122 :: es => shrinkCount es + 1
  | _ :: es => shrinkCount es

/-- The channels whose physical parameters were set (`LCH->setPhy`). -/
def setPhyChannels : List Event → List LCH
  | [] => []
  | Event.setPhy chan _ _ :: es => chan :: setPhyChannels es
  | _ :: es => setPhyChannels es

/-- The number of channel requests made to the provider
(`gBTS.getTCH()`, `gBTS.getSDCCH()`). -/
def channelRequests : List Event → Nat
  | [] => 0
  | Event.getTCH :: es => channelRequests es + 1
  | Event.getSDCCH :: es => channelRequests es + 1
  | _ :: es => channelRequests es

/-! ## Transaction table (Control/TransactionTable.h) -/

/-- Modelled from the spec: a mobile identity, `GSM::L3MobileIdentity`, is
declared in GSML3CommonElements.h, which is not among the translated sources.
It is either a temporary (TMSI) or a permanent subscriber identifier: an
identity type together with its digits or its TMSI value; `operator==` is
structural equality. -/
inductive L3MobileIdentity where
  | NoID
  | IMSI (digits : Nat)
  | IMEI (digits : Nat)
  | IMEISV (digits : Nat)
  | TMSI (value : Nat)
  deriving DecidableEq, Repr

/-- The identity type codes returned by `L3MobileIdentity::type()`. -/
inductive MobileIDType where
  | NoIDType
  | IMSIType
  | IMEIType
  | IMEISVType
  | TMSIType
  deriving DecidableEq, Repr

/-- `L3MobileIdentity::type()`. -/
def L3MobileIdentity.type : L3MobileIdentity → MobileIDType
  | L3MobileIdentity.NoID => MobileIDType.NoIDType
  | L3MobileIdentity.IMSI _ => MobileIDType.IMSIType
  | L3MobileIdentity.IMEI _ => MobileIDType.IMEIType
  | L3MobileIdentity.IMEISV _ => MobileIDType.IMEISVType
  | L3MobileIdentity.TMSI _ => MobileIDType.TMSIType

/-- Modelled from the spec: the call states `GSM::CallState` are declared in
GSMCommon.h, which is not among the translated sources (Null, Paging,
AnsweredPaging, the MOC/MTC setup states, Active, the release states). -/
inductive CallState where
  | NullState
  | Paging
  | AnsweredPaging
  | MOCInitiated
  | MOCProceeding
  | MTCConfirmed
  | CallReceived
  | CallPresent
  | ConnectIndication
  | Active
  | DisconnectIndication
  | ReleaseRequest
  | SMSDelivering
  | SMSSubmitting
  deriving DecidableEq, Repr

/-- Modelled from the spec: the service types
`GSM::L3CMServiceType::TypeCode` are declared in GSML3MMElements.h, which is not
among the translated sources (mobile-originated call, mobile-terminated call,
mobile-originated / mobile-terminated SMS, emergency call, handover-originated
call). -/
inductive L3CMServiceType where
  | UndefinedType
  | MobileOriginatedCall
  | EmergencyCall
  | ShortMessage
  | MobileTerminatedCall
  | MobileTerminatedShortMessage
  | HandoverOriginatedCall
  deriving DecidableEq, Repr

/-- The fields of `TransactionEntry` read or written by the modelled code.
`mTimers` maps a timer name to its limit; `dead` is the answer of `dead()`;
`mChannel` is null (`none`) or the bound channel; `mExistingTransaction` and
`mOldTransaction` are null (`none`) or the ID of the transaction pointed to. -/
structure TransactionEntry where
  mID : Nat
  mSubscriber : L3MobileIdentity
  mService : L3CMServiceType
  mGSMState : CallState
  mTimers : List (String × Nat)
  mChannel : Option LCH
  dead : Bool
  mExistingTransaction : Option Nat := none
  mOldTransaction : Option Nat := none
  deriving DecidableEq, Repr

/-- `TransactionEntry::GSMState(GSM::CallState wState)`. -/
def TransactionEntry.setGSMState (t : TransactionEntry) (wState : CallState) :
    TransactionEntry :=
  { t with mGSMState := wState }

/-- `TransactionEntry::setTimer(const char* name, long newLimit)`. -/
def TransactionEntry.setTimer (t : TransactionEntry) (name : String) (newLimit : Nat) :
    TransactionEntry :=
  { t with mTimers := (name, newLimit) :: t.mTimers.filter (fun nl => nl.1 ≠ name) }

/-- `TransactionEntry::channel(GSM::LogicalChannel* wChannel)`. -/
def TransactionEntry.setChannel (t : TransactionEntry) (wChannel : LCH) : TransactionEntry :=
  { t with mChannel := some wChannel }

/-- The transaction table `TransactionMap mTable`, a map of transactions keyed
by ID, as an association list: the entry of a key is the first one in the list
with that `mID`, and erasing a key drops every entry with that `mID`. -/
abbrev TransactionTable := List TransactionEntry

/-- Modelled from the spec: `TransactionTable::find(unsigned wID)`, whose body
is in TransactionTable.cpp, not among the translated sources. The declaration
says: find an entry, return NULL if the ID is not found or was dead. -/
def TransactionTable.find (T : TransactionTable) (wID : Nat) : Option TransactionEntry :=
  match List.find? (fun t => t.mID == wID) T with
  | none => none
  | some t => if t.dead then none else some t

/-- Modelled from the spec: `TransactionTable::removePaging(unsigned wID)`,
whose body is in TransactionTable.cpp, not among the translated sources. The
declaration says: remove an entry from the table if it is in the Paging state;
return true if the ID was really in the table and deleted. -/
def TransactionTable.removePaging (T : TransactionTable) (wID : Nat) :
    Bool × TransactionTable :=
  match List.find? (fun t => t.mID == wID) T with
  | none => (false, T)
  | some t =>
    if t.mGSMState = CallState.Paging then (true, List.filter (fun t => t.mID != wID) T)
    else (false, T)

/-- Modelled from the spec: `TransactionTable::remove(unsigned wID)`, whose
body is in TransactionTable.cpp, not among the translated sources. The
declaration says: remove an entry from the table; return true if the ID was
really in the table and deleted. -/
def TransactionTable.remove (T : TransactionTable) (wID : Nat) : Bool × TransactionTable :=
  match List.find? (fun t => t.mID == wID) T with
  | none => (false, T)
  | some _ => (true, List.filter (fun t => t.mID != wID) T)

/-! ## Paging registry -/

/-- Modelled from the spec: `PagingEntry` is declared in RadioResource.h, which
is not among the translated sources. An entry is (mobile identity, requested
channel type, owning transaction ID, expiry time); the expiry time of an entry
created or renewed at time `now` with lifetime `wLife` is `now + wLife`. -/
structure PagingEntry where
  mID : L3MobileIdentity
  mType : ChannelType
  mTransactionID : Nat
  mExpiration : Nat
  deriving DecidableEq, Repr

/-- Modelled from the spec: the constructor
`PagingEntry(wID, wType, wTransactionID, wLife)` called at time `now`. -/
def PagingEntry.new (now : Nat) (wID : L3MobileIdentity) (wType : ChannelType)
    (wTransactionID wLife : Nat) : PagingEntry :=
  { mID := wID, mType := wType, mTransactionID := wTransactionID, mExpiration := now + wLife }

/-- Modelled from the spec: `PagingEntry::renew(wLife)` called at time `now`
renews the expiry to the requested lifetime. -/
def PagingEntry.renew (now : Nat) (e : PagingEntry) (wLife : Nat) : PagingEntry :=
  { e with mExpiration := now + wLife }

/-- The state of a `Pager`: the paging list `mPageIDs` and the number of
`mPageSignal.signal()` calls made so far. -/
structure Pager where
  mPageIDs : List PagingEntry
  mPageSignal : Nat
  deriving DecidableEq, Repr

/-- The search loop of `Pager::addID`: renew the first entry whose ID is
`newID`; `none` when the loop ends without a match. -/
def Pager.renewID (now : Nat) (newID : L3MobileIdentity) (wLife : Nat) :
    List PagingEntry → Option (List PagingEntry)
  | [] => none
  | lp :: rest =>
    if lp.mID = newID then some (lp.renew now wLife :: rest)
    else
      match Pager.renewID now newID wLife rest with
      | none => none
      | some rest' => some (lp :: rest')

/-- `Pager::addID(newID, chanType, transaction, wLife)` called at time `now`:
the pager and the transaction afterwards. -/
def Pager.addID (now : Nat) (p : Pager) (newID : L3MobileIdentity) (chanType : ChannelType)
    (transaction : TransactionEntry) (wLife : Nat) : Pager × TransactionEntry :=
  let transaction := (transaction.setGSMState CallState.Paging).setTimer "3113" wLife
  -- If this ID is already in the list, just reset its timer.
  match Pager.renewID now newID wLife p.mPageIDs with
  | some l => ({ mPageIDs := l, mPageSignal := p.mPageSignal + 1 }, transaction)
  | none =>
    -- If this ID is new, put it in the list.
    ({ mPageIDs := p.mPageIDs ++ [PagingEntry.new now newID chanType transaction.mID wLife],
       mPageSignal := p.mPageSignal + 1 }, transaction)

/-- The loop of `Pager::removeID`: erase the first entry whose ID is `delID`
and return its transaction ID, or 0 if none is found. -/
def Pager.eraseID (delID : L3MobileIdentity) : List PagingEntry → Nat × List PagingEntry
  | [] => (0, [])
  | lp :: rest =>
    if lp.mID = delID then (lp.mTransactionID, rest)
    else
      let r := Pager.eraseID delID rest
      (r.1, lp :: r.2)

/-- `Pager::removeID(delID)`: the returned transaction ID and the pager
afterwards. -/
def Pager.removeID (p : Pager) (delID : L3MobileIdentity) : Nat × Pager :=
  let r := Pager.eraseID delID p.mPageIDs
  (r.1, { p with mPageIDs := r.2 })

/-- Paging messages, `L3PagingRequestType1(id1,type1)` and
`L3PagingRequestType1(id1,type1,id2,type2)`. -/
inductive L3PagingRequestType1 where
  | one (id1 : L3MobileIdentity) (type1 : ChannelType)
  | two (id1 : L3MobileIdentity) (type1 : ChannelType)
      (id2 : L3MobileIdentity) (type2 : ChannelType)
  deriving DecidableEq, Repr

/-- The first loop of `Pager::pageAll` (clear expired entries), with the
transaction table threaded through it. `expired` is the answer of
`lp->expired()` (`PagingEntry::expired` is declared in RadioResource.h). -/
def Pager.purge (expired : PagingEntry → Bool) :
    TransactionTable → List PagingEntry → List PagingEntry × TransactionTable
  | T, [] => ([], T)
  | T, lp :: rest =>
    let isExpired := expired lp
    let defunct := (TransactionTable.find T lp.mTransactionID).isNone
    if !isExpired && !defunct then
      let r := Pager.purge expired T rest
      (lp :: r.1, r.2)
    else
      -- Non-responsive, dead transaction?
      Pager.purge expired (TransactionTable.removePaging T lp.mTransactionID).2 rest

/-- The second loop of `Pager::pageAll` (page remaining entries, two at a time
if possible): the messages sent on PCH 0, in order. -/
def Pager.pageLoop : List PagingEntry → List L3PagingRequestType1
  | [] => []
  | [lp1] =>
    [L3PagingRequestType1.one lp1.mID lp1.mType, L3PagingRequestType1.one lp1.mID lp1.mType]
  | lp1 :: lp2 :: rest =>
    L3PagingRequestType1.two lp1.mID lp1.mType lp2.mID lp2.mType ::
    L3PagingRequestType1.two lp1.mID lp1.mType lp2.mID lp2.mType ::
    Pager.pageLoop rest

/-- What one `Pager::pageAll` call leaves behind: the returned count, the
messages sent on the PCH, the pager and the transaction table. -/
structure PageAllResult where
  count : Nat
  sent : List L3PagingRequestType1
  pager : Pager
  table : TransactionTable
  deriving DecidableEq, Repr

/-- `Pager::pageAll()`. -/
def Pager.pageAll (expired : PagingEntry → Bool) (T : TransactionTable) (p : Pager) :
    PageAllResult :=
  let r := Pager.purge expired T p.mPageIDs
  { count := r.1.length,
    sent := Pager.pageLoop r.1,
    pager := { p with mPageIDs := r.1 },
    table := r.2 }

/-- The identities held by the paging list, in list order. -/
def Pager.identities (p : Pager) : List L3MobileIdentity :=
  p.mPageIDs.map (fun e => e.mID)

/-- The pager states reachable from the empty pager by `addID`, `removeID` and
`pageAll` calls. -/
inductive Pager.Reachable : Pager → Prop where
  | init : Pager.Reachable { mPageIDs := [], mPageSignal := 0 }
  | addID (now : Nat) (p : Pager) (newID : L3MobileIdentity) (chanType : ChannelType)
      (transaction : TransactionEntry) (wLife : Nat) :
      Pager.Reachable p →
      Pager.Reachable (Pager.addID now p newID chanType transaction wLife).1
  | removeID (p : Pager) (delID : L3MobileIdentity) :
      Pager.Reachable p → Pager.Reachable (Pager.removeID p delID).2
  | pageAll (expired : PagingEntry → Bool) (T : TransactionTable) (p : Pager) :
      Pager.Reachable p → Pager.Reachable (Pager.pageAll expired T p).pager

/-- The broadcast units as the specification words them: the remaining entries
taken in list order two at a time, a pair as one two-identity message, an odd
last entry as a one-identity message. -/
def Pager.broadcastUnits : List PagingEntry → List L3PagingRequestType1
  | [] => []
  | [e] => [L3PagingRequestType1.one e.mID e.mType]
  | e1 :: e2 :: rest =>
    L3PagingRequestType1.two e1.mID e1.mType e2.mID e2.mType :: Pager.broadcastUnits rest

/-- The (identity, channel type) pairs carried by a paging message, in order. -/
def L3PagingRequestType1.carried : L3PagingRequestType1 → List (L3MobileIdentity × ChannelType)
  | L3PagingRequestType1.one id1 type1 => [(id1, type1)]
  | L3PagingRequestType1.two id1 type1 id2 type2 => [(id1, type1), (id2, type2)]

/-- Whether a paging message carries the identity `id`. -/
def L3PagingRequestType1.carries (m : L3PagingRequestType1) (id : L3MobileIdentity) : Bool :=
  match m with
  | L3PagingRequestType1.one id1 _ => decide (id1 = id)
  | L3PagingRequestType1.two id1 _ id2 _ => decide (id1 = id) || decide (id2 = id)

/-! ## Paging response handler -/

/-- Messages sent on the responding DCCH: `L3ChannelRelease(cause)`. -/
inductive DCCHMessage where
  | L3ChannelRelease (cause : Nat)
  deriving DecidableEq, Repr

/-- Calls made by `PagingResponseHandler` on its collaborators. -/
inductive HandlerEvent where
  | TMSITableTouch (digits : Nat)
  | DCCHSend (chan : LCH) (m : DCCHMessage)
  | pagerRemoveID (id : L3MobileIdentity)
  | answeredPaging (id : L3MobileIdentity)
  | MTCStarter (transactionID : Nat) (chan : LCH)
  | MTSMSController (transactionID : Nat) (chan : LCH)
  | transactionRemove (transactionID : Nat)
  deriving DecidableEq, Repr

/-- The shared state touched by `PagingResponseHandler`: the pager of `gBTS`
and `gTransactionTable`. -/
structure ControlState where
  pager : Pager
  table : TransactionTable
  deriving DecidableEq, Repr

/-- `Control::PagingResponseHandler(resp, DCCH)`, for the mobile identity
`resp->mobileID()`: the state afterwards and the calls made, in program order.
`tmsiIMSI` is the answer of `gTMSITable.IMSI(tmsi)` (`none` for a null
pointer); `answeredPaging` is `gTransactionTable.answeredPaging`, whose body is
in TransactionTable.cpp: it returns the found entry, if any, and the table
afterwards. -/
def PagingResponseHandler (tmsiIMSI : Nat → Option Nat)
    (answeredPaging : TransactionTable → L3MobileIdentity →
      Option TransactionEntry × TransactionTable)
    (st : ControlState) (respMobileID : L3MobileIdentity) (DCCH : LCH) :
    ControlState × List HandlerEvent :=
  -- If we got a TMSI, find the IMSI.
  let resolved : Option (L3MobileIdentity × List HandlerEvent) :=
    match respMobileID with
    | L3MobileIdentity.TMSI tmsi =>
      match tmsiIMSI tmsi with
      | some imsi => some (L3MobileIdentity.IMSI imsi, [])
      | none => none
    | L3MobileIdentity.IMSI digits =>
      some (respMobileID, [HandlerEvent.TMSITableTouch digits])
    | _ => some (respMobileID, [])
  match resolved with
  | none =>
    -- Cause 0x60 "Invalid mandatory information"
    (st, [HandlerEvent.DCCHSend DCCH (DCCHMessage.L3ChannelRelease 0x60)])
  | some (mobileID, ev0) =>
    -- Delete the Mobile ID from the paging list to free up CCCH bandwidth.
    let pager := (Pager.removeID st.pager mobileID).2
    -- Find the transction table entry that was created when the phone was paged.
    let found := answeredPaging st.table mobileID
    let ev1 := ev0 ++ [HandlerEvent.pagerRemoveID mobileID, HandlerEvent.answeredPaging mobileID]
    match found.1 with
    | none =>
      -- Cause 0x41 means "call already cleared".
      ({ pager := pager, table := found.2 },
        ev1 ++ [HandlerEvent.DCCHSend DCCH (DCCHMessage.L3ChannelRelease 0x41)])
    | some transaction =>
      -- Set the transaction channel.
      let table := found.2.map
        (fun t => if t.mID = transaction.mID then t.setChannel DCCH else t)
      match transaction.mService with
      | L3CMServiceType.MobileTerminatedCall =>
        ({ pager := pager, table := table },
          ev1 ++ [HandlerEvent.MTCStarter transaction.mID DCCH])
      | L3CMServiceType.MobileTerminatedShortMessage =>
        ({ pager := pager, table := table },
          ev1 ++ [HandlerEvent.MTSMSController transaction.mID DCCH])
      | _ =>
        -- Flush stray MOC entries.
        ({ pager := pager, table := (TransactionTable.remove table transaction.mID).2 },
          ev1 ++ [HandlerEvent.transactionRemove transaction.mID])

/-! ## Handover engine -/

/-- Modelled from the spec: `GSM::Z100Timer` is declared in GSMCommon.h, which
is not among the translated sources. A timer is an expiry time that is either
running or cancelled; a cancelled timer never expires. -/
structure Z100Timer where
  mActive : Bool
  mEndTime : Nat
  deriving DecidableEq, Repr

/-- Modelled from the spec: `Z100Timer(limit)` followed by `set()` at time
`now` starts the timer for `limit`. -/
def Z100Timer.set (now limit : Nat) : Z100Timer :=
  { mActive := true, mEndTime := now + limit }

/-- Modelled from the spec: `Z100Timer::reset()` cancels the timer. -/
def Z100Timer.reset (t : Z100Timer) : Z100Timer :=
  { t with mActive := false }

/-- Modelled from the spec: `Z100Timer::expired()` at time `now`. -/
def Z100Timer.expired (now : Nat) (t : Z100Timer) : Bool :=
  t.mActive && decide (t.mEndTime < now)

/-- Modelled from the spec: the session-protocol states `SIP::SIPState` are
declared in SIPEngine.h, which is not among the translated sources. The
handover engine only tests for `HO_Proxy`; every other state is kept by its
code. -/
inductive SIPState where
  | HO_Proxy
  | other (code : Nat)
  deriving DecidableEq, Repr

/-- Calls made by the handover engine and by the assignment / handover
complete handlers on their collaborators (the transceiver, the channels, the
SIP side of a transaction, the call controllers), with the ID of the
transaction or the timeslot number of the channel they are made on. -/
inductive HOEvent where
  | handoverOn (TN : Nat) (handoverReference : Nat)
  | handoverOff (TN : Nat)
  | sendPhysicalInformation (TN : Nat) (initialTA : Int)
  | HOCTimeout (transactionID : Nat)
  | SIPRemoveCall (transactionID : Nat)
  | Register (transactionID : Nat)
  | usleep
  | MODSendBYE (transactionID : Nat)
  | MTDSendBYEOK (transactionID : Nat)
  | HOProxyUplinkSM (transactionHO transactionMSC : Nat)
  | HOProxyDownlinkSM (transactionMSC transactionHO : Nat)
  | TCHOpen (chan : LCH)
  | HOCSendHandoverAck (transactionID : Nat) (handoverReference : Nat)
  | allocateRTPPorts
  | HOCSendOK (transactionID : Nat) (rtpPort : Nat)
  | HOSendREINVITE (transactionID : Nat) (rtpPort : Nat)
  | cutHandoverTail (transactionID : Nat) (chan : LCH)
  | MTCInitRTP (transactionID : Nat)
  | callManagementLoop (transactionID : Nat) (chan : LCH)
  | MOCController (transactionID : Nat) (chan : LCH)
  | MTCController (transactionID : Nat) (chan : LCH)
  deriving DecidableEq, Repr

/-- The fields of `HandoverEntry` (declared in RadioResource.h; the
constructor is in RadioResource.cpp). `mTransaction` is the ID of the owning
transaction. -/
structure HandoverEntry where
  mTransaction : Nat
  mTCH : LCH
  mHandoverReference : Nat
  mGotHA : Bool
  mGotHComplete : Bool
  mRegisterPerformed : Bool
  mPhysicalInfoAttempts : Nat
  mInitialTA : Int
  mNy1 : Nat
  mT3103 : Z100Timer
  deriving DecidableEq, Repr

/-- `HandoverEntry::HandoverEntry(wTransaction, wTCH, wHandoverReference, wCallID)`
at time `now`; `Ny1` is `GSM.Handover.Ny1`, `T3103` is `GSM.Handover.T3103`, `TN`
gives the timeslot number of a channel (`mTCH->TN()`). -/
def HandoverEntry.new (TN : LCH → Nat) (now Ny1 T3103 : Nat)
    (wTransaction : Nat) (wTCH : LCH) (wHandoverReference : Nat) :
    HandoverEntry × List HOEvent :=
  ({ mTransaction := wTransaction, mTCH := wTCH, mHandoverReference := wHandoverReference,
     mGotHA := false, mGotHComplete := false, mRegisterPerformed := false,
     mPhysicalInfoAttempts := 0, mInitialTA := 0, mNy1 := Ny1,
     mT3103 := Z100Timer.set now T3103 },
   [HOEvent.handoverOn (TN wTCH) wHandoverReference])

/-- `HandoverEntry::T3105Tick()`: the returned value, the entry afterwards and
the calls made. The `if(mGotHComplete)` statement of the source only logs
"handover, too late to adjust" and falls through to the test of `mGotHA`. -/
def HandoverEntry.T3105Tick (TN : LCH → Nat) (e : HandoverEntry) :
    Bool × HandoverEntry × List HOEvent :=
  if e.mGotHA then
    (true, { e with mPhysicalInfoAttempts := e.mPhysicalInfoAttempts + 1 },
      [HOEvent.sendPhysicalInformation (TN e.mTCH) e.mInitialTA])
  else (false, e, [])

/-- `HandoverEntry::HandoverAccessDetected(wInitialTA)`. -/
def HandoverEntry.HandoverAccessDetected (TN : LCH → Nat) (e : HandoverEntry)
    (wInitialTA : Int) : HandoverEntry × List HOEvent :=
  let e1 := { e with mInitialTA := wInitialTA, mGotHA := true, mPhysicalInfoAttempts := 0 }
  -- just to accelerate a process
  let r := e1.T3105Tick TN
  (r.2.1, HOEvent.handoverOff (TN e.mTCH) :: r.2.2)

/-- `HandoverEntry::HandoverCompleteDetected()`. -/
def HandoverEntry.HandoverCompleteDetected (e : HandoverEntry) : HandoverEntry :=
  { e with mGotHA := false, mGotHComplete := true, mT3103 := e.mT3103.reset }

/-- `HandoverEntry::SipRegister()`. `register` is the answer of
`engine.Register(SIPEngine::SIPRegister)` for the subscriber of the owning
transaction, `none` when `SIPTimeout` is thrown (and caught). -/
def HandoverEntry.SipRegister (register : Nat → Option Bool) (e : HandoverEntry) :
    Bool × HandoverEntry × List HOEvent :=
  if e.mGotHComplete then
    match register e.mTransaction with
    | some result =>
      (true, { e with mRegisterPerformed := result }, [HOEvent.Register e.mTransaction])
    | none => (true, e, [HOEvent.Register e.mTransaction])
  else (false, e, [])

/-- `HandoverEntry::removeHandoverEntry()` at time `now`: the returned value,
the transaction table afterwards and the calls made. -/
def HandoverEntry.removeHandoverEntry (TN : LCH → Nat) (now : Nat) (e : HandoverEntry)
    (T : TransactionTable) : Bool × TransactionTable × List HOEvent :=
  if e.mGotHA ∧ e.mPhysicalInfoAttempts ≥ e.mNy1 then
    (true, (TransactionTable.remove T e.mTransaction).2,
      [HOEvent.handoverOff (TN e.mTCH), HOEvent.HOCTimeout e.mTransaction,
        HOEvent.SIPRemoveCall e.mTransaction])
  else if e.mRegisterPerformed then
    (true, T, [HOEvent.handoverOff (TN e.mTCH)])
  else if e.mT3103.expired now ∧ ¬ e.mGotHComplete then
    (true, (TransactionTable.remove T e.mTransaction).2,
      [HOEvent.handoverOff (TN e.mTCH), HOEvent.HOCTimeout e.mTransaction,
        HOEvent.SIPRemoveCall e.mTransaction])
  else (false, T, [])

/-- An outgoing handover (`OutgoingHandover`, declared in RadioResource.h).
`mTransactionHO` is the temporary transaction pointed to (its ID and its
`callingTransaction()` are read through the pointer); `mTransactionMSC` is
`none` as long as no valid reference has been stored in it (the constructor
leaves the member unassigned). -/
structure OutgoingHandover where
  mTransactionHO : TransactionEntry
  mTransactionMSC : Option Nat
  mDestroyTail : Bool
  mT3103 : Z100Timer
  deriving DecidableEq, Repr

/-- `OutgoingHandover::OutgoingHandover(wTransaction)` at time `now`. -/
def OutgoingHandover.new (now T3103 : Nat) (wTransaction : TransactionEntry) :
    OutgoingHandover :=
  { mTransactionHO := wTransaction, mTransactionMSC := none, mDestroyTail := false,
    mT3103 := Z100Timer.set now T3103 }

/-- `OutgoingHandover::destroyTail()` (declared in RadioResource.h): request the
teardown of the relocated leg. -/
def OutgoingHandover.destroyTail (o : OutgoingHandover) : OutgoingHandover :=
  { o with mDestroyTail := true }

/-- What the temporary and the original transaction answer during one
`isFinished` call. `SIPStateBefore` is `mTransactionHO->SIPState()` at the
first test, `SIPStateAfter` the same call at the second test, after
`HOSetupFinished()`; `msgHO` / `msgMSC` tell whether `HOGetSIPMessage()`
returned a message; `uplinkTerm` / `downlinkTerm` are the results of
`HOProxyUplinkSM` / `HOProxyDownlinkSM` when called. -/
structure PollAnswers where
  SIPStateBefore : SIPState
  HOSetupFinished : Bool
  SIPStateAfter : SIPState
  msgHO : Bool
  uplinkTerm : Bool
  msgMSC : Bool
  downlinkTerm : Bool
  deriving DecidableEq, Repr

/-- What one `isFinished` call leaves behind. -/
structure PollResult where
  finished : Bool
  entry : OutgoingHandover
  table : TransactionTable
  events : List HOEvent
  deriving DecidableEq, Repr

/-- `OutgoingHandover::isFinished()` at time `now`. `none` is the use of
`mTransactionMSC` while it holds no valid reference. -/
def OutgoingHandover.isFinished (now : Nat) (a : PollAnswers) (o : OutgoingHandover)
    (T : TransactionTable) : Option PollResult :=
  let HO := o.mTransactionHO.mID
  if o.mDestroyTail then
    some { finished := true, entry := o, table := (TransactionTable.remove T HO).2,
           events := [HOEvent.MODSendBYE HO, HOEvent.SIPRemoveCall HO] }
  else if a.SIPStateBefore ≠ SIPState.HO_Proxy then
    if o.mT3103.expired now then
      some { finished := true, entry := o, table := (TransactionTable.remove T HO).2,
             events := [HOEvent.SIPRemoveCall HO] }
    else if a.HOSetupFinished then
      some { finished := true, entry := o, table := (TransactionTable.remove T HO).2,
             events := [HOEvent.SIPRemoveCall HO] }
    else if a.SIPStateAfter = SIPState.HO_Proxy then
      some { finished := false,
             entry := { o with mTransactionMSC := o.mTransactionHO.mOldTransaction },
             table := T, events := [] }
    else some { finished := false, entry := o, table := T, events := [] }
  else
    -- Proxy activites
    match o.mTransactionMSC with
    | none => none
    | some MSC =>
      let up := if a.msgHO then [HOEvent.HOProxyUplinkSM HO MSC] else []
      if a.msgHO ∧ a.uplinkTerm then
        some { finished := true, entry := o,
               table := (TransactionTable.remove (TransactionTable.remove T HO).2 MSC).2,
               events := up ++ [HOEvent.MTDSendBYEOK HO, HOEvent.SIPRemoveCall HO,
                 HOEvent.SIPRemoveCall MSC] }
      else
        let down := if a.msgMSC then [HOEvent.HOProxyDownlinkSM MSC HO] else []
        if a.msgMSC ∧ a.downlinkTerm then
          some { finished := true, entry := o,
                 table := (TransactionTable.remove (TransactionTable.remove T HO).2 MSC).2,
                 events := up ++ down ++ [HOEvent.MTDSendBYEOK MSC, HOEvent.SIPRemoveCall HO,
                   HOEvent.SIPRemoveCall MSC] }
        else some { finished := false, entry := o, table := T, events := up ++ down }

/-- The state of the `Handover` engine: the inbound list `mHandovers`, the
outgoing list `mOutgoingHandovers`, the last handover reference and the number
of `mHandoverSignal.signal()` calls made so far. -/
structure Handover where
  mHandovers : List HandoverEntry
  mOutgoingHandovers : List OutgoingHandover
  mHandoverReference : Nat
  mHandoverSignal : Nat
  deriving DecidableEq, Repr

/-- The part of `Handover::Handover()` that sets up the engine state. -/
def Handover.new : Handover :=
  { mHandovers := [], mOutgoingHandovers := [], mHandoverReference := 1, mHandoverSignal := 0 }

/-- `Handover::allocateHandoverReference()`. -/
def Handover.allocateHandoverReference (h : Handover) : Nat × Handover :=
  let r := h.mHandoverReference + 1
  let r := if r ≥ 255 then 1 else r
  (r, { h with mHandoverReference := r })

/-- The first loop of `Handover::handoverHandler`: erase the first entry whose
`removeHandoverEntry()` returns true, then stop ("remove a single entry per
cycle"). -/
def Handover.removeLoop (TN : LCH → Nat) (now : Nat) :
    List HandoverEntry → TransactionTable →
    List HandoverEntry × TransactionTable × List HOEvent
  | [], T => ([], T, [])
  | lp :: rest, T =>
    let r := lp.removeHandoverEntry TN now T
    if r.1 then (rest, r.2.1, r.2.2)
    else
      let q := Handover.removeLoop TN now rest r.2.1
      (lp :: q.1, q.2.1, r.2.2 ++ q.2.2)

/-- The second loop of `Handover::handoverHandler`: `T3105Tick()` on every
entry; the returned flag is `delaySipRegister`. -/
def Handover.tickLoop (TN : LCH → Nat) :
    List HandoverEntry → Bool × List HandoverEntry × List HOEvent
  | [] => (false, [], [])
  | lp :: rest =>
    let r := lp.T3105Tick TN
    let q := Handover.tickLoop TN rest
    (r.1 || q.1, r.2.1 :: q.2.1, r.2.2 ++ q.2.2)

/-- The third loop of `Handover::handoverHandler`: poll the outgoing handovers
and erase the first finished one, then stop. `answers` gives what the
transactions of an outgoing handover answer during its poll. -/
def Handover.outgoingLoop (now : Nat) (answers : OutgoingHandover → PollAnswers) :
    List OutgoingHandover → TransactionTable →
    Option (List OutgoingHandover × TransactionTable × List HOEvent)
  | [], T => some ([], T, [])
  | lp :: rest, T =>
    match lp.isFinished now (answers lp) T with
    | none => none
    | some r =>
      if r.finished then some (rest, r.table, r.events)
      else
        match Handover.outgoingLoop now answers rest r.table with
        | none => none
        | some q => some (r.entry :: q.1, q.2.1, r.events ++ q.2.2)

/-- The last loop of `Handover::handoverHandler`: erase the first entry whose
`SipRegister()` returns true, then stop ("one registration procedure per cycle
is enough"); the returned flag tells whether an entry was erased
(`need2sleep` is its negation). -/
def Handover.registerLoop (register : Nat → Option Bool) :
    List HandoverEntry → Bool × List HandoverEntry × List HOEvent
  | [] => (false, [], [])
  | lp :: rest =>
    let r := lp.SipRegister register
    if r.1 then (true, rest, r.2.2)
    else
      let q := Handover.registerLoop register rest
      (q.1, r.2.1 :: q.2.1, r.2.2 ++ q.2.2)

/-- What one iteration of the handover loop leaves behind. -/
structure CycleResult where
  handover : Handover
  table : TransactionTable
  events : List HOEvent
  deriving DecidableEq, Repr

/-- One iteration of the `while(mRunning)` body of `Handover::handoverHandler`,
after the wait, at time `now`. `none` when a poll of an outgoing handover uses
an unassigned `mTransactionMSC`. -/
def Handover.handoverHandler (TN : LCH → Nat) (now : Nat)
    (answers : OutgoingHandover → PollAnswers) (register : Nat → Option Bool)
    (h : Handover) (T : TransactionTable) : Option CycleResult :=
  let p1 := Handover.removeLoop TN now h.mHandovers T
  let p2 := Handover.tickLoop TN p1.1
  match Handover.outgoingLoop now answers h.mOutgoingHandovers p1.2.1 with
  | none => none
  | some p3 =>
    if p2.1 then
      -- delaySipRegister: usleep(mT3105); continue
      some { handover := { h with mHandovers := p2.2.1, mOutgoingHandovers := p3.1 },
             table := p3.2.1,
             events := p1.2.2 ++ p2.2.2 ++ p3.2.2 ++ [HOEvent.usleep] }
    else
      let p4 := Handover.registerLoop register p2.2.1
      some { handover := { h with mHandovers := p4.2.1, mOutgoingHandovers := p3.1 },
             table := p3.2.1,
             events := p1.2.2 ++ p2.2.2 ++ p3.2.2 ++ p4.2.2 ++
               (if p4.1 then [] else [HOEvent.usleep]) }

/-- The search loop of `Handover::handoverAccess`. -/
def Handover.accessLoop (TN : LCH → Nat) (wTN : Nat) (initialTA : Int) :
    List HandoverEntry → List HandoverEntry × List HOEvent
  | [] => ([], [])
  | lp :: rest =>
    if TN lp.mTCH = wTN then
      let r := lp.HandoverAccessDetected TN initialTA
      (r.1 :: rest, r.2)
    else
      let q := Handover.accessLoop TN wTN initialTA rest
      (lp :: q.1, q.2)

/-- `Handover::handoverAccess(wTN, initialTA)`. -/
def Handover.handoverAccess (TN : LCH → Nat) (h : Handover) (wTN : Nat) (initialTA : Int) :
    Handover × List HOEvent :=
  let r := Handover.accessLoop TN wTN initialTA h.mHandovers
  ({ h with mHandovers := r.1 }, r.2)

/-- The search loop of `Handover::handoverComplete`. -/
def Handover.completeLoop (TN : LCH → Nat) (wTN : Nat) :
    List HandoverEntry → List HandoverEntry
  | [] => []
  | lp :: rest =>
    if TN lp.mTCH = wTN then lp.HandoverCompleteDetected :: rest
    else lp :: Handover.completeLoop TN wTN rest

/-- `Handover::handoverComplete(wTN)`. -/
def Handover.handoverComplete (TN : LCH → Nat) (h : Handover) (wTN : Nat) : Handover :=
  { h with mHandovers := Handover.completeLoop TN wTN h.mHandovers }

/-- Modelled from the spec: `TransactionTable::add(TransactionEntry* value)`,
whose body is in TransactionTable.cpp, not among the translated sources. The
declaration says: insert a new entry into the table (a map keyed by ID). -/
def TransactionTable.add (T : TransactionTable) (value : TransactionEntry) :
    TransactionTable :=
  value :: List.filter (fun t => t.mID != value.mID) T

/-- `Handover::addHandover(callID, IMSI, l3ti, callerHost, msg,
existingTransaction)` at time `now`: the returned value, the engine and the
transaction table afterwards, and the calls made. `getTCH` is the answer of
`gBTS.getTCH()` (`none` for a null pointer); `transaction` is the entry built
by `new Control::TransactionEntry(callerHost, mobileID, TCH, l3ti,
HandoverOriginatedCall, existingTransaction)` and set up by `SIPUser` and
`saveINVITE`, all of them in TransactionTable.cpp; `Ny1` and `T3103` are the
configuration values read by the `HandoverEntry` constructor. -/
def Handover.addHandover (TN : LCH → Nat) (now Ny1 T3103 : Nat) (getTCH : Option LCH)
    (transaction : TransactionEntry) (h : Handover) (T : TransactionTable) :
    Bool × Handover × TransactionTable × List HOEvent :=
  -- allocate a channel
  match getTCH with
  | none => (false, h, T, [])
  | some TCH =>
    if h.mHandovers.any (fun lp => decide (TN lp.mTCH = TN TCH)) then (false, h, T, [])
    else
      let r := h.allocateHandoverReference
      let handoverReference := r.1
      let entry := HandoverEntry.new TN now Ny1 T3103 transaction.mID TCH handoverReference
      (true,
        { r.2 with mHandovers := r.2.mHandovers ++ [entry.1],
                   mHandoverSignal := r.2.mHandoverSignal + 1 },
        TransactionTable.add T transaction,
        [HOEvent.TCHOpen TCH] ++ entry.2 ++
          [HOEvent.HOCSendHandoverAck transaction.mID handoverReference])

/-- The states of the handover engine reachable from an empty inbound list by
`addHandover`, `handoverAccess` and `handoverComplete` calls, iterations of the
handover loop, and any change of the outgoing list. -/
inductive Handover.Reachable (TN : LCH → Nat) : Handover → Prop where
  | init (h : Handover) : h.mHandovers = [] → Handover.Reachable TN h
  | addHandover (now Ny1 T3103 : Nat) (getTCH : Option LCH) (transaction : TransactionEntry)
      (h : Handover) (T : TransactionTable) :
      Handover.Reachable TN h →
      Handover.Reachable TN (Handover.addHandover TN now Ny1 T3103 getTCH transaction h T).2.1
  | handoverAccess (h : Handover) (wTN : Nat) (initialTA : Int) :
      Handover.Reachable TN h →
      Handover.Reachable TN (Handover.handoverAccess TN h wTN initialTA).1
  | handoverComplete (h : Handover) (wTN : Nat) :
      Handover.Reachable TN h → Handover.Reachable TN (Handover.handoverComplete TN h wTN)
  | handoverHandler (now : Nat) (answers : OutgoingHandover → PollAnswers)
      (register : Nat → Option Bool) (h : Handover) (T : TransactionTable) (r : CycleResult) :
      Handover.Reachable TN h →
      Handover.handoverHandler TN now answers register h T = some r →
      Handover.Reachable TN r.handover
  | outgoing (h : Handover) (outs : List OutgoingHandover) :
      Handover.Reachable TN h → Handover.Reachable TN { h with mOutgoingHandovers := outs }

/-- The removal condition as the specification words it: (a) access detected
and retry budget exhausted, (b) registration performed, (c) lifetime timer
expired while not complete. -/
def HandoverEntry.removalCondition (now : Nat) (e : HandoverEntry) : Prop :=
  (e.mGotHA = true ∧ e.mNy1 ≤ e.mPhysicalInfoAttempts) ∨
  e.mRegisterPerformed = true ∨
  (e.mT3103.expired now = true ∧ e.mGotHComplete = false)

/-! ## Assignment complete and handover complete handlers -/

/-- The exceptions thrown to the caller of a handler: `UnexpectedMessage()` and
`UnsupportedMessage(transactionID)`. -/
inductive HandlerFault where
  | UnexpectedMessage
  | UnsupportedMessage (transactionID : Nat)
  deriving DecidableEq, Repr

/-- Modelled from the spec: `TransactionTable::find(const GSM::LogicalChannel
*chan)`, whose body is in TransactionTable.cpp, not among the translated
sources. The declaration says: find an entry by its channel pointer, return
the first entry found, also clear dead entries during the search. The result
is the entry, if any, and the table afterwards. -/
def TransactionTable.findByChannel (T : TransactionTable) (chan : LCH) :
    Option TransactionEntry × TransactionTable :=
  let T1 := List.filter (fun t => !t.dead) T
  (List.find? (fun t => t.mChannel == some chan) T1, T1)

/-- `Control::AssignmentCompleteHandler(confirm, TCH)`: the transaction table
afterwards, the calls made, and the exception thrown (`none` when the handler
returns normally). -/
def AssignmentCompleteHandler (T : TransactionTable) (TCH : LCH) :
    TransactionTable × List HOEvent × Option HandlerFault :=
  -- Check the transaction table to know what to do next.
  let found := TransactionTable.findByChannel T TCH
  match found.1 with
  | none => (found.2, [], some HandlerFault.UnexpectedMessage)
  | some transaction =>
    match transaction.mService with
    | L3CMServiceType.MobileOriginatedCall =>
      (found.2, [HOEvent.MOCController transaction.mID TCH], none)
    | L3CMServiceType.MobileTerminatedCall =>
      (found.2, [HOEvent.MTCController transaction.mID TCH], none)
    | _ => (found.2, [], some (HandlerFault.UnsupportedMessage transaction.mID))

/-- `Control::HandoverCompleteHandler(confirm, DCCH)`: the handover engine and
the transaction table afterwards, the calls made, and the exception thrown
(`none` when the handler returns normally). `rtpPort` is the answer of
`allocateRTPPorts()`. -/
def HandoverCompleteHandler (TN : LCH → Nat) (rtpPort : Nat) (h : Handover)
    (T : TransactionTable) (DCCH : LCH) :
    Handover × TransactionTable × List HOEvent × Option HandlerFault :=
  let found := TransactionTable.findByChannel T DCCH
  match found.1 with
  | none =>
    -- unable to resolve transaction for handover complete
    (h, found.2, [], none)
  | some transaction =>
    let h1 := Handover.handoverComplete TN h (TN DCCH)
    match transaction.mExistingTransaction with
    | none =>
      -- a handover with a new IMSI
      (h1,
        found.2.map (fun t =>
          if t.mID = transaction.mID then t.setGSMState CallState.Active else t),
        [HOEvent.allocateRTPPorts, HOEvent.HOCSendOK transaction.mID rtpPort,
          HOEvent.MTCInitRTP transaction.mID,
          HOEvent.callManagementLoop transaction.mID DCCH],
        none)
    | some existingTransaction =>
      -- flipping handover loop
      (h1,
        found.2.map (fun t =>
          if t.mID = existingTransaction then t.setGSMState CallState.Active else t),
        [HOEvent.allocateRTPPorts, HOEvent.HOCTimeout transaction.mID,
          HOEvent.HOSendREINVITE existingTransaction rtpPort,
          HOEvent.cutHandoverTail existingTransaction DCCH,
          HOEvent.MTCInitRTP existingTransaction,
          HOEvent.callManagementLoop existingTransaction DCCH],
        none)

/-! ## Admission screens and channel hand-out of the arbitrator -/

/-- The screens of `AccessGrantResponder` that come before the location-update
check, as the specification lists them: no hold-off, request age within the
maximum, timing error within the maximum, an AGCH (with load `load`) that is
not congested. -/
def passesScreens (cfg : Config) (bts : BTS) (timingError : ℚ) (load : Nat) : Prop :=
  bts.hold = false ∧ bts.age ≤ cfg.maxAge ∧ timingError ≤ (cfg.TAMax : ℚ) ∧
    bts.AGCH = some load ∧ (load : Int) ≤ cfg.AGCHQMax

/-- The location-update reserve check refuses the request. -/
def refusedByReserve (cfg : Config) (bts : BTS) (RA : Nat) : Prop :=
  requestingLUR cfg RA = true ∧ castInt bts.SDCCHAvailable ≤ cfg.SDCCHReserve

/-- The two `gReports` increments made at the start of every call. -/
def rachReports (RA : Nat) (timingError : ℚ) : List Event :=
  [Event.reportsIncr Counter.RACH_TA_All (truncToInt timingError),
    Event.reportsIncr Counter.RACH_RA_All (RA : Int)]

/-- The channel obtained during a call (the value of `LCH` after the
`switch`): the provider's answer to the first channel request of the trace,
`none` when no request was made or the provider returned a null pointer. -/
def channelObtained (bts : BTS) : List Event → Option LCH
  | [] => none
  | Event.getTCH :: _ => bts.getTCH
  | Event.getSDCCH :: _ => bts.getSDCCH
  | _ :: es => channelObtained bts es

/-- The number of `Event.getTCH` calls (requests for a traffic channel). -/
def tchRequests : List Event → Nat
  | [] => 0
  | Event.getTCH :: es => tchRequests es + 1
  | _ :: es => tchRequests es

/-! ## Handover reference allocation and BTS-side handover decision -/

/-- The values returned by `n` consecutive calls of
`Handover::allocateHandoverReference`, in call order, and the engine
afterwards. -/
def Handover.allocateMany : Nat → Handover → List Nat × Handover
  | 0, h => ([], h)
  | n + 1, h =>
    let r := h.allocateHandoverReference
    let q := Handover.allocateMany n r.2
    (r.1 :: q.1, q.2)

/-- Calls made by `Handover::BTSDecision` on the transaction and on the
engine. -/
inductive DecisionEvent where
  | average (transactionID : Nat)
  | performHandover (subscriber : L3MobileIdentity) (whichBTS : String)
  | resetMeasurement (transactionID : Nat) (index : Nat)
  deriving DecidableEq, Repr

/-- What `Handover::BTSDecision` reads during one call: the member
`mBTSDesicion`, the configuration values `GSM.Handover.BTS.Enable` and
`GSM.Handover.BTS.Hysteresis`, the member `mNeighborAddresses`, the value of
`wMeasurementResults.NO_NCELL()`, the vector returned by
`transaction->average(...)` and the answer of `transaction->handoverAllowed()`. -/
structure DecisionInput where
  mBTSDesicion : Bool
  Enable : Int
  Hysteresis : Int
  mNeighborAddresses : List String
  NO_NCELL : Nat
  averaged : List Int
  handoverAllowed : Bool
  deriving DecidableEq, Repr

/-- The loop of `Handover::BTSDecision`,
`for(int i=0, index=max=0; i<NO_NCELL; i++){ diff = averaged[i] - averaged[6];
if(diff>max) { max = diff, index = i; } }`, from neighbour `i` on, for `steps`
more neighbours: the values of `max` and of the `index` of the loop afterwards.
`none` when `averaged` is read out of range. -/
def Handover.decisionLoop (averaged : List Int) : Nat → Nat → Int → Nat → Option (Int × Nat)
  | 0, _, max, index => some (max, index)
  | steps + 1, i, max, index =>
    match averaged[i]?, averaged[6]? with
    | some a, some serving =>
      let diff := a - serving
      if diff > max then Handover.decisionLoop averaged steps (i + 1) diff i
      else Handover.decisionLoop averaged steps (i + 1) max index
    | _, _ => none

/-- `Handover::BTSDecision(transaction, wMeasurementResults)`: the calls made,
in program order. The function declares `int max,index,diff;` without
initialisers; the init-statement of its loop, `int i=0, index=max=0`, is a
declaration: it assigns 0 to `max` and declares a second `index`, local to the
loop, which is the one the loop body assigns. The `index` read after the loop
is the first one, which no statement has assigned (`none`); the result is
`none` when it is read, or when a vector is read out of range. -/
def Handover.BTSDecision (d : DecisionInput) (transaction : TransactionEntry) :
    Option (List DecisionEvent) :=
  if d.mBTSDesicion ∧ d.Enable ≠ 0 then
    if d.NO_NCELL = 0 then
      -- handover BTS decision: no useful data
      some []
    else
      let ev := [DecisionEvent.average transaction.mID]
      if ¬ d.handoverAllowed then some ev
      else
        -- int max,index,diff;
        let index : Option Nat := none
        match Handover.decisionLoop d.averaged d.NO_NCELL 0 0 0 with
        | none => none
        | some (max, _) =>
          if max > d.Hysteresis then
            match index with
            | none => none
            | some index =>
              match d.mNeighborAddresses[index]? with
              | none => none
              | some addr =>
                some (ev ++ [DecisionEvent.performHandover transaction.mSubscriber addr,
                  -- permit changing a favorite
                  DecisionEvent.resetMeasurement transaction.mID index])
          else some ev
  else
    -- handover decision at BTS is prohibited
    some []

/-- The best neighbour as the specification words it: with the deltas
`averaged[i] - averaged[6]` of the `n` reported neighbours, `m` is the largest
of 0 and the deltas, and the target is the smallest neighbour index whose delta
equals `m` (`none` when no delta does). -/
def Handover.bestNeighbour (averaged : List Int) (n : Nat) : Int × Option Nat :=
  let deltas := (List.range n).map (fun i => averaged.getD i 0 - averaged.getD 6 0)
  let m := deltas.foldl max 0
  (m, (List.range n).find? (fun i => decide (averaged.getD i 0 - averaged.getD 6 0 = m)))

/-! ## Properties of the channel request arbitrator -/

/-- The decoder written as the priority ladder (shared by the results below). -/
theorem decodeChannelNeeded_ladder (n : Int) (v : Bool) (x y z w : Int) (RA : Nat)
    (hNECI : n = 0 ∨ n = 1) :
    decodeChannelNeeded ⟨n, v, x, y, z, w⟩ RA = some (channelLadder n v RA) := by
  simp only [decodeChannelNeeded, channelLadder, Nat.shiftRight_eq_div_pow]
  have hb : RA / 2 ^ 5 = (RA / 2 ^ 4) / 2 := by omega
  rw [hb]
  generalize RA / 2 ^ 4 = a
  rcases Nat.lt_or_ge a 16 with ha | ha
  · rcases hNECI with h | h <;> subst h <;> cases v <;> interval_cases a <;> rfl
  · have h1 : ¬ a / 2 = 4 := by omega
    have h2 : ¬ a = 1 := by omega
    have h3 : ¬ a = 2 := by omega
    have h4 : ¬ a = 3 := by omega
    have h5 : ¬ a / 2 = 7 := by omega
    have h6 : ¬ a / 2 = 0 := by omega
    have h7 : ¬ a = 4 := by omega
    have h8 : ¬ a = 0 := by omega
    rcases hNECI with h | h <;> subst h <;> cases v <;>
      simp only [h1, h2, h3, h4, h5, h6, h7, h8, if_false, or_self, and_false, if_true,
        ne_eq, not_true_eq_false, zero_ne_one, one_ne_zero, Int.reduceEq, ↓reduceIte, and_self,
        Bool.false_eq_true]

/-- The ladder only produces the three classes of the arbitrator. -/
theorem channelLadder_range (n : Int) (v : Bool) (RA : Nat) :
    channelLadder n v RA = ChannelType.TCHFType ∨
      channelLadder n v RA = ChannelType.SDCCHType ∨
      channelLadder n v RA = ChannelType.UndefinedCHType := by
  unfold channelLadder
  split_ifs <;> simp

/-- On a location-update code the ladder gives the SDCCH class. -/
theorem channelLadder_of_requestingLUR (cfg : Config) (RA : Nat)
    (hNECI : cfg.NECI = 0 ∨ cfg.NECI = 1) (hLUR : requestingLUR cfg RA = true) :
    channelLadder cfg.NECI cfg.VEA RA = ChannelType.SDCCHType := by
  obtain ⟨n, v, x, y, z, w⟩ := cfg
  simp only at hNECI
  simp only [requestingLUR, Nat.shiftRight_eq_div_pow] at hLUR
  simp only [channelLadder, Nat.shiftRight_eq_div_pow]
  have hb : RA / 2 ^ 5 = (RA / 2 ^ 4) / 2 := by omega
  rw [hb] at hLUR ⊢
  generalize RA / 2 ^ 4 = a at hLUR ⊢
  rcases hNECI with h | h <;> subst h
  · simp only [if_true, decide_eq_true_eq] at hLUR
    have ha : a < 2 := by omega
    cases v <;> interval_cases a <;> rfl
  · simp only [one_ne_zero, if_false, decide_eq_true_eq] at hLUR
    subst hLUR
    cases v <;> rfl

/-- A request that indicates a location update needs an SDCCH (NECI in {0,1}). -/
theorem decodeChannelNeeded_of_requestingLUR (cfg : Config) (RA : Nat)
    (hNECI : cfg.NECI = 0 ∨ cfg.NECI = 1) (hLUR : requestingLUR cfg RA = true) :
    decodeChannelNeeded cfg RA = some ChannelType.SDCCHType := by
  have h := channelLadder_of_requestingLUR cfg RA hNECI hLUR
  obtain ⟨n, v, x, y, z, w⟩ := cfg
  rw [decodeChannelNeeded_ladder n v x y z w RA hNECI]
  exact congrArg some h

/-- C1. `decodeChannelNeeded` is total and depends on nothing but the request
code and the two policy values: for NECI in {0,1} it returns one of
`TCHFType`, `SDCCHType`, `UndefinedCHType`, and any configuration with the
same NECI and VEA gives the same class for the same code. -/
theorem decodeChannelNeeded_total_deterministic (cfg cfg' : Config) (RA : Nat)
    (hNECI : cfg.NECI = 0 ∨ cfg.NECI = 1)
    (hN : cfg'.NECI = cfg.NECI) (hV : cfg'.VEA = cfg.VEA) :
    ∃ c, decodeChannelNeeded cfg RA = some c ∧
      (c = ChannelType.TCHFType ∨ c = ChannelType.SDCCHType ∨
        c = ChannelType.UndefinedCHType) ∧
      decodeChannelNeeded cfg' RA = some c := by
  obtain ⟨n, v, a, t, q, r⟩ := cfg
  obtain ⟨n', v', a', t', q', r'⟩ := cfg'
  simp only at hNECI hN hV
  subst hN hV
  exact ⟨channelLadder n' v' RA, decodeChannelNeeded_ladder n' v' a t q r RA hNECI,
    channelLadder_range n' v' RA, decodeChannelNeeded_ladder n' v' a' t' q' r' RA hNECI⟩

/-- C1 at a concrete input: NECI = 1, VEA on, request code 0xE5, two
configurations that differ in every other key. -/
theorem decodeChannelNeeded_total_deterministic_witness :
    ((1 : Int) = 0 ∨ (1 : Int) = 1) ∧
    ∃ c, decodeChannelNeeded ⟨1, true, 10, 63, 5, 2⟩ 0xE5 = some c ∧
      (c = ChannelType.TCHFType ∨ c = ChannelType.SDCCHType ∨
        c = ChannelType.UndefinedCHType) ∧
      decodeChannelNeeded ⟨1, true, 99, 3, 0, 7⟩ 0xE5 = some c :=
  ⟨by decide,
   decodeChannelNeeded_total_deterministic ⟨1, true, 10, 63, 5, 2⟩ ⟨1, true, 99, 3, 0, 7⟩ 0xE5
     (by decide) rfl rfl⟩

/-- C2. For NECI in {0,1} and every request code, `decodeChannelNeeded`
returns the class given by the priority ladder `channelLadder`. -/
theorem decodeChannelNeeded_eq_ladder (cfg : Config) (RA : Nat)
    (hNECI : cfg.NECI = 0 ∨ cfg.NECI = 1) :
    decodeChannelNeeded cfg RA = some (channelLadder cfg.NECI cfg.VEA RA) := by
  obtain ⟨n, v, a, t, q, r⟩ := cfg
  exact decodeChannelNeeded_ladder n v a t q r RA hNECI

/-- C2 at a concrete input: NECI = 0, request code 0x1F. -/
theorem decodeChannelNeeded_eq_ladder_witness :
    ((0 : Int) = 0 ∨ (0 : Int) = 1) ∧
    decodeChannelNeeded ⟨0, false, 10, 63, 5, 2⟩ 0x1F =
      some (channelLadder 0 false 0x1F) :=
  ⟨by decide, decodeChannelNeeded_eq_ladder ⟨0, false, 10, 63, 5, 2⟩ 0x1F (by decide)⟩

/-- The narrowing cast is the identity on counts below `2^31`. -/
theorem castInt_of_lt (n : Nat) (h : n < 2 ^ 31) : castInt n = (n : Int) := by
  have h1 : n % 2 ^ 32 = n := Nat.mod_eq_of_lt (by omega)
  unfold castInt
  rw [h1, if_pos h]

/-- The trace of a request that passes every screen and is granted `chan`. -/
theorem AccessGrantResponder_granted (cfg : Config) (bts : BTS) (RA when : Nat)
    (RSSI timingError : ℚ) (load : Nat) (type : ChannelType) (request : Event) (chan : LCH)
    (hhold : bts.hold = false) (hage : bts.age ≤ cfg.maxAge)
    (hte : timingError ≤ (cfg.TAMax : ℚ)) (hAGCH : bts.AGCH = some load)
    (hload : (load : Int) ≤ cfg.AGCHQMax)
    (hres : ¬ (requestingLUR cfg RA = true ∧ castInt bts.SDCCHAvailable ≤ cfg.SDCCHReserve))
    (hdec : decodeChannelNeeded cfg RA = some type)
    (hch : allocateChannel bts type = some (request, some chan)) :
    AccessGrantResponder cfg bts RA when RSSI timingError =
      some [Event.reportsIncr Counter.RACH_TA_All (truncToInt timingError),
        Event.reportsIncr Counter.RACH_RA_All (RA : Int),
        request,
        Event.setPhy chan RSSI timingError,
        Event.reportsIncr Counter.RACH_TA_Accepted (truncToInt timingError),
        Event.AGCHSend (AGCHMessage.L3ImmediateAssignment RA when chan (initialTA timingError)),
        Event.shrinkT3122] := by
  have h1 : ¬ bts.age > cfg.maxAge := not_lt.mpr hage
  have h2 : ¬ timingError > (cfg.TAMax : ℚ) := not_lt.mpr hte
  have h3 : ¬ (load : Int) > cfg.AGCHQMax := not_lt.mpr hload
  simp only [AccessGrantResponder, hhold, h1, h2, h3, hAGCH, hres, hdec, hch]
  simp

/-- The trace of a request that passes every screen and finds no channel. -/
theorem AccessGrantResponder_congested (cfg : Config) (bts : BTS) (RA when : Nat)
    (RSSI timingError : ℚ) (load : Nat) (type : ChannelType) (request : Event)
    (hhold : bts.hold = false) (hage : bts.age ≤ cfg.maxAge)
    (hte : timingError ≤ (cfg.TAMax : ℚ)) (hAGCH : bts.AGCH = some load)
    (hload : (load : Int) ≤ cfg.AGCHQMax)
    (hres : ¬ (requestingLUR cfg RA = true ∧ castInt bts.SDCCHAvailable ≤ cfg.SDCCHReserve))
    (hdec : decodeChannelNeeded cfg RA = some type)
    (hch : allocateChannel bts type = some (request, none)) :
    AccessGrantResponder cfg bts RA when RSSI timingError =
      some [Event.reportsIncr Counter.RACH_TA_All (truncToInt timingError),
        Event.reportsIncr Counter.RACH_RA_All (RA : Int),
        request,
        Event.growT3122,
        Event.AGCHSend
          (AGCHMessage.L3ImmediateAssignmentReject RA when (bts.growT3122 / 1000))] := by
  have h1 : ¬ bts.age > cfg.maxAge := not_lt.mpr hage
  have h2 : ¬ timingError > (cfg.TAMax : ℚ) := not_lt.mpr hte
  have h3 : ¬ (load : Int) > cfg.AGCHQMax := not_lt.mpr hload
  simp only [AccessGrantResponder, hhold, h1, h2, h3, hAGCH, hres, hdec, hch]
  simp

/-- The trace of a location-update request refused by the reserve check. -/
theorem AccessGrantResponder_reserve (cfg : Config) (bts : BTS) (RA when : Nat)
    (RSSI timingError : ℚ) (load : Nat)
    (hhold : bts.hold = false) (hage : bts.age ≤ cfg.maxAge)
    (hte : timingError ≤ (cfg.TAMax : ℚ)) (hAGCH : bts.AGCH = some load)
    (hload : (load : Int) ≤ cfg.AGCHQMax)
    (hres : requestingLUR cfg RA = true ∧ castInt bts.SDCCHAvailable ≤ cfg.SDCCHReserve) :
    AccessGrantResponder cfg bts RA when RSSI timingError =
      some [Event.reportsIncr Counter.RACH_TA_All (truncToInt timingError),
        Event.reportsIncr Counter.RACH_RA_All (RA : Int),
        Event.growT3122,
        Event.AGCHSend
          (AGCHMessage.L3ImmediateAssignmentReject RA when (bts.growT3122 / 1000))] := by
  have h1 : ¬ bts.age > cfg.maxAge := not_lt.mpr hage
  have h2 : ¬ timingError > (cfg.TAMax : ℚ) := not_lt.mpr hte
  have h3 : ¬ (load : Int) > cfg.AGCHQMax := not_lt.mpr hload
  simp only [AccessGrantResponder, hhold, h1, h2, h3, hAGCH, hres]
  simp

/-- The admission of a location-update request for any reserve and any
provider (NECI in {0,1}, `N < 2^31` free SDCCHs, reserve `R`): the request is
rejected if and only if `N ≤ R` or the provider returns no SDCCH; when `N ≤ R`
the rejection is sent without any channel request; when `N > R` and the
provider returns a channel, the assignment for that channel is sent. -/
theorem AccessGrantResponder_LUR_admission (cfg : Config) (bts : BTS) (RA when : Nat)
    (RSSI timingError : ℚ) (load : Nat)
    (hNECI : cfg.NECI = 0 ∨ cfg.NECI = 1)
    (hhold : bts.hold = false) (hage : bts.age ≤ cfg.maxAge)
    (hte : timingError ≤ (cfg.TAMax : ℚ)) (hAGCH : bts.AGCH = some load)
    (hload : (load : Int) ≤ cfg.AGCHQMax)
    (hLUR : requestingLUR cfg RA = true) (hN : bts.SDCCHAvailable < 2 ^ 31) :
    ∃ tr, AccessGrantResponder cfg bts RA when RSSI timingError = some tr ∧
      ((∃ w, agchSent tr = [AGCHMessage.L3ImmediateAssignmentReject RA when w]) ↔
        ((bts.SDCCHAvailable : Int) ≤ cfg.SDCCHReserve ∨ bts.getSDCCH = none)) ∧
      ((bts.SDCCHAvailable : Int) ≤ cfg.SDCCHReserve →
        agchSent tr = [AGCHMessage.L3ImmediateAssignmentReject RA when (bts.growT3122 / 1000)] ∧
        channelRequests tr = 0) ∧
      (∀ chan, ¬ (bts.SDCCHAvailable : Int) ≤ cfg.SDCCHReserve → bts.getSDCCH = some chan →
        agchSent tr =
          [AGCHMessage.L3ImmediateAssignment RA when chan (initialTA timingError)]) := by
  have hdec := decodeChannelNeeded_of_requestingLUR cfg RA hNECI hLUR
  have hcast := castInt_of_lt bts.SDCCHAvailable hN
  by_cases hres : (bts.SDCCHAvailable : Int) ≤ cfg.SDCCHReserve
  · refine ⟨_, AccessGrantResponder_reserve cfg bts RA when RSSI timingError load hhold hage hte
      hAGCH hload ⟨hLUR, by rw [hcast]; exact hres⟩, ?_, ?_, ?_⟩
    · simp [agchSent, hres]
    · intro _; simp [agchSent, channelRequests]
    · intro chan h; exact absurd hres h
  · have hres' : ¬ (requestingLUR cfg RA = true ∧
        castInt bts.SDCCHAvailable ≤ cfg.SDCCHReserve) := by
      rw [hcast]; exact fun h => hres h.2
    cases hg : bts.getSDCCH with
    | none =>
      refine ⟨_, AccessGrantResponder_congested cfg bts RA when RSSI timingError load
        ChannelType.SDCCHType Event.getSDCCH hhold hage hte hAGCH hload hres' hdec
        (by simp [allocateChannel, hg]), ?_, ?_, ?_⟩
      · simp [agchSent]
      · intro h; exact absurd h hres
      · intro chan _ h; cases h
    | some c =>
      refine ⟨_, AccessGrantResponder_granted cfg bts RA when RSSI timingError load
        ChannelType.SDCCHType Event.getSDCCH c hhold hage hte hAGCH hload hres' hdec
        (by simp [allocateChannel, hg]), ?_, ?_, ?_⟩
      · simp [agchSent, hres]
      · intro h; exact absurd h hres
      · intro chan _ h
        cases h
        simp [agchSent]

/-- C3. Admission of a location update under the reserve. For a request that
indicates a location update and reaches the admission step (no hold-off, age
and timing error within bounds, AGCH not congested, NECI in {0,1}), with `N`
free SDCCHs (`N < 2^31`), a configured reserve `R ≥ 0` and a provider that hands
out an SDCCH when one is free, the request is rejected if and only if `N ≤ R`,
and answered by an assignment if and only if `N > R`; the rejection is sent
without any channel request; in particular the request is rejected for `N = R`
and for `N = 0`, and for `N = R + 1` the assignment of the channel handed out is
sent. -/
theorem AccessGrantResponder_LUR_reserve (cfg : Config) (bts : BTS) (RA when : Nat)
    (RSSI timingError : ℚ) (load : Nat)
    (hNECI : cfg.NECI = 0 ∨ cfg.NECI = 1)
    (hhold : bts.hold = false) (hage : bts.age ≤ cfg.maxAge)
    (hte : timingError ≤ (cfg.TAMax : ℚ)) (hAGCH : bts.AGCH = some load)
    (hload : (load : Int) ≤ cfg.AGCHQMax)
    (hLUR : requestingLUR cfg RA = true) (hN : bts.SDCCHAvailable < 2 ^ 31)
    (hR : 0 ≤ cfg.SDCCHReserve)
    (hfree : 0 < bts.SDCCHAvailable → bts.getSDCCH ≠ none) :
    ∃ tr, AccessGrantResponder cfg bts RA when RSSI timingError = some tr ∧
      ((∃ w, agchSent tr = [AGCHMessage.L3ImmediateAssignmentReject RA when w]) ↔
        (bts.SDCCHAvailable : Int) ≤ cfg.SDCCHReserve) ∧
      ((∃ chan, agchSent tr =
          [AGCHMessage.L3ImmediateAssignment RA when chan (initialTA timingError)]) ↔
        cfg.SDCCHReserve < (bts.SDCCHAvailable : Int)) ∧
      ((bts.SDCCHAvailable : Int) ≤ cfg.SDCCHReserve →
        agchSent tr = [AGCHMessage.L3ImmediateAssignmentReject RA when (bts.growT3122 / 1000)] ∧
        channelRequests tr = 0) ∧
      ((bts.SDCCHAvailable : Int) = cfg.SDCCHReserve →
        ∃ w, agchSent tr = [AGCHMessage.L3ImmediateAssignmentReject RA when w]) ∧
      (bts.SDCCHAvailable = 0 →
        ∃ w, agchSent tr = [AGCHMessage.L3ImmediateAssignmentReject RA when w]) ∧
      ((bts.SDCCHAvailable : Int) = cfg.SDCCHReserve + 1 →
        ∃ chan, bts.getSDCCH = some chan ∧
          agchSent tr =
            [AGCHMessage.L3ImmediateAssignment RA when chan (initialTA timingError)]) := by
  obtain ⟨tr, htr, hiff, hrej, hgrant⟩ := AccessGrantResponder_LUR_admission cfg bts RA when
    RSSI timingError load hNECI hhold hage hte hAGCH hload hLUR hN
  have hchan : cfg.SDCCHReserve < (bts.SDCCHAvailable : Int) →
      ∃ chan, bts.getSDCCH = some chan ∧
        agchSent tr =
          [AGCHMessage.L3ImmediateAssignment RA when chan (initialTA timingError)] := by
    intro hlt
    have hpos : 0 < bts.SDCCHAvailable := by omega
    cases hg : bts.getSDCCH with
    | none => exact absurd hg (hfree hpos)
    | some chan => exact ⟨chan, rfl, hgrant chan (not_le.mpr hlt) hg⟩
  have hrejiff : (∃ w, agchSent tr = [AGCHMessage.L3ImmediateAssignmentReject RA when w]) ↔
      (bts.SDCCHAvailable : Int) ≤ cfg.SDCCHReserve := by
    constructor
    · intro hw
      by_contra hc
      obtain ⟨chan, _, hs⟩ := hchan (not_le.mp hc)
      obtain ⟨w, hw⟩ := hw
      rw [hs] at hw
      cases hw
    · intro hle
      exact hiff.mpr (Or.inl hle)
  refine ⟨tr, htr, hrejiff, ?_, hrej, ?_, ?_, ?_⟩
  · constructor
    · intro hc
      by_contra hle
      obtain ⟨hs, _⟩ := hrej (not_lt.mp hle)
      obtain ⟨chan, hc⟩ := hc
      rw [hs] at hc
      cases hc
    · intro hlt
      obtain ⟨chan, _, hs⟩ := hchan hlt
      exact ⟨chan, hs⟩
  · intro heq
    exact hrejiff.mpr (le_of_eq heq)
  · intro h0
    apply hrejiff.mpr
    rw [h0]
    exact_mod_cast hR
  · intro heq
    exact hchan (by omega)

/-- C3 at a concrete input: a location update with `N = 3 = R + 1` free SDCCHs
and channel 7 on offer is answered by the assignment of channel 7. -/
theorem AccessGrantResponder_LUR_reserve_witness :
    ∃ tr, AccessGrantResponder ⟨0, false, 10, 63, 5, 2⟩
        ⟨false, 3, some 1, 3, 2000, none, some 7⟩ 0 40 (-60) 3 = some tr ∧
      ∃ chan, (some 7 : Option LCH) = some chan ∧
        agchSent tr = [AGCHMessage.L3ImmediateAssignment 0 40 chan (initialTA 3)] :=
  let ⟨tr, h1, _, _, _, _, _, h7⟩ := AccessGrantResponder_LUR_reserve
    ⟨0, false, 10, 63, 5, 2⟩ ⟨false, 3, some 1, 3, 2000, none, some 7⟩ 0 40 (-60) 3 1
    (by decide) rfl (by decide) (by decide) rfl (by decide) (by decide) (by decide)
    (by decide) (by decide)
  ⟨tr, h1, h7 (by decide)⟩

/-- C4 (as stated, refuted). Three requests whose code decodes to SDCCH, with
age and timing error within bounds and an SDCCH available, that are not
answered by an assignment: under BTS hold-off nothing is sent; with the AGCH
load above `GSM.CCCH.AGCH.QMax` nothing is sent; a location update with
`N = R = 2` is answered by a rejection. The backoff counter is not shrunk in
any of them. -/
theorem AccessGrantResponder_scenarioA_counterexample :
    (decodeChannelNeeded ⟨0, false, 10, 63, 5, 2⟩ 0xE0 = some ChannelType.SDCCHType ∧
      (3 : Int) ≤ 10 ∧ (1 : ℚ) ≤ ((63 : Int) : ℚ) ∧
      AccessGrantResponder ⟨0, false, 10, 63, 5, 2⟩ ⟨true, 3, some 0, 4, 2000, none, some 7⟩
          0xE0 40 0 1 =
        some [Event.reportsIncr Counter.RACH_TA_All 1,
          Event.reportsIncr Counter.RACH_RA_All 0xE0]) ∧
    (AccessGrantResponder ⟨0, false, 10, 63, 5, 2⟩ ⟨false, 3, some 6, 4, 2000, none, some 7⟩
          0xE0 40 0 1 =
        some [Event.reportsIncr Counter.RACH_TA_All 1,
          Event.reportsIncr Counter.RACH_RA_All 0xE0]) ∧
    (decodeChannelNeeded ⟨0, false, 10, 63, 5, 2⟩ 0 = some ChannelType.SDCCHType ∧
      AccessGrantResponder ⟨0, false, 10, 63, 5, 2⟩ ⟨false, 3, some 0, 2, 2000, none, some 7⟩
          0 40 0 1 =
        some [Event.reportsIncr Counter.RACH_TA_All 1,
          Event.reportsIncr Counter.RACH_RA_All 0,
          Event.growT3122,
          Event.AGCHSend (AGCHMessage.L3ImmediateAssignmentReject 0 40 2)]) := by
  decide

/-- C4 (amended). A request whose code decodes to SDCCH, with age and timing
error within bounds and an SDCCH available, and moreover with no hold-off, an
AGCH whose load does not exceed `GSM.CCCH.AGCH.QMax`, and not refused by the
location-update reserve check, makes `AccessGrantResponder` send exactly one
message on the AGCH, the assignment of the obtained channel, shrink the
backoff counter once and never grow it. -/
theorem AccessGrantResponder_scenarioA (cfg : Config) (bts : BTS) (RA when : Nat)
    (RSSI timingError : ℚ) (load : Nat) (chan : LCH)
    (hdec : decodeChannelNeeded cfg RA = some ChannelType.SDCCHType)
    (hage : bts.age ≤ cfg.maxAge) (hte : timingError ≤ (cfg.TAMax : ℚ))
    (hch : bts.getSDCCH = some chan)
    (hhold : bts.hold = false) (hAGCH : bts.AGCH = some load)
    (hload : (load : Int) ≤ cfg.AGCHQMax)
    (hres : requestingLUR cfg RA = true → cfg.SDCCHReserve < castInt bts.SDCCHAvailable) :
    ∃ tr, AccessGrantResponder cfg bts RA when RSSI timingError = some tr ∧
      agchSent tr = [AGCHMessage.L3ImmediateAssignment RA when chan (initialTA timingError)] ∧
      shrinkCount tr = 1 ∧ growCount tr = 0 := by
  have hres' : ¬ (requestingLUR cfg RA = true ∧
      castInt bts.SDCCHAvailable ≤ cfg.SDCCHReserve) :=
    fun h => absurd h.2 (not_le.mpr (hres h.1))
  refine ⟨_, AccessGrantResponder_granted cfg bts RA when RSSI timingError load
    ChannelType.SDCCHType Event.getSDCCH chan hhold hage hte hAGCH hload hres' hdec
    (by simp [allocateChannel, hch]), ?_, ?_, ?_⟩
  · simp [agchSent]
  · simp [shrinkCount]
  · simp [growCount]

/-- C4 (amended) at a concrete input: request code 0xE0, channel 7 on offer. -/
theorem AccessGrantResponder_scenarioA_witness :
    ∃ tr, AccessGrantResponder ⟨0, false, 10, 63, 5, 2⟩
        ⟨false, 3, some 1, 3, 2000, none, some 7⟩ 0xE0 40 (-60) 3 = some tr ∧
      agchSent tr = [AGCHMessage.L3ImmediateAssignment 0xE0 40 7 (initialTA 3)] ∧
      shrinkCount tr = 1 ∧ growCount tr = 0 :=
  AccessGrantResponder_scenarioA ⟨0, false, 10, 63, 5, 2⟩
    ⟨false, 3, some 1, 3, 2000, none, some 7⟩ 0xE0 40 (-60) 3 1 7
    (by decide) (by decide) (by decide) rfl rfl rfl (by decide) (by decide)

/-- C5 (as stated, refuted). Three requests whose code decodes to SDCCH, with
age and timing error within bounds and no channel available, that do not get
one rejection with a positive wait hint: under hold-off nothing is sent; with
the AGCH load above `GSM.CCCH.AGCH.QMax` nothing is sent; with a backoff value
of 500 ms the rejection carries the wait hint `500 / 1000 = 0`. -/
theorem AccessGrantResponder_scenarioB_counterexample :
    (decodeChannelNeeded ⟨0, false, 10, 63, 5, 2⟩ 0xE0 = some ChannelType.SDCCHType ∧
      (3 : Int) ≤ 10 ∧ (1 : ℚ) ≤ ((63 : Int) : ℚ) ∧
      AccessGrantResponder ⟨0, false, 10, 63, 5, 2⟩ ⟨true, 3, some 0, 0, 2000, none, none⟩
          0xE0 40 0 1 =
        some [Event.reportsIncr Counter.RACH_TA_All 1,
          Event.reportsIncr Counter.RACH_RA_All 0xE0]) ∧
    (AccessGrantResponder ⟨0, false, 10, 63, 5, 2⟩ ⟨false, 3, some 6, 0, 2000, none, none⟩
          0xE0 40 0 1 =
        some [Event.reportsIncr Counter.RACH_TA_All 1,
          Event.reportsIncr Counter.RACH_RA_All 0xE0]) ∧
    (AccessGrantResponder ⟨0, false, 10, 63, 5, 2⟩ ⟨false, 3, some 0, 0, 500, none, none⟩
          0xE0 40 0 1 =
        some [Event.reportsIncr Counter.RACH_TA_All 1,
          Event.reportsIncr Counter.RACH_RA_All 0xE0,
          Event.getSDCCH,
          Event.growT3122,
          Event.AGCHSend (AGCHMessage.L3ImmediateAssignmentReject 0xE0 40 0)]) := by
  decide

/-- C5 (amended). A request whose code decodes to SDCCH, with age and timing
error within bounds, for which the provider returns no SDCCH, and moreover with
no hold-off and an AGCH whose load does not exceed `GSM.CCCH.AGCH.QMax`, makes
`AccessGrantResponder` send exactly one message on the AGCH, a rejection whose
wait hint is the value returned by `growT3122()` divided by 1000 (positive
exactly when that value is at least 1000 ms), grow the backoff counter once,
never shrink it, and call `setPhy` on no channel. -/
theorem AccessGrantResponder_scenarioB (cfg : Config) (bts : BTS) (RA when : Nat)
    (RSSI timingError : ℚ) (load : Nat)
    (hdec : decodeChannelNeeded cfg RA = some ChannelType.SDCCHType)
    (hage : bts.age ≤ cfg.maxAge) (hte : timingError ≤ (cfg.TAMax : ℚ))
    (hno : bts.getSDCCH = none)
    (hhold : bts.hold = false) (hAGCH : bts.AGCH = some load)
    (hload : (load : Int) ≤ cfg.AGCHQMax) :
    ∃ tr, AccessGrantResponder cfg bts RA when RSSI timingError = some tr ∧
      agchSent tr =
        [AGCHMessage.L3ImmediateAssignmentReject RA when (bts.growT3122 / 1000)] ∧
      (0 < bts.growT3122 / 1000 ↔ 1000 ≤ bts.growT3122) ∧
      growCount tr = 1 ∧ shrinkCount tr = 0 ∧ setPhyChannels tr = [] := by
  have hw : 0 < bts.growT3122 / 1000 ↔ 1000 ≤ bts.growT3122 := by omega
  by_cases hres : requestingLUR cfg RA = true ∧
      castInt bts.SDCCHAvailable ≤ cfg.SDCCHReserve
  · refine ⟨_, AccessGrantResponder_reserve cfg bts RA when RSSI timingError load hhold hage
      hte hAGCH hload hres, ?_, hw, ?_, ?_, ?_⟩
    · simp [agchSent]
    · simp [growCount]
    · simp [shrinkCount]
    · simp [setPhyChannels]
  · refine ⟨_, AccessGrantResponder_congested cfg bts RA when RSSI timingError load
      ChannelType.SDCCHType Event.getSDCCH hhold hage hte hAGCH hload hres hdec
      (by simp [allocateChannel, hno]), ?_, hw, ?_, ?_, ?_⟩
    · simp [agchSent]
    · simp [growCount]
    · simp [shrinkCount]
    · simp [setPhyChannels]

/-- C5 (amended) at a concrete input: request code 0xE0, no channel on offer,
backoff value 2000 ms. -/
theorem AccessGrantResponder_scenarioB_witness :
    ∃ tr, AccessGrantResponder ⟨0, false, 10, 63, 5, 2⟩
        ⟨false, 3, some 1, 0, 2000, none, none⟩ 0xE0 40 (-60) 3 = some tr ∧
      agchSent tr = [AGCHMessage.L3ImmediateAssignmentReject 0xE0 40 (2000 / 1000)] ∧
      (0 < 2000 / 1000 ↔ 1000 ≤ 2000) ∧
      growCount tr = 1 ∧ shrinkCount tr = 0 ∧ setPhyChannels tr = [] :=
  AccessGrantResponder_scenarioB ⟨0, false, 10, 63, 5, 2⟩
    ⟨false, 3, some 1, 0, 2000, none, none⟩ 0xE0 40 (-60) 3 1
    (by decide) (by decide) (by decide) rfl rfl rfl (by decide)

/-! ## Properties of the paging response handler and the paging registry -/

/-- C6. A paging response carrying a TMSI that the TMSI table cannot resolve
makes `PagingResponseHandler` send exactly one message, the channel release
with cause 0x60 on the responding channel, and return: the pager and the
transaction table are unchanged, `removeID` and `answeredPaging` are not
called. -/
theorem PagingResponseHandler_unresolved_TMSI (tmsiIMSI : Nat → Option Nat)
    (answeredPaging : TransactionTable → L3MobileIdentity →
      Option TransactionEntry × TransactionTable)
    (st : ControlState) (tmsi : Nat) (DCCH : LCH) (h : tmsiIMSI tmsi = none) :
    (PagingResponseHandler tmsiIMSI answeredPaging st (L3MobileIdentity.TMSI tmsi) DCCH).2 =
        [HandlerEvent.DCCHSend DCCH (DCCHMessage.L3ChannelRelease 0x60)] ∧
      (PagingResponseHandler tmsiIMSI answeredPaging st (L3MobileIdentity.TMSI tmsi) DCCH).1 =
        st ∧
      (∀ id, HandlerEvent.answeredPaging id ∉
        (PagingResponseHandler tmsiIMSI answeredPaging st (L3MobileIdentity.TMSI tmsi) DCCH).2) ∧
      (∀ id, HandlerEvent.pagerRemoveID id ∉
        (PagingResponseHandler tmsiIMSI answeredPaging st (L3MobileIdentity.TMSI tmsi) DCCH).2) ∧
      (∀ id, HandlerEvent.transactionRemove id ∉
        (PagingResponseHandler tmsiIMSI answeredPaging st
          (L3MobileIdentity.TMSI tmsi) DCCH).2) := by
  simp [PagingResponseHandler, h]

/-- C6 at a concrete input: TMSI 5 on channel 3, a TMSI table that resolves
nothing. -/
theorem PagingResponseHandler_unresolved_TMSI_witness :
    (PagingResponseHandler (fun _ => none) (fun T _ => (none, T))
        ⟨⟨[⟨L3MobileIdentity.IMSI 1, ChannelType.SDCCHType, 7, 100⟩], 1⟩, []⟩
        (L3MobileIdentity.TMSI 5) 3).2 =
        [HandlerEvent.DCCHSend 3 (DCCHMessage.L3ChannelRelease 0x60)] ∧
      (PagingResponseHandler (fun _ => none) (fun T _ => (none, T))
        ⟨⟨[⟨L3MobileIdentity.IMSI 1, ChannelType.SDCCHType, 7, 100⟩], 1⟩, []⟩
        (L3MobileIdentity.TMSI 5) 3).1 =
        ⟨⟨[⟨L3MobileIdentity.IMSI 1, ChannelType.SDCCHType, 7, 100⟩], 1⟩, []⟩ :=
  let h := PagingResponseHandler_unresolved_TMSI (fun _ => none) (fun T _ => (none, T))
    ⟨⟨[⟨L3MobileIdentity.IMSI 1, ChannelType.SDCCHType, 7, 100⟩], 1⟩, []⟩ 5 3 rfl
  ⟨h.1, h.2.1⟩

/-- The search loop of `addID` fails exactly when no entry has the identity. -/
theorem Pager.renewID_eq_none (now : Nat) (newID : L3MobileIdentity) (wLife : Nat)
    (l : List PagingEntry) :
    Pager.renewID now newID wLife l = none ↔ ∀ e ∈ l, e.mID ≠ newID := by
  induction l with
  | nil => simp [Pager.renewID]
  | cons x rest ih =>
    by_cases hx : x.mID = newID
    · simp [Pager.renewID, hx]
    · cases hr : Pager.renewID now newID wLife rest with
      | none =>
        have hall := ih.mp hr
        simp only [Pager.renewID, hx, hr, if_false, List.mem_cons, forall_eq_or_imp, true_iff]
        exact ⟨hx, hall⟩
      | some r =>
        have hne : ¬ ∀ e ∈ rest, e.mID ≠ newID := fun h => by
          rw [ih.mpr h] at hr; cases hr
        simp only [Pager.renewID, hx, hr, if_false, List.mem_cons, forall_eq_or_imp]
        constructor
        · intro h; cases h
        · intro h; exact absurd h.2 hne

/-- When the search loop of `addID` succeeds, it renews the first entry with
the identity and leaves the rest of the list as it was. -/
theorem Pager.renewID_eq_some (now : Nat) (newID : L3MobileIdentity) (wLife : Nat)
    (l l' : List PagingEntry) (h : Pager.renewID now newID wLife l = some l') :
    ∃ pre e post, l = pre ++ e :: post ∧ e.mID = newID ∧ (∀ x ∈ pre, x.mID ≠ newID) ∧
      l' = pre ++ { e with mExpiration := now + wLife } :: post := by
  induction l generalizing l' with
  | nil => simp [Pager.renewID] at h
  | cons x rest ih =>
    by_cases hx : x.mID = newID
    · simp only [Pager.renewID, hx, if_true, Option.some.injEq] at h
      exact ⟨[], x, rest, rfl, hx, by simp, by rw [← h]; rfl⟩
    · cases hr : Pager.renewID now newID wLife rest with
      | none => simp [Pager.renewID, hx, hr] at h
      | some r =>
        simp only [Pager.renewID, hx, hr, if_false, Option.some.injEq] at h
        obtain ⟨pre, e, post, h1, h2, h3, h4⟩ := ih r hr
        refine ⟨x :: pre, e, post, by rw [h1]; rfl, h2, ?_, by rw [← h, h4]; rfl⟩
        intro y hy
        rcases List.mem_cons.mp hy with hy | hy
        · rw [hy]; exact hx
        · exact h3 y hy

/-- The loop of `removeID` on a list without the identity. -/
theorem Pager.eraseID_absent (delID : L3MobileIdentity) (l : List PagingEntry)
    (h : ∀ e ∈ l, e.mID ≠ delID) : Pager.eraseID delID l = (0, l) := by
  induction l with
  | nil => rfl
  | cons x rest ih =>
    have hx : x.mID ≠ delID := h x (List.mem_cons_self _ _)
    have hr := ih (fun e he => h e (List.mem_cons_of_mem _ he))
    simp [Pager.eraseID, hx, hr]

/-- The loop of `removeID` erases the first entry with the identity. -/
theorem Pager.eraseID_present (delID : L3MobileIdentity) (pre post : List PagingEntry)
    (e : PagingEntry) (he : e.mID = delID) (hpre : ∀ x ∈ pre, x.mID ≠ delID) :
    Pager.eraseID delID (pre ++ e :: post) = (e.mTransactionID, pre ++ post) := by
  induction pre with
  | nil => simp [Pager.eraseID, he]
  | cons x rest ih =>
    have hx : x.mID ≠ delID := hpre x (List.mem_cons_self _ _)
    have hr := ih (fun y hy => hpre y (List.mem_cons_of_mem _ hy))
    simp [Pager.eraseID, hx, hr]

/-- The list left by the loop of `removeID` is a sublist of the list before. -/
theorem Pager.eraseID_sublist (delID : L3MobileIdentity) (l : List PagingEntry) :
    List.Sublist (Pager.eraseID delID l).2 l := by
  induction l with
  | nil => exact List.Sublist.slnil
  | cons x rest ih =>
    by_cases hx : x.mID = delID
    · simp only [Pager.eraseID, hx, if_true]
      exact List.sublist_cons_self x rest
    · simp only [Pager.eraseID, hx, if_false]
      exact List.Sublist.cons₂ x ih

/-- The list left by the purge loop of `pageAll` is a sublist of the list
before. -/
theorem Pager.purge_sublist (expired : PagingEntry → Bool) (T : TransactionTable)
    (l : List PagingEntry) : List.Sublist (Pager.purge expired T l).1 l := by
  induction l generalizing T with
  | nil => exact List.Sublist.slnil
  | cons x rest ih =>
    simp only [Pager.purge]
    split
    · exact List.Sublist.cons₂ x (ih T)
    · exact List.Sublist.cons x (ih _)

/-- What `addID` does to the paging list: the first entry with the identity is
renewed, or a new entry is appended. -/
theorem Pager.addID_list (now : Nat) (p : Pager) (newID : L3MobileIdentity)
    (chanType : ChannelType) (transaction : TransactionEntry) (wLife : Nat) :
    (newID ∈ p.identities →
      ∃ pre e post, p.mPageIDs = pre ++ e :: post ∧ e.mID = newID ∧
        (∀ x ∈ pre, x.mID ≠ newID) ∧
        (Pager.addID now p newID chanType transaction wLife).1.mPageIDs =
          pre ++ { e with mExpiration := now + wLife } :: post) ∧
    (newID ∉ p.identities →
      (Pager.addID now p newID chanType transaction wLife).1.mPageIDs =
        p.mPageIDs ++ [⟨newID, chanType, transaction.mID, now + wLife⟩]) := by
  constructor
  · intro hin
    cases hr : Pager.renewID now newID wLife p.mPageIDs with
    | none =>
      have hall := (Pager.renewID_eq_none now newID wLife p.mPageIDs).mp hr
      simp only [Pager.identities, List.mem_map] at hin
      obtain ⟨e, he, heq⟩ := hin
      exact absurd heq (hall e he)
    | some l' =>
      obtain ⟨pre, e, post, h1, h2, h3, h4⟩ :=
        Pager.renewID_eq_some now newID wLife p.mPageIDs l' hr
      exact ⟨pre, e, post, h1, h2, h3, by simp only [Pager.addID, hr]; exact h4⟩
  · intro hnot
    have hall : ∀ e ∈ p.mPageIDs, e.mID ≠ newID := fun e he heq =>
      hnot (by simp only [Pager.identities, List.mem_map]; exact ⟨e, he, heq⟩)
    have hr := (Pager.renewID_eq_none now newID wLife p.mPageIDs).mpr hall
    simp only [Pager.addID, hr]
    rfl

/-- What `addID` does to the identities of the paging list. -/
theorem Pager.addID_identities (now : Nat) (p : Pager) (newID : L3MobileIdentity)
    (chanType : ChannelType) (transaction : TransactionEntry) (wLife : Nat) :
    (Pager.addID now p newID chanType transaction wLife).1.identities =
      if newID ∈ p.identities then p.identities else p.identities ++ [newID] := by
  have h := Pager.addID_list now p newID chanType transaction wLife
  by_cases hin : newID ∈ p.identities
  · obtain ⟨pre, e, post, h1, _, _, h4⟩ := h.1 hin
    rw [if_pos hin]
    simp only [Pager.identities, h4, h1, List.map_append, List.map_cons]
  · rw [if_neg hin]
    simp only [Pager.identities, h.2 hin, List.map_append, List.map_cons, List.map_nil]

/-- `addID` keeps the identities of the paging list pairwise distinct. -/
theorem Pager.addID_nodup (now : Nat) (p : Pager) (newID : L3MobileIdentity)
    (chanType : ChannelType) (transaction : TransactionEntry) (wLife : Nat)
    (hnd : p.identities.Nodup) :
    (Pager.addID now p newID chanType transaction wLife).1.identities.Nodup := by
  rw [Pager.addID_identities]
  by_cases hin : newID ∈ p.identities
  · rw [if_pos hin]
    exact hnd
  · rw [if_neg hin]
    exact List.Nodup.append hnd (List.nodup_singleton newID) (by simpa using hin)

/-- After `addID` the identity is in the paging list. -/
theorem Pager.addID_mem (now : Nat) (p : Pager) (newID : L3MobileIdentity)
    (chanType : ChannelType) (transaction : TransactionEntry) (wLife : Nat) :
    newID ∈ (Pager.addID now p newID chanType transaction wLife).1.identities := by
  rw [Pager.addID_identities]
  by_cases hin : newID ∈ p.identities
  · rw [if_pos hin]
    exact hin
  · rw [if_neg hin]
    exact List.mem_append_right _ (List.mem_singleton_self newID)

/-- After `addID` every entry with the identity expires at `now + wLife`. -/
theorem Pager.addID_expiry (now : Nat) (p : Pager) (newID : L3MobileIdentity)
    (chanType : ChannelType) (transaction : TransactionEntry) (wLife : Nat)
    (hnd : p.identities.Nodup) :
    ∀ e ∈ (Pager.addID now p newID chanType transaction wLife).1.mPageIDs,
      e.mID = newID → e.mExpiration = now + wLife := by
  have h := Pager.addID_list now p newID chanType transaction wLife
  intro e he heq
  by_cases hin : newID ∈ p.identities
  · obtain ⟨pre, e0, post, h1, h2, h3, h4⟩ := h.1 hin
    rw [h4] at he
    simp only [Pager.identities, h1, List.map_append, List.map_cons] at hnd
    have hpost : ∀ x ∈ post, x.mID ≠ newID := by
      intro x hx hxe
      have hnd2 := (List.nodup_append.mp hnd).2.1
      have := (List.nodup_cons.mp hnd2).1
      exact this (by rw [h2, ← hxe]; exact List.mem_map_of_mem _ hx)
    rcases List.mem_append.mp he with he | he
    · exact absurd heq (h3 e he)
    · rcases List.mem_cons.mp he with he | he
      · rw [he]
      · exact absurd heq (hpost e he)
  · rw [h.2 hin] at he
    rcases List.mem_append.mp he with he | he
    · exact absurd (by simp only [Pager.identities, List.mem_map]; exact ⟨e, he, heq⟩) hin
    · rw [List.mem_singleton.mp he]

/-- `removeID` keeps the identities of the paging list pairwise distinct. -/
theorem Pager.removeID_nodup (p : Pager) (delID : L3MobileIdentity)
    (hnd : p.identities.Nodup) : (Pager.removeID p delID).2.identities.Nodup :=
  List.Nodup.sublist (List.Sublist.map _ (Pager.eraseID_sublist delID p.mPageIDs)) hnd

/-- `pageAll` keeps the identities of the paging list pairwise distinct. -/
theorem Pager.pageAll_nodup (expired : PagingEntry → Bool) (T : TransactionTable) (p : Pager)
    (hnd : p.identities.Nodup) : (Pager.pageAll expired T p).pager.identities.Nodup :=
  List.Nodup.sublist (List.Sublist.map _ (Pager.purge_sublist expired T p.mPageIDs)) hnd

/-- Every reachable pager holds pairwise distinct identities. -/
theorem Pager.Reachable.nodup (p : Pager) (h : Pager.Reachable p) : p.identities.Nodup := by
  induction h with
  | init => exact List.nodup_nil
  | addID now p newID chanType transaction wLife _ ih =>
    exact Pager.addID_nodup now p newID chanType transaction wLife ih
  | removeID p delID _ ih => exact Pager.removeID_nodup p delID ih
  | pageAll expired T p _ ih => exact Pager.pageAll_nodup expired T p ih

/-- C7. `addID` keeps the paging registry free of duplicate identities. On a
registry with pairwise distinct identities: if the identity is present, the
number of entries is unchanged and the one entry with that identity, otherwise
unchanged and in place, expires at `now + wLife`; if it is absent, exactly one
entry is appended; afterwards the identities are pairwise distinct and the
added identity occurs once; a second `addID` of the same identity adds no
entry and sets the expiry to the second lifetime. Every reachable registry
holds pairwise distinct identities. -/
theorem Pager_addID_no_duplicates (now : Nat) (p : Pager) (newID : L3MobileIdentity)
    (chanType : ChannelType) (transaction : TransactionEntry) (wLife : Nat)
    (hnd : p.identities.Nodup) :
    (newID ∈ p.identities →
      (Pager.addID now p newID chanType transaction wLife).1.mPageIDs.length =
        p.mPageIDs.length ∧
      ∃ pre e post, p.mPageIDs = pre ++ e :: post ∧ e.mID = newID ∧
        (Pager.addID now p newID chanType transaction wLife).1.mPageIDs =
          pre ++ { e with mExpiration := now + wLife } :: post) ∧
    (newID ∉ p.identities →
      (Pager.addID now p newID chanType transaction wLife).1.mPageIDs =
        p.mPageIDs ++ [⟨newID, chanType, transaction.mID, now + wLife⟩]) ∧
    (Pager.addID now p newID chanType transaction wLife).1.identities.Nodup ∧
    (Pager.addID now p newID chanType transaction wLife).1.identities.count newID = 1 ∧
    (∀ e ∈ (Pager.addID now p newID chanType transaction wLife).1.mPageIDs,
      e.mID = newID → e.mExpiration = now + wLife) ∧
    (∀ (now' : Nat) (chanType' : ChannelType) (transaction' : TransactionEntry) (wLife' : Nat),
      (Pager.addID now' (Pager.addID now p newID chanType transaction wLife).1
          newID chanType' transaction' wLife').1.mPageIDs.length =
        (Pager.addID now p newID chanType transaction wLife).1.mPageIDs.length ∧
      ∀ e ∈ (Pager.addID now' (Pager.addID now p newID chanType transaction wLife).1
          newID chanType' transaction' wLife').1.mPageIDs,
        e.mID = newID → e.mExpiration = now' + wLife') ∧
    (∀ q, Pager.Reachable q → q.identities.Nodup) := by
  have hlen : ∀ (now : Nat) (p : Pager) (chanType : ChannelType)
      (transaction : TransactionEntry) (wLife : Nat), newID ∈ p.identities →
      (Pager.addID now p newID chanType transaction wLife).1.mPageIDs.length =
        p.mPageIDs.length := by
    intro now p chanType transaction wLife hin
    obtain ⟨pre, e, post, h1, _, _, h4⟩ :=
      (Pager.addID_list now p newID chanType transaction wLife).1 hin
    rw [h4, h1]
    simp
  have hnd1 := Pager.addID_nodup now p newID chanType transaction wLife hnd
  have hmem1 := Pager.addID_mem now p newID chanType transaction wLife
  refine ⟨fun hin => ⟨hlen now p chanType transaction wLife hin, ?_⟩,
    (Pager.addID_list now p newID chanType transaction wLife).2, hnd1,
    List.count_eq_one_of_mem hnd1 hmem1,
    Pager.addID_expiry now p newID chanType transaction wLife hnd,
    fun now' chanType' transaction' wLife' =>
      ⟨hlen now' _ chanType' transaction' wLife' hmem1,
        Pager.addID_expiry now' _ newID chanType' transaction' wLife' hnd1⟩,
    Pager.Reachable.nodup⟩
  obtain ⟨pre, e, post, h1, h2, _, h4⟩ :=
    (Pager.addID_list now p newID chanType transaction wLife).1 hin
  exact ⟨pre, e, post, h1, h2, h4⟩

/-- C7 at a concrete registry: re-paging IMSI 1 at time 50 for 30 leaves one
entry for it, expiring at 80. -/
theorem Pager_addID_no_duplicates_witness :
    (Pager.addID 50
        ⟨[⟨L3MobileIdentity.IMSI 1, ChannelType.SDCCHType, 7, 100⟩,
          ⟨L3MobileIdentity.IMSI 2, ChannelType.TCHFType, 8, 120⟩], 2⟩
        (L3MobileIdentity.IMSI 1) ChannelType.TCHFType
        { mID := 9, mSubscriber := L3MobileIdentity.IMSI 1,
          mService := L3CMServiceType.MobileTerminatedCall, mGSMState := CallState.NullState,
          mTimers := [], mChannel := none, dead := false } 30).1.identities.count
      (L3MobileIdentity.IMSI 1) = 1 ∧
    ∀ e ∈ (Pager.addID 50
        ⟨[⟨L3MobileIdentity.IMSI 1, ChannelType.SDCCHType, 7, 100⟩,
          ⟨L3MobileIdentity.IMSI 2, ChannelType.TCHFType, 8, 120⟩], 2⟩
        (L3MobileIdentity.IMSI 1) ChannelType.TCHFType
        { mID := 9, mSubscriber := L3MobileIdentity.IMSI 1,
          mService := L3CMServiceType.MobileTerminatedCall, mGSMState := CallState.NullState,
          mTimers := [], mChannel := none, dead := false } 30).1.mPageIDs,
      e.mID = L3MobileIdentity.IMSI 1 → e.mExpiration = 50 + 30 :=
  let h := Pager_addID_no_duplicates 50
    ⟨[⟨L3MobileIdentity.IMSI 1, ChannelType.SDCCHType, 7, 100⟩,
      ⟨L3MobileIdentity.IMSI 2, ChannelType.TCHFType, 8, 120⟩], 2⟩
    (L3MobileIdentity.IMSI 1) ChannelType.TCHFType
    { mID := 9, mSubscriber := L3MobileIdentity.IMSI 1,
      mService := L3CMServiceType.MobileTerminatedCall, mGSMState := CallState.NullState,
      mTimers := [], mChannel := none, dead := false } 30 (by decide)
  ⟨h.2.2.2.1, h.2.2.2.2.1⟩

/-- Erasing a key leaves the entries of the other keys as they were. -/
theorem TransactionTable.find?_filter_ne (T : TransactionTable) (id id' : Nat)
    (h : id ≠ id') :
    List.find? (fun t => t.mID == id) (List.filter (fun t => t.mID != id') T) =
      List.find? (fun t => t.mID == id) T := by
  induction T with
  | nil => rfl
  | cons t rest ih =>
    by_cases h1 : t.mID = id'
    · have hb1 : (t.mID != id') = false := by simp [h1]
      have hb2 : (t.mID == id) = false := by
        simp only [beq_eq_false_iff_ne, ne_eq]
        exact fun hh => h (hh.symm.trans h1)
      rw [List.filter_cons, hb1, List.find?_cons, hb2]
      exact ih
    · have hb1 : (t.mID != id') = true := by simp [h1]
      rw [List.filter_cons, hb1]
      by_cases h2 : t.mID = id
      · have hb2 : (t.mID == id) = true := by simp [h2]
        simp only [if_true, List.find?_cons, hb2]
      · have hb2 : (t.mID == id) = false := by simp [h2]
        simp only [if_true, List.find?_cons, hb2]
        exact ih

/-- After erasing a key, the key has no entry. -/
theorem TransactionTable.find?_filter_self (T : TransactionTable) (id : Nat) :
    List.find? (fun t => t.mID == id) (List.filter (fun t => t.mID != id) T) = none := by
  induction T with
  | nil => rfl
  | cons t rest ih =>
    by_cases h1 : t.mID = id
    · have hb1 : (t.mID != id) = false := by simp [h1]
      rw [List.filter_cons, hb1]
      exact ih
    · have hb1 : (t.mID != id) = true := by simp [h1]
      have hb2 : (t.mID == id) = false := by simp [h1]
      rw [List.filter_cons, hb1]
      simp only [if_true, List.find?_cons, hb2]
      exact ih

/-- `removePaging` of one ID does not change what `find` returns for another. -/
theorem TransactionTable.find_removePaging_ne (T : TransactionTable) (id id' : Nat)
    (h : id ≠ id') :
    TransactionTable.find (TransactionTable.removePaging T id').2 id =
      TransactionTable.find T id := by
  unfold TransactionTable.removePaging
  split
  · rfl
  · split
    · simp only [TransactionTable.find, TransactionTable.find?_filter_ne T id id' h]
    · rfl

/-- An ID that `find` does not return is not returned after a `removePaging`. -/
theorem TransactionTable.find_removePaging_none (T : TransactionTable) (id id' : Nat)
    (h : TransactionTable.find T id = none) :
    TransactionTable.find (TransactionTable.removePaging T id').2 id = none := by
  by_cases hid : id = id'
  · subst hid
    unfold TransactionTable.removePaging
    split
    · exact h
    · split
      · simp only [TransactionTable.find, TransactionTable.find?_filter_self]
      · exact h
  · rw [TransactionTable.find_removePaging_ne T id id' hid]
    exact h

/-- Every entry left by the purge loop was in the list, was not expired, and
its transaction was found in the table as it was before the loop. -/
theorem Pager.purge_mem (expired : PagingEntry → Bool) (T : TransactionTable)
    (l : List PagingEntry) (e : PagingEntry) (he : e ∈ (Pager.purge expired T l).1) :
    e ∈ l ∧ expired e = false ∧ TransactionTable.find T e.mTransactionID ≠ none := by
  induction l generalizing T with
  | nil => simp [Pager.purge] at he
  | cons x rest ih =>
    simp only [Pager.purge] at he
    split at he
    · rename_i hkeep
      simp only [Bool.and_eq_true, Bool.not_eq_true', Option.isNone_eq_false_iff] at hkeep
      rcases List.mem_cons.mp he with he | he
      · subst he
        exact ⟨List.mem_cons_self _ _, hkeep.1, fun hn => by simp [hn] at hkeep⟩
      · obtain ⟨h1, h2, h3⟩ := ih T he
        exact ⟨List.mem_cons_of_mem _ h1, h2, h3⟩
    · obtain ⟨h1, h2, h3⟩ := ih _ he
      exact ⟨List.mem_cons_of_mem _ h1, h2,
        fun hn => h3 (TransactionTable.find_removePaging_none T _ _ hn)⟩

/-- The purge loop on a concatenation: the second part is purged against the
table left by the purge of the first. -/
theorem Pager.purge_append (expired : PagingEntry → Bool) (T : TransactionTable)
    (l1 l2 : List PagingEntry) :
    Pager.purge expired T (l1 ++ l2) =
      ((Pager.purge expired T l1).1 ++
          (Pager.purge expired (Pager.purge expired T l1).2 l2).1,
        (Pager.purge expired (Pager.purge expired T l1).2 l2).2) := by
  induction l1 generalizing T with
  | nil => simp [Pager.purge]
  | cons x rest ih =>
    simp only [List.cons_append, Pager.purge]
    split
    · simp [ih T]
    · simp [ih _]

/-- The purge loop leaves `find` of an ID alone when no expired entry owns it
and it was found before the loop. -/
theorem Pager.purge_find_stable (expired : PagingEntry → Bool) (T : TransactionTable)
    (l : List PagingEntry) (id : Nat)
    (hexp : ∀ x ∈ l, x.mTransactionID = id → expired x = false)
    (hfound : TransactionTable.find T id ≠ none) :
    TransactionTable.find (Pager.purge expired T l).2 id = TransactionTable.find T id := by
  induction l generalizing T with
  | nil => rfl
  | cons x rest ih =>
    have hrest : ∀ y ∈ rest, y.mTransactionID = id → expired y = false :=
      fun y hy => hexp y (List.mem_cons_of_mem _ hy)
    simp only [Pager.purge]
    split
    · exact ih T hrest hfound
    · rename_i hdrop
      have hne : id ≠ x.mTransactionID := by
        intro hid
        apply hdrop
        have h1 := hexp x (List.mem_cons_self _ _) hid.symm
        rw [← hid]
        cases hf : TransactionTable.find T id with
        | none => exact absurd hf hfound
        | some t => simp [h1]
      have hstep := TransactionTable.find_removePaging_ne T id x.mTransactionID hne
      rw [ih _ hrest (by rw [hstep]; exact hfound), hstep]

/-- C8. The purge of `pageAll`: every entry whose owning transaction is not
found in the transaction table is absent from the registry afterwards, expired
or not, and so is every expired entry; every entry that is not expired and
whose owning transaction is found when the loop reaches it is still present
afterwards, which is the case whenever the transaction is found before the
scan and no expired entry of the registry has the same owning transaction. -/
theorem Pager_pageAll_purge (expired : PagingEntry → Bool) (T : TransactionTable)
    (p : Pager) :
    (∀ e ∈ p.mPageIDs, TransactionTable.find T e.mTransactionID = none →
      e ∉ (Pager.pageAll expired T p).pager.mPageIDs) ∧
    (∀ e ∈ p.mPageIDs, expired e = true →
      e ∉ (Pager.pageAll expired T p).pager.mPageIDs) ∧
    (∀ pre e post, p.mPageIDs = pre ++ e :: post → expired e = false →
      TransactionTable.find (Pager.purge expired T pre).2 e.mTransactionID ≠ none →
      e ∈ (Pager.pageAll expired T p).pager.mPageIDs) ∧
    (∀ e ∈ p.mPageIDs, expired e = false →
      TransactionTable.find T e.mTransactionID ≠ none →
      (∀ x ∈ p.mPageIDs, x.mTransactionID = e.mTransactionID → expired x = false) →
      e ∈ (Pager.pageAll expired T p).pager.mPageIDs) := by
  have hkeep : ∀ pre e post, p.mPageIDs = pre ++ e :: post → expired e = false →
      TransactionTable.find (Pager.purge expired T pre).2 e.mTransactionID ≠ none →
      e ∈ (Pager.pageAll expired T p).pager.mPageIDs := by
    intro pre e post hl hexp hfound
    simp only [Pager.pageAll, hl, Pager.purge_append]
    apply List.mem_append_right
    have hsome : (TransactionTable.find (Pager.purge expired T pre).2
        e.mTransactionID).isNone = false := by
      cases hf : TransactionTable.find (Pager.purge expired T pre).2 e.mTransactionID with
      | none => exact absurd hf hfound
      | some t => rfl
    simp [Pager.purge, hexp, hsome]
  refine ⟨?_, ?_, hkeep, ?_⟩
  · intro e _ hnone hmem
    exact (Pager.purge_mem expired T p.mPageIDs e hmem).2.2 hnone
  · intro e _ hexp hmem
    have := (Pager.purge_mem expired T p.mPageIDs e hmem).2.1
    rw [hexp] at this
    cases this
  · intro e he hexp hfound hall
    obtain ⟨pre, post, hl⟩ := List.append_of_mem he
    refine hkeep pre e post hl hexp ?_
    rw [Pager.purge_find_stable expired T pre e.mTransactionID
      (fun x hx => hall x (by rw [hl]; exact List.mem_append_left _ hx)) hfound]
    exact hfound

/-- C8 at a concrete registry: the entry of IMSI 2, whose transaction 8 is not
in the table, is purged although it has not expired; the entry of IMSI 1,
not expired and owned by the live transaction 7, stays. -/
theorem Pager_pageAll_purge_witness :
    (⟨L3MobileIdentity.IMSI 2, ChannelType.TCHFType, 8, 120⟩ : PagingEntry) ∉
      (Pager.pageAll (fun e => decide (e.mExpiration < 50))
        [{ mID := 7, mSubscriber := L3MobileIdentity.IMSI 1,
           mService := L3CMServiceType.MobileTerminatedCall, mGSMState := CallState.Paging,
           mTimers := [], mChannel := none, dead := false }]
        ⟨[⟨L3MobileIdentity.IMSI 1, ChannelType.SDCCHType, 7, 100⟩,
          ⟨L3MobileIdentity.IMSI 2, ChannelType.TCHFType, 8, 120⟩], 2⟩).pager.mPageIDs ∧
    (⟨L3MobileIdentity.IMSI 1, ChannelType.SDCCHType, 7, 100⟩ : PagingEntry) ∈
      (Pager.pageAll (fun e => decide (e.mExpiration < 50))
        [{ mID := 7, mSubscriber := L3MobileIdentity.IMSI 1,
           mService := L3CMServiceType.MobileTerminatedCall, mGSMState := CallState.Paging,
           mTimers := [], mChannel := none, dead := false }]
        ⟨[⟨L3MobileIdentity.IMSI 1, ChannelType.SDCCHType, 7, 100⟩,
          ⟨L3MobileIdentity.IMSI 2, ChannelType.TCHFType, 8, 120⟩], 2⟩).pager.mPageIDs :=
  let h := Pager_pageAll_purge (fun e => decide (e.mExpiration < 50))
    [{ mID := 7, mSubscriber := L3MobileIdentity.IMSI 1,
       mService := L3CMServiceType.MobileTerminatedCall, mGSMState := CallState.Paging,
       mTimers := [], mChannel := none, dead := false }]
    ⟨[⟨L3MobileIdentity.IMSI 1, ChannelType.SDCCHType, 7, 100⟩,
      ⟨L3MobileIdentity.IMSI 2, ChannelType.TCHFType, 8, 120⟩], 2⟩
  ⟨h.1 ⟨L3MobileIdentity.IMSI 2, ChannelType.TCHFType, 8, 120⟩ (by decide) (by decide),
    h.2.2.2 ⟨L3MobileIdentity.IMSI 1, ChannelType.SDCCHType, 7, 100⟩ (by decide) (by decide)
      (by decide) (by decide)⟩

/-- The side condition of the last part of C8 cannot be dropped: an entry that
is not expired, and whose transaction is found before the scan, is purged when
an expired entry ahead of it has the same owning transaction in the Paging
state, because the purge of that entry removes the transaction. -/
theorem Pager.purge_shared_transaction :
    (Pager.pageAll (fun e => decide (e.mExpiration < 50))
      [{ mID := 7, mSubscriber := L3MobileIdentity.IMSI 1,
         mService := L3CMServiceType.MobileTerminatedCall, mGSMState := CallState.Paging,
         mTimers := [], mChannel := none, dead := false }]
      ⟨[⟨L3MobileIdentity.IMSI 1, ChannelType.SDCCHType, 7, 10⟩,
        ⟨L3MobileIdentity.IMSI 2, ChannelType.TCHFType, 7, 120⟩], 2⟩).pager.mPageIDs = [] := by
  decide

/-- C9. `removeID` on a registry with pairwise distinct identities: if an
entry has the identity, the call returns that entry's transaction ID and the
registry afterwards is the registry before with exactly that entry erased
(the entries before and after it unchanged and in order), no entry with the
identity remains; if no entry has the identity, the call returns 0 and the
registry is unchanged. -/
theorem Pager_removeID_spec (p : Pager) (delID : L3MobileIdentity)
    (hnd : p.identities.Nodup) :
    (∀ e ∈ p.mPageIDs, e.mID = delID →
      (Pager.removeID p delID).1 = e.mTransactionID ∧
      (∃ pre post, p.mPageIDs = pre ++ e :: post ∧
        (Pager.removeID p delID).2.mPageIDs = pre ++ post) ∧
      (Pager.removeID p delID).2.mPageIDs = p.mPageIDs.erase e ∧
      (∀ x ∈ (Pager.removeID p delID).2.mPageIDs, x.mID ≠ delID) ∧
      (Pager.removeID p delID).2.mPageSignal = p.mPageSignal) ∧
    ((∀ e ∈ p.mPageIDs, e.mID ≠ delID) → Pager.removeID p delID = (0, p)) := by
  constructor
  · intro e he heq
    obtain ⟨pre, post, hl⟩ := List.append_of_mem he
    have hnd' := hnd
    simp only [Pager.identities, hl, List.map_append, List.map_cons] at hnd'
    have hnd2 := (List.nodup_append.mp hnd').2.1
    have hdisj := (List.nodup_append.mp hnd').2.2
    have hpre : ∀ x ∈ pre, x.mID ≠ delID := by
      intro x hx hxe
      exact hdisj (List.mem_map_of_mem _ hx)
        (by rw [hxe, ← heq]; exact List.mem_cons_self _ _)
    have hpost : ∀ x ∈ post, x.mID ≠ delID := by
      intro x hx hxe
      exact (List.nodup_cons.mp hnd2).1 (by rw [heq, ← hxe]; exact List.mem_map_of_mem _ hx)
    have hr := Pager.eraseID_present delID pre post e heq hpre
    have hnotpre : e ∉ pre := fun hmem => hpre e hmem heq
    have hrem : Pager.removeID p delID =
        (e.mTransactionID, { p with mPageIDs := pre ++ post }) := by
      simp only [Pager.removeID, hl, hr]
    rw [hrem]
    refine ⟨rfl, ⟨pre, post, hl, rfl⟩, ?_, ?_, rfl⟩
    · rw [hl, List.erase_append_right _ hnotpre, List.erase_cons_head]
    · intro x hx
      rcases List.mem_append.mp hx with hx | hx
      · exact hpre x hx
      · exact hpost x hx
  · intro h
    simp only [Pager.removeID, Pager.eraseID_absent delID p.mPageIDs h]

/-- C9 at a concrete registry: removing IMSI 2 returns its transaction ID 8. -/
theorem Pager_removeID_spec_witness :
    (Pager.removeID ⟨[⟨L3MobileIdentity.IMSI 1, ChannelType.SDCCHType, 7, 100⟩,
        ⟨L3MobileIdentity.IMSI 2, ChannelType.TCHFType, 8, 120⟩], 2⟩
      (L3MobileIdentity.IMSI 2)).1 = 8 :=
  ((Pager_removeID_spec ⟨[⟨L3MobileIdentity.IMSI 1, ChannelType.SDCCHType, 7, 100⟩,
        ⟨L3MobileIdentity.IMSI 2, ChannelType.TCHFType, 8, 120⟩], 2⟩
      (L3MobileIdentity.IMSI 2) (by decide)).1
    ⟨L3MobileIdentity.IMSI 2, ChannelType.TCHFType, 8, 120⟩ (by decide) rfl).1

/-- The paging loop sends every broadcast unit twice, in order. -/
theorem Pager.pageLoop_eq_units : ∀ l : List PagingEntry,
    Pager.pageLoop l = (Pager.broadcastUnits l).flatMap (fun u => [u, u])
  | [] => rfl
  | [_] => rfl
  | e1 :: e2 :: rest => by
    simp only [Pager.pageLoop, Pager.broadcastUnits, List.flatMap_cons,
      Pager.pageLoop_eq_units rest]
    rfl

/-- The number of broadcast units of `n` entries is `ceil(n/2)`. -/
theorem Pager.broadcastUnits_length : ∀ l : List PagingEntry,
    (Pager.broadcastUnits l).length = (l.length + 1) / 2
  | [] => rfl
  | [_] => by simp [Pager.broadcastUnits]
  | e1 :: e2 :: rest => by
    simp only [Pager.broadcastUnits, List.length_cons, Pager.broadcastUnits_length rest]
    omega

/-- The number of messages sent by the paging loop. -/
theorem Pager.pageLoop_length : ∀ l : List PagingEntry,
    (Pager.pageLoop l).length = 2 * ((l.length + 1) / 2)
  | [] => rfl
  | [_] => by simp [Pager.pageLoop]
  | e1 :: e2 :: rest => by
    simp only [Pager.pageLoop, List.length_cons, Pager.pageLoop_length rest]
    omega

/-- The broadcast units carry the entries in list order. -/
theorem Pager.broadcastUnits_carried : ∀ l : List PagingEntry,
    (Pager.broadcastUnits l).flatMap L3PagingRequestType1.carried =
      l.map (fun e => (e.mID, e.mType))
  | [] => rfl
  | [_] => rfl
  | e1 :: e2 :: rest => by
    simp only [Pager.broadcastUnits, List.flatMap_cons, L3PagingRequestType1.carried,
      Pager.broadcastUnits_carried rest, List.map_cons]
    rfl

/-- An identity that is not in the list is carried by no message. -/
theorem Pager.pageLoop_countP_absent (id : L3MobileIdentity) : ∀ l : List PagingEntry,
    (∀ e ∈ l, e.mID ≠ id) →
    List.countP (fun m => L3PagingRequestType1.carries m id) (Pager.pageLoop l) = 0
  | [], _ => rfl
  | [e], h => by
    have he : e.mID ≠ id := h e (List.mem_singleton_self e)
    have hc : L3PagingRequestType1.carries (L3PagingRequestType1.one e.mID e.mType) id =
        false := by simp [L3PagingRequestType1.carries, he]
    simp only [Pager.pageLoop, List.countP_cons, List.countP_nil, hc]
    rfl
  | e1 :: e2 :: rest, h => by
    have h1 : e1.mID ≠ id := h e1 (by simp)
    have h2 : e2.mID ≠ id := h e2 (by simp)
    have hr := Pager.pageLoop_countP_absent id rest (fun e he => h e (by simp [he]))
    have hc : L3PagingRequestType1.carries
        (L3PagingRequestType1.two e1.mID e1.mType e2.mID e2.mType) id = false := by
      simp [L3PagingRequestType1.carries, h1, h2]
    simp only [Pager.pageLoop, List.countP_cons, hc, hr]
    rfl

/-- With pairwise distinct identities, every identity of the list is carried
by exactly two of the messages sent. -/
theorem Pager.pageLoop_countP_present (id : L3MobileIdentity) : ∀ l : List PagingEntry,
    (l.map (fun e => e.mID)).Nodup → id ∈ l.map (fun e => e.mID) →
    List.countP (fun m => L3PagingRequestType1.carries m id) (Pager.pageLoop l) = 2
  | [], _, h => by simp at h
  | [e], _, h => by
    have he : e.mID = id := by
      simp only [List.map_cons, List.map_nil, List.mem_singleton] at h
      exact h.symm
    have hc : L3PagingRequestType1.carries (L3PagingRequestType1.one e.mID e.mType) id =
        true := by simp [L3PagingRequestType1.carries, he]
    simp only [Pager.pageLoop, List.countP_cons, List.countP_nil, hc]
    rfl
  | e1 :: e2 :: rest, hnd, h => by
    simp only [List.map_cons, List.nodup_cons, List.mem_cons, not_or] at hnd
    obtain ⟨⟨h12, h1r⟩, h2r, hndr⟩ := hnd
    simp only [List.map_cons, List.mem_cons] at h
    have habs : ∀ i, i ∉ List.map (fun e => e.mID) rest →
        List.countP (fun m => L3PagingRequestType1.carries m i) (Pager.pageLoop rest) = 0 :=
      fun i hi => Pager.pageLoop_countP_absent i rest (fun e he heq =>
        hi (by rw [← heq]; exact List.mem_map_of_mem _ he))
    by_cases hin : id ∈ List.map (fun e => e.mID) rest
    · have h1 : e1.mID ≠ id := fun hh => h1r (hh ▸ hin)
      have h2 : e2.mID ≠ id := fun hh => h2r (hh ▸ hin)
      have hr := Pager.pageLoop_countP_present id rest hndr hin
      have hc : L3PagingRequestType1.carries
          (L3PagingRequestType1.two e1.mID e1.mType e2.mID e2.mType) id = false := by
        simp [L3PagingRequestType1.carries, h1, h2]
      simp only [Pager.pageLoop, List.countP_cons, hc, hr]
      rfl
    · have hc : L3PagingRequestType1.carries
          (L3PagingRequestType1.two e1.mID e1.mType e2.mID e2.mType) id = true := by
        rcases h with h | h | h
        · simp [L3PagingRequestType1.carries, h]
        · simp [L3PagingRequestType1.carries, h]
        · exact absurd h hin
      simp only [Pager.pageLoop, List.countP_cons, hc, habs id hin]
      rfl

/-- C10. `pageAll` returns the number `n` of entries left by the purge and
sends `2 * ceil(n/2)` paging messages: the broadcast units of the remaining
entries (taken in list order two at a time, an odd last entry alone), each
unit twice; on a list with pairwise distinct identities every remaining
identity is carried by exactly two of the messages sent. -/
theorem Pager_pageAll_messages (expired : PagingEntry → Bool) (T : TransactionTable)
    (p : Pager) :
    (Pager.pageAll expired T p).count = (Pager.pageAll expired T p).pager.mPageIDs.length ∧
    (Pager.pageAll expired T p).pager.mPageIDs = (Pager.purge expired T p.mPageIDs).1 ∧
    (Pager.pageAll expired T p).sent.length =
      2 * (((Pager.pageAll expired T p).count + 1) / 2) ∧
    (Pager.pageAll expired T p).sent =
      (Pager.broadcastUnits (Pager.pageAll expired T p).pager.mPageIDs).flatMap
        (fun u => [u, u]) ∧
    (Pager.broadcastUnits (Pager.pageAll expired T p).pager.mPageIDs).flatMap
        L3PagingRequestType1.carried =
      (Pager.pageAll expired T p).pager.mPageIDs.map (fun e => (e.mID, e.mType)) ∧
    (p.identities.Nodup → ∀ e ∈ (Pager.pageAll expired T p).pager.mPageIDs,
      ((Pager.pageAll expired T p).sent.filter
        (fun m => L3PagingRequestType1.carries m e.mID)).length = 2) := by
  refine ⟨rfl, rfl, Pager.pageLoop_length _, Pager.pageLoop_eq_units _,
    Pager.broadcastUnits_carried _, ?_⟩
  intro hnd e he
  rw [← List.countP_eq_length_filter]
  exact Pager.pageLoop_countP_present e.mID _
    (List.Nodup.sublist (List.Sublist.map _ (Pager.purge_sublist expired T p.mPageIDs)) hnd)
    (List.mem_map_of_mem _ he)

/-- C10 at a concrete registry of three live entries: the identity of the
third is carried by exactly two of the messages sent. -/
theorem Pager_pageAll_messages_witness :
    ((Pager.pageAll (fun _ => false)
        [{ mID := 7, mSubscriber := L3MobileIdentity.IMSI 1,
           mService := L3CMServiceType.MobileTerminatedCall, mGSMState := CallState.Paging,
           mTimers := [], mChannel := none, dead := false }]
        ⟨[⟨L3MobileIdentity.IMSI 1, ChannelType.SDCCHType, 7, 100⟩,
          ⟨L3MobileIdentity.IMSI 2, ChannelType.TCHFType, 7, 120⟩,
          ⟨L3MobileIdentity.TMSI 5, ChannelType.SDCCHType, 7, 90⟩], 3⟩).sent.filter
      (fun m => L3PagingRequestType1.carries m (L3MobileIdentity.TMSI 5))).length = 2 :=
  (Pager_pageAll_messages (fun _ => false)
    [{ mID := 7, mSubscriber := L3MobileIdentity.IMSI 1,
       mService := L3CMServiceType.MobileTerminatedCall, mGSMState := CallState.Paging,
       mTimers := [], mChannel := none, dead := false }]
    ⟨[⟨L3MobileIdentity.IMSI 1, ChannelType.SDCCHType, 7, 100⟩,
      ⟨L3MobileIdentity.IMSI 2, ChannelType.TCHFType, 7, 120⟩,
      ⟨L3MobileIdentity.TMSI 5, ChannelType.SDCCHType, 7, 90⟩], 3⟩).2.2.2.2.2
    (by decide) ⟨L3MobileIdentity.TMSI 5, ChannelType.SDCCHType, 7, 90⟩ (by decide)

/-! ## Properties of the handover engine -/

/-- Removing a key leaves `find` of the other keys as it was. -/
theorem TransactionTable.find_remove_ne (T : TransactionTable) (id id' : Nat)
    (h : id ≠ id') :
    TransactionTable.find (TransactionTable.remove T id').2 id =
      TransactionTable.find T id := by
  unfold TransactionTable.remove
  split
  · rfl
  · simp only [TransactionTable.find, TransactionTable.find?_filter_ne T id id' h]

/-- After `remove`, `find` does not return the key. -/
theorem TransactionTable.find_remove_self (T : TransactionTable) (id : Nat) :
    TransactionTable.find (TransactionTable.remove T id).2 id = none := by
  unfold TransactionTable.remove
  split
  · rename_i hnone
    simp only [TransactionTable.find, hnone]
  · simp only [TransactionTable.find, TransactionTable.find?_filter_self]

/-- A key that `find` does not return is not returned after a `remove`. -/
theorem TransactionTable.find_remove_none (T : TransactionTable) (id id' : Nat)
    (h : TransactionTable.find T id = none) :
    TransactionTable.find (TransactionTable.remove T id').2 id = none := by
  by_cases hid : id = id'
  · subst hid
    exact TransactionTable.find_remove_self T id
  · rw [TransactionTable.find_remove_ne T id id' hid]
    exact h

/-- The value returned by `removeHandoverEntry` is the removal condition. -/
theorem HandoverEntry.removeHandoverEntry_fst (TN : LCH → Nat) (now : Nat)
    (e : HandoverEntry) (T : TransactionTable) :
    (e.removeHandoverEntry TN now T).1 = true ↔ e.removalCondition now := by
  unfold HandoverEntry.removeHandoverEntry HandoverEntry.removalCondition
  split_ifs with h1 h2 h3
  · simp only [true_iff]
    exact Or.inl ⟨h1.1, h1.2⟩
  · simp only [true_iff]
    exact Or.inr (Or.inl h2)
  · simp only [true_iff]
    exact Or.inr (Or.inr ⟨h3.1, by simpa using h3.2⟩)
  · simp only [Bool.false_eq_true, false_iff, not_or]
    refine ⟨fun h => h1 ⟨h.1, h.2⟩, h2, fun h => h3 ⟨h.1, by simp [h.2]⟩⟩

/-- When `removeHandoverEntry` returns false it touches nothing. -/
theorem HandoverEntry.removeHandoverEntry_false (TN : LCH → Nat) (now : Nat)
    (e : HandoverEntry) (T : TransactionTable)
    (h : (e.removeHandoverEntry TN now T).1 = false) :
    e.removeHandoverEntry TN now T = (false, T, []) := by
  unfold HandoverEntry.removeHandoverEntry at h ⊢
  split_ifs at h ⊢
  all_goals simp_all

/-- Case (a) of `removeHandoverEntry`. -/
theorem HandoverEntry.removeHandoverEntry_exhausted (TN : LCH → Nat) (now : Nat)
    (e : HandoverEntry) (T : TransactionTable)
    (ha : e.mGotHA = true ∧ e.mNy1 ≤ e.mPhysicalInfoAttempts) :
    e.removeHandoverEntry TN now T =
      (true, (TransactionTable.remove T e.mTransaction).2,
        [HOEvent.handoverOff (TN e.mTCH), HOEvent.HOCTimeout e.mTransaction,
          HOEvent.SIPRemoveCall e.mTransaction]) := by
  have ha' : e.mGotHA = true ∧ e.mPhysicalInfoAttempts ≥ e.mNy1 := ha
  unfold HandoverEntry.removeHandoverEntry
  rw [if_pos ha']

/-- Case (b) of `removeHandoverEntry`. -/
theorem HandoverEntry.removeHandoverEntry_registered (TN : LCH → Nat) (now : Nat)
    (e : HandoverEntry) (T : TransactionTable)
    (hna : ¬ (e.mGotHA = true ∧ e.mNy1 ≤ e.mPhysicalInfoAttempts))
    (hb : e.mRegisterPerformed = true) :
    e.removeHandoverEntry TN now T = (true, T, [HOEvent.handoverOff (TN e.mTCH)]) := by
  have hna' : ¬ (e.mGotHA = true ∧ e.mPhysicalInfoAttempts ≥ e.mNy1) := hna
  unfold HandoverEntry.removeHandoverEntry
  rw [if_neg hna', if_pos hb]

/-- Case (c) of `removeHandoverEntry`. -/
theorem HandoverEntry.removeHandoverEntry_expired (TN : LCH → Nat) (now : Nat)
    (e : HandoverEntry) (T : TransactionTable)
    (hna : ¬ (e.mGotHA = true ∧ e.mNy1 ≤ e.mPhysicalInfoAttempts))
    (hnb : e.mRegisterPerformed = false)
    (hc : e.mT3103.expired now = true ∧ e.mGotHComplete = false) :
    e.removeHandoverEntry TN now T =
      (true, (TransactionTable.remove T e.mTransaction).2,
        [HOEvent.handoverOff (TN e.mTCH), HOEvent.HOCTimeout e.mTransaction,
          HOEvent.SIPRemoveCall e.mTransaction]) := by
  have hna' : ¬ (e.mGotHA = true ∧ e.mPhysicalInfoAttempts ≥ e.mNy1) := hna
  have hnb' : ¬ e.mRegisterPerformed = true := by simp [hnb]
  have hc' : e.mT3103.expired now = true ∧ ¬ e.mGotHComplete = true :=
    ⟨hc.1, by simp [hc.2]⟩
  unfold HandoverEntry.removeHandoverEntry
  rw [if_neg hna', if_neg hnb', if_pos hc']

/-- C14. `removeHandoverEntry` returns true if and only if (a) access was
detected and the retry counter has reached the budget, or (b) registration was
performed, or (c) T3103 has expired and completion was not detected. The cases
are taken in this order: in case (a), and in case (c) when neither (a) nor (b)
holds, the owning session is timed out and removed from the transaction table;
in case (b), when (a) does not hold, the session is neither timed out nor
removed; when the call returns false the table is unchanged and no call is
made. -/
theorem HandoverEntry_removeHandoverEntry_spec (TN : LCH → Nat) (now : Nat)
    (e : HandoverEntry) (T : TransactionTable) :
    ((e.removeHandoverEntry TN now T).1 = true ↔
      ((e.mGotHA = true ∧ e.mNy1 ≤ e.mPhysicalInfoAttempts) ∨
        e.mRegisterPerformed = true ∨
        (e.mT3103.expired now = true ∧ e.mGotHComplete = false))) ∧
    ((e.mGotHA = true ∧ e.mNy1 ≤ e.mPhysicalInfoAttempts) →
      HOEvent.HOCTimeout e.mTransaction ∈ (e.removeHandoverEntry TN now T).2.2 ∧
      (e.removeHandoverEntry TN now T).2.1 = (TransactionTable.remove T e.mTransaction).2 ∧
      TransactionTable.find (e.removeHandoverEntry TN now T).2.1 e.mTransaction = none) ∧
    (¬ (e.mGotHA = true ∧ e.mNy1 ≤ e.mPhysicalInfoAttempts) →
      e.mRegisterPerformed = true →
      (e.removeHandoverEntry TN now T).2.1 = T ∧
      (e.removeHandoverEntry TN now T).2.2 = [HOEvent.handoverOff (TN e.mTCH)]) ∧
    (¬ (e.mGotHA = true ∧ e.mNy1 ≤ e.mPhysicalInfoAttempts) →
      e.mRegisterPerformed = false →
      (e.mT3103.expired now = true ∧ e.mGotHComplete = false) →
      HOEvent.HOCTimeout e.mTransaction ∈ (e.removeHandoverEntry TN now T).2.2 ∧
      (e.removeHandoverEntry TN now T).2.1 = (TransactionTable.remove T e.mTransaction).2 ∧
      TransactionTable.find (e.removeHandoverEntry TN now T).2.1 e.mTransaction = none) ∧
    ((e.removeHandoverEntry TN now T).1 = false →
      (e.removeHandoverEntry TN now T).2.1 = T ∧
      (e.removeHandoverEntry TN now T).2.2 = []) := by
  refine ⟨HandoverEntry.removeHandoverEntry_fst TN now e T, ?_, ?_, ?_, ?_⟩
  · intro ha
    rw [HandoverEntry.removeHandoverEntry_exhausted TN now e T ha]
    exact ⟨by simp, rfl, TransactionTable.find_remove_self T e.mTransaction⟩
  · intro hna hb
    rw [HandoverEntry.removeHandoverEntry_registered TN now e T hna hb]
    exact ⟨rfl, rfl⟩
  · intro hna hnb hc
    rw [HandoverEntry.removeHandoverEntry_expired TN now e T hna hnb hc]
    exact ⟨by simp, rfl, TransactionTable.find_remove_self T e.mTransaction⟩
  · intro hf
    rw [HandoverEntry.removeHandoverEntry_false TN now e T hf]
    exact ⟨rfl, rfl⟩

/-- C14 at a concrete entry: access detected, three ticks sent with a budget of
three, so the owning transaction 7 is timed out and removed. -/
theorem HandoverEntry_removeHandoverEntry_spec_witness :
    HOEvent.HOCTimeout 7 ∈
      (HandoverEntry.removeHandoverEntry (fun c => c) 10
        { mTransaction := 7, mTCH := 2, mHandoverReference := 5, mGotHA := true,
          mGotHComplete := false, mRegisterPerformed := false, mPhysicalInfoAttempts := 3,
          mInitialTA := 0, mNy1 := 3, mT3103 := Z100Timer.set 0 100 }
        [{ mID := 7, mSubscriber := L3MobileIdentity.IMSI 1,
           mService := L3CMServiceType.HandoverOriginatedCall,
           mGSMState := CallState.NullState, mTimers := [], mChannel := some 2,
           dead := false }]).2.2 :=
  ((HandoverEntry_removeHandoverEntry_spec (fun c => c) 10
      { mTransaction := 7, mTCH := 2, mHandoverReference := 5, mGotHA := true,
        mGotHComplete := false, mRegisterPerformed := false, mPhysicalInfoAttempts := 3,
        mInitialTA := 0, mNy1 := 3, mT3103 := Z100Timer.set 0 100 }
      [{ mID := 7, mSubscriber := L3MobileIdentity.IMSI 1,
         mService := L3CMServiceType.HandoverOriginatedCall,
         mGSMState := CallState.NullState, mTimers := [], mChannel := some 2,
         dead := false }]).2.1 (by decide)).1

/-- C15 (evaluated at the failing input). On an entry on which completion and
then access have been detected, `mGotHComplete` is true and `T3105Tick` is not
a no-op: it sends a physical-information message, increments the retry
counter and returns true. -/
theorem HandoverEntry_T3105Tick_after_complete :
    (((HandoverEntry.new (fun c => c) 0 3 100 7 2 5).1.HandoverCompleteDetected
        ).HandoverAccessDetected (fun c => c) 4).1.mGotHComplete = true ∧
    HandoverEntry.T3105Tick (fun c => c)
        (((HandoverEntry.new (fun c => c) 0 3 100 7 2 5).1.HandoverCompleteDetected
          ).HandoverAccessDetected (fun c => c) 4).1 =
      (true,
        { mTransaction := 7, mTCH := 2, mHandoverReference := 5, mGotHA := true,
          mGotHComplete := true, mRegisterPerformed := false, mPhysicalInfoAttempts := 2,
          mInitialTA := 4, mNy1 := 3, mT3103 := { mActive := false, mEndTime := 100 } },
        [HOEvent.sendPhysicalInformation 2 4]) := by
  decide

/-- The teardown of the relocated leg: what `isFinished` returns when
`destroyTail` is set, or in the Trying state when T3103 has expired or the
setup is reported finished. -/
theorem OutgoingHandover.isFinished_teardown (now : Nat) (a : PollAnswers)
    (o : OutgoingHandover) (T : TransactionTable)
    (h : o.mDestroyTail = true ∨
      (a.SIPStateBefore ≠ SIPState.HO_Proxy ∧
        (o.mT3103.expired now = true ∨ a.HOSetupFinished = true))) :
    ∃ ev, o.isFinished now a T =
      some { finished := true, entry := o,
             table := (TransactionTable.remove T o.mTransactionHO.mID).2, events := ev } ∧
      ∀ id, HOEvent.SIPRemoveCall id ∈ ev → id = o.mTransactionHO.mID := by
  unfold OutgoingHandover.isFinished
  by_cases hd : o.mDestroyTail = true
  · simp only [hd, if_true]
    exact ⟨_, rfl, by simp⟩
  · rcases h with h | ⟨hs, h⟩
    · exact absurd h hd
    · by_cases hx : o.mT3103.expired now = true
      · simp only [hd, hs, hx, if_true, if_false, Bool.false_eq_true, ne_eq, not_false_eq_true]
        exact ⟨_, rfl, by simp⟩
      · have hf : a.HOSetupFinished = true := by
          rcases h with h | h
          · exact absurd h hx
          · exact h
        simp only [hd, hs, hx, hf, if_true, if_false, Bool.false_eq_true, ne_eq,
          not_false_eq_true]
        exact ⟨_, rfl, by simp⟩

/-- C18. Every teardown that is not a proxy termination removes the relocated
leg only: polled with `destroyTail` set (whatever the state and the timer), or
in the Trying state with T3103 expired, or in the Trying state with the setup
reported finished, `isFinished` returns true and the transaction table
afterwards is the table before with the temporary transaction removed; every
other transaction, the original one included, is found as before, and no
other call is removed from the SIP interface. -/
theorem OutgoingHandover_isFinished_tail_only (now : Nat) (a : PollAnswers)
    (o : OutgoingHandover) (T : TransactionTable)
    (h : o.mDestroyTail = true ∨
      (a.SIPStateBefore ≠ SIPState.HO_Proxy ∧
        (o.mT3103.expired now = true ∨ a.HOSetupFinished = true))) :
    ∃ r, o.isFinished now a T = some r ∧ r.finished = true ∧
      r.table = (TransactionTable.remove T o.mTransactionHO.mID).2 ∧
      TransactionTable.find r.table o.mTransactionHO.mID = none ∧
      (∀ id, id ≠ o.mTransactionHO.mID →
        TransactionTable.find r.table id = TransactionTable.find T id) ∧
      (∀ id, id ≠ o.mTransactionHO.mID → HOEvent.SIPRemoveCall id ∉ r.events) := by
  obtain ⟨ev, hr, hev⟩ := OutgoingHandover.isFinished_teardown now a o T h
  refine ⟨_, hr, rfl, rfl, TransactionTable.find_remove_self T _, ?_, ?_⟩
  · intro id hid
    exact TransactionTable.find_remove_ne T id _ hid
  · intro id hid hmem
    exact hid (hev id hmem)

/-- C18 at a concrete input: a proxying outgoing handover with `destroyTail`
set; the temporary transaction 9 is removed, the original transaction 3
stays. -/
theorem OutgoingHandover_isFinished_tail_only_witness :
    ∃ r, OutgoingHandover.isFinished 10
        ⟨SIPState.HO_Proxy, false, SIPState.HO_Proxy, false, false, false, false⟩
        { mTransactionHO :=
            { mID := 9, mSubscriber := L3MobileIdentity.IMSI 1,
              mService := L3CMServiceType.MobileOriginatedCall,
              mGSMState := CallState.Active, mTimers := [], mChannel := none, dead := false,
              mOldTransaction := some 3 },
          mTransactionMSC := some 3, mDestroyTail := true, mT3103 := Z100Timer.set 0 100 }
        [{ mID := 3, mSubscriber := L3MobileIdentity.IMSI 1,
           mService := L3CMServiceType.MobileOriginatedCall,
           mGSMState := CallState.Active, mTimers := [], mChannel := some 2, dead := false },
         { mID := 9, mSubscriber := L3MobileIdentity.IMSI 1,
           mService := L3CMServiceType.MobileOriginatedCall,
           mGSMState := CallState.Active, mTimers := [], mChannel := none, dead := false,
           mOldTransaction := some 3 }] = some r ∧
      r.finished = true ∧ TransactionTable.find r.table 9 = none :=
  let ⟨r, h1, h2, _, h4, _⟩ := OutgoingHandover_isFinished_tail_only 10
    ⟨SIPState.HO_Proxy, false, SIPState.HO_Proxy, false, false, false, false⟩
    { mTransactionHO :=
        { mID := 9, mSubscriber := L3MobileIdentity.IMSI 1,
          mService := L3CMServiceType.MobileOriginatedCall,
          mGSMState := CallState.Active, mTimers := [], mChannel := none, dead := false,
          mOldTransaction := some 3 },
      mTransactionMSC := some 3, mDestroyTail := true, mT3103 := Z100Timer.set 0 100 }
    [{ mID := 3, mSubscriber := L3MobileIdentity.IMSI 1,
       mService := L3CMServiceType.MobileOriginatedCall,
       mGSMState := CallState.Active, mTimers := [], mChannel := some 2, dead := false },
     { mID := 9, mSubscriber := L3MobileIdentity.IMSI 1,
       mService := L3CMServiceType.MobileOriginatedCall,
       mGSMState := CallState.Active, mTimers := [], mChannel := none, dead := false,
       mOldTransaction := some 3 }] (Or.inl rfl)
  ⟨r, h1, h2, h4⟩

/-- C12 (as stated, refuted). An outgoing handover in the proxy state with
`destroyTail` set: neither proxy transition function is called, so neither
reports termination, yet `isFinished` returns true and removes the relocated
leg 9 only; the original leg 3 is still in the table. -/
theorem OutgoingHandover_isFinished_proxy_counterexample :
    ∃ r, OutgoingHandover.isFinished 10
        ⟨SIPState.HO_Proxy, false, SIPState.HO_Proxy, false, false, false, false⟩
        { mTransactionHO :=
            { mID := 9, mSubscriber := L3MobileIdentity.IMSI 1,
              mService := L3CMServiceType.MobileOriginatedCall,
              mGSMState := CallState.Active, mTimers := [], mChannel := none, dead := false,
              mOldTransaction := some 3 },
          mTransactionMSC := some 3, mDestroyTail := true, mT3103 := Z100Timer.set 0 100 }
        [{ mID := 3, mSubscriber := L3MobileIdentity.IMSI 1,
           mService := L3CMServiceType.MobileOriginatedCall,
           mGSMState := CallState.Active, mTimers := [], mChannel := some 2, dead := false },
         { mID := 9, mSubscriber := L3MobileIdentity.IMSI 1,
           mService := L3CMServiceType.MobileOriginatedCall,
           mGSMState := CallState.Active, mTimers := [], mChannel := none, dead := false,
           mOldTransaction := some 3 }] = some r ∧
      r.finished = true ∧
      r.events = [HOEvent.MODSendBYE 9, HOEvent.SIPRemoveCall 9] ∧
      TransactionTable.find r.table 9 = none ∧
      TransactionTable.find r.table 3 ≠ none := by
  refine ⟨_, rfl, ?_, ?_, ?_, ?_⟩ <;> decide

/-- C12 (amended). For an outgoing handover in the proxy state (SIP state
`HO_Proxy`, original reference stored) whose `destroyTail` flag is not set:
when the uplink or the downlink transition function reports termination,
`isFinished` returns true and both the relocated-leg and the original-leg
transaction have been removed from the table; when neither does, the call
returns false and the table is unchanged. -/
theorem OutgoingHandover_isFinished_proxy (now : Nat) (a : PollAnswers)
    (o : OutgoingHandover) (T : TransactionTable) (MSC : Nat)
    (hd : o.mDestroyTail = false) (hs : a.SIPStateBefore = SIPState.HO_Proxy)
    (hm : o.mTransactionMSC = some MSC) :
    ∃ r, o.isFinished now a T = some r ∧
      (((a.msgHO = true ∧ a.uplinkTerm = true) ∨ (a.msgMSC = true ∧ a.downlinkTerm = true)) →
        r.finished = true ∧
        r.table = (TransactionTable.remove
          (TransactionTable.remove T o.mTransactionHO.mID).2 MSC).2 ∧
        TransactionTable.find r.table o.mTransactionHO.mID = none ∧
        TransactionTable.find r.table MSC = none) ∧
      (¬ ((a.msgHO = true ∧ a.uplinkTerm = true) ∨
          (a.msgMSC = true ∧ a.downlinkTerm = true)) →
        r.finished = false ∧ r.table = T ∧ r.entry = o) := by
  have hboth : TransactionTable.find (TransactionTable.remove
        (TransactionTable.remove T o.mTransactionHO.mID).2 MSC).2 o.mTransactionHO.mID = none ∧
      TransactionTable.find (TransactionTable.remove
        (TransactionTable.remove T o.mTransactionHO.mID).2 MSC).2 MSC = none :=
    ⟨TransactionTable.find_remove_none _ _ _ (TransactionTable.find_remove_self T _),
      TransactionTable.find_remove_self _ _⟩
  unfold OutgoingHandover.isFinished
  simp only [hd, hs, hm, Bool.false_eq_true, if_false, ne_eq, not_true_eq_false]
  by_cases hup : a.msgHO = true ∧ a.uplinkTerm = true
  · rw [if_pos hup]
    exact ⟨_, rfl, fun _ => ⟨rfl, rfl, hboth.1, hboth.2⟩, fun hn => absurd (Or.inl hup) hn⟩
  · rw [if_neg hup]
    by_cases hdown : a.msgMSC = true ∧ a.downlinkTerm = true
    · rw [if_pos hdown]
      exact ⟨_, rfl, fun _ => ⟨rfl, rfl, hboth.1, hboth.2⟩,
        fun hn => absurd (Or.inr hdown) hn⟩
    · rw [if_neg hdown]
      refine ⟨_, rfl, fun h => ?_, fun _ => ⟨rfl, rfl, rfl⟩⟩
      rcases h with h | h
      · exact absurd h hup
      · exact absurd h hdown

/-- C12 (amended) at a concrete input: the uplink transition reports
termination. -/
theorem OutgoingHandover_isFinished_proxy_witness :
    ∃ r, OutgoingHandover.isFinished 10
        ⟨SIPState.HO_Proxy, false, SIPState.HO_Proxy, true, true, false, false⟩
        { mTransactionHO :=
            { mID := 9, mSubscriber := L3MobileIdentity.IMSI 1,
              mService := L3CMServiceType.MobileOriginatedCall,
              mGSMState := CallState.Active, mTimers := [], mChannel := none, dead := false,
              mOldTransaction := some 3 },
          mTransactionMSC := some 3, mDestroyTail := false, mT3103 := Z100Timer.set 0 100 }
        [{ mID := 3, mSubscriber := L3MobileIdentity.IMSI 1,
           mService := L3CMServiceType.MobileOriginatedCall,
           mGSMState := CallState.Active, mTimers := [], mChannel := some 2, dead := false },
         { mID := 9, mSubscriber := L3MobileIdentity.IMSI 1,
           mService := L3CMServiceType.MobileOriginatedCall,
           mGSMState := CallState.Active, mTimers := [], mChannel := none, dead := false,
           mOldTransaction := some 3 }] = some r ∧
      r.finished = true ∧ TransactionTable.find r.table 9 = none ∧
      TransactionTable.find r.table 3 = none :=
  let ⟨r, h1, h2, _⟩ := OutgoingHandover_isFinished_proxy 10
    ⟨SIPState.HO_Proxy, false, SIPState.HO_Proxy, true, true, false, false⟩
    { mTransactionHO :=
        { mID := 9, mSubscriber := L3MobileIdentity.IMSI 1,
          mService := L3CMServiceType.MobileOriginatedCall,
          mGSMState := CallState.Active, mTimers := [], mChannel := none, dead := false,
          mOldTransaction := some 3 },
      mTransactionMSC := some 3, mDestroyTail := false, mT3103 := Z100Timer.set 0 100 }
    [{ mID := 3, mSubscriber := L3MobileIdentity.IMSI 1,
       mService := L3CMServiceType.MobileOriginatedCall,
       mGSMState := CallState.Active, mTimers := [], mChannel := some 2, dead := false },
     { mID := 9, mSubscriber := L3MobileIdentity.IMSI 1,
       mService := L3CMServiceType.MobileOriginatedCall,
       mGSMState := CallState.Active, mTimers := [], mChannel := none, dead := false,
       mOldTransaction := some 3 }] 3 rfl rfl rfl
  ⟨r, h1, (h2 (Or.inl ⟨rfl, rfl⟩)).1, (h2 (Or.inl ⟨rfl, rfl⟩)).2.2.1,
    (h2 (Or.inl ⟨rfl, rfl⟩)).2.2.2⟩

/-- A poll in the Trying state that sees the state `HO_Proxy` after
`HOSetupFinished()` stores `callingTransaction()` in `mTransactionMSC` and
keeps the entry. -/
theorem OutgoingHandover.isFinished_capture (now : Nat) (a : PollAnswers)
    (o : OutgoingHandover) (T : TransactionTable)
    (hd : o.mDestroyTail = false) (hs : a.SIPStateBefore ≠ SIPState.HO_Proxy)
    (hx : o.mT3103.expired now = false) (hf : a.HOSetupFinished = false)
    (hp : a.SIPStateAfter = SIPState.HO_Proxy) :
    o.isFinished now a T =
      some { finished := false,
             entry := { o with mTransactionMSC := o.mTransactionHO.mOldTransaction },
             table := T, events := [] } := by
  unfold OutgoingHandover.isFinished
  simp only [hd, hs, hx, hf, hp, Bool.false_eq_true, if_false, if_true, ne_eq,
    not_false_eq_true]

/-- In the proxy state, without `destroyTail`, `isFinished` uses
`mTransactionMSC` whatever it holds. -/
theorem OutgoingHandover.isFinished_unassigned (now : Nat) (a : PollAnswers)
    (o : OutgoingHandover) (T : TransactionTable)
    (hd : o.mDestroyTail = false) (hs : a.SIPStateBefore = SIPState.HO_Proxy)
    (hm : o.mTransactionMSC = none) :
    o.isFinished now a T = none := by
  unfold OutgoingHandover.isFinished
  simp only [hd, hs, hm, Bool.false_eq_true, if_false, ne_eq, not_true_eq_false]

/-- C17 (evaluated at the failing input). A newly constructed outgoing
handover for a temporary transaction whose `callingTransaction()` is
transaction 3, polled when the SIP state of the temporary transaction is
already `HO_Proxy`: `mTransactionMSC` has not been assigned, and `isFinished`
runs its proxy branch and uses it. -/
theorem OutgoingHandover_isFinished_uncaptured :
    (OutgoingHandover.new 0 100
        { mID := 9, mSubscriber := L3MobileIdentity.IMSI 1,
          mService := L3CMServiceType.MobileOriginatedCall,
          mGSMState := CallState.Active, mTimers := [], mChannel := none, dead := false,
          mOldTransaction := some 3 }).mTransactionMSC = none ∧
    OutgoingHandover.isFinished 10
        ⟨SIPState.HO_Proxy, false, SIPState.HO_Proxy, false, false, false, false⟩
        (OutgoingHandover.new 0 100
          { mID := 9, mSubscriber := L3MobileIdentity.IMSI 1,
            mService := L3CMServiceType.MobileOriginatedCall,
            mGSMState := CallState.Active, mTimers := [], mChannel := none, dead := false,
            mOldTransaction := some 3 })
        [{ mID := 3, mSubscriber := L3MobileIdentity.IMSI 1,
           mService := L3CMServiceType.MobileOriginatedCall,
           mGSMState := CallState.Active, mTimers := [], mChannel := some 2, dead := false },
         { mID := 9, mSubscriber := L3MobileIdentity.IMSI 1,
           mService := L3CMServiceType.MobileOriginatedCall,
           mGSMState := CallState.Active, mTimers := [], mChannel := none, dead := false,
           mOldTransaction := some 3 }] = none := by
  decide

/-- The removal loop when no entry meets the removal condition. -/
theorem Handover.removeLoop_none (TN : LCH → Nat) (now : Nat) (l : List HandoverEntry)
    (T : TransactionTable) (h : ∀ x ∈ l, ¬ x.removalCondition now) :
    Handover.removeLoop TN now l T = (l, T, []) := by
  induction l with
  | nil => rfl
  | cons x rest ih =>
    have hx : (x.removeHandoverEntry TN now T).1 = false := by
      have := (HandoverEntry.removeHandoverEntry_fst TN now x T).not.mpr
        (h x (List.mem_cons_self _ _))
      simpa using this
    have hx2 := HandoverEntry.removeHandoverEntry_false TN now x T hx
    have hrest := ih (fun y hy => h y (List.mem_cons_of_mem _ hy))
    simp only [Handover.removeLoop, hx2, hrest, Bool.false_eq_true, if_false,
      List.nil_append]

/-- The removal loop erases the first entry that meets the removal condition,
with the effects of its `removeHandoverEntry` call, and no other. -/
theorem Handover.removeLoop_first (TN : LCH → Nat) (now : Nat)
    (pre post : List HandoverEntry) (e : HandoverEntry) (T : TransactionTable)
    (hpre : ∀ x ∈ pre, ¬ x.removalCondition now) (he : e.removalCondition now) :
    Handover.removeLoop TN now (pre ++ e :: post) T =
      (pre ++ post, (e.removeHandoverEntry TN now T).2.1,
        (e.removeHandoverEntry TN now T).2.2) := by
  induction pre with
  | nil =>
    have h1 := (HandoverEntry.removeHandoverEntry_fst TN now e T).mpr he
    simp only [List.nil_append, Handover.removeLoop, h1, if_true]
  | cons x rest ih =>
    have hx : (x.removeHandoverEntry TN now T).1 = false := by
      have := (HandoverEntry.removeHandoverEntry_fst TN now x T).not.mpr
        (hpre x (List.mem_cons_self _ _))
      simpa using this
    have hx2 := HandoverEntry.removeHandoverEntry_false TN now x T hx
    have hrest := ih (fun y hy => hpre y (List.mem_cons_of_mem _ hy))
    show Handover.removeLoop TN now (x :: (rest ++ e :: post)) T = _
    simp only [Handover.removeLoop, hx2, hrest, Bool.false_eq_true, if_false,
      List.nil_append, List.cons_append]

/-- The two outcomes of the removal loop: nothing is erased, or exactly the
first entry that meets the removal condition. -/
theorem Handover.removeLoop_cases (TN : LCH → Nat) (now : Nat) (l : List HandoverEntry)
    (T : TransactionTable) :
    ((∀ x ∈ l, ¬ x.removalCondition now) ∧ Handover.removeLoop TN now l T = (l, T, [])) ∨
    (∃ pre e post, l = pre ++ e :: post ∧ (∀ x ∈ pre, ¬ x.removalCondition now) ∧
      e.removalCondition now ∧
      Handover.removeLoop TN now l T =
        (pre ++ post, (e.removeHandoverEntry TN now T).2.1,
          (e.removeHandoverEntry TN now T).2.2)) := by
  induction l with
  | nil => exact Or.inl ⟨by simp, rfl⟩
  | cons x rest ih =>
    by_cases hx : x.removalCondition now
    · exact Or.inr ⟨[], x, rest, rfl, by simp, hx,
        Handover.removeLoop_first TN now [] rest x T (by simp) hx⟩
    · rcases ih with ⟨hall, _⟩ | ⟨pre, e, post, hl, hpre, he, _⟩
      · have hall' : ∀ y ∈ x :: rest, ¬ y.removalCondition now := by
          intro y hy
          rcases List.mem_cons.mp hy with hy | hy
          · rw [hy]; exact hx
          · exact hall y hy
        exact Or.inl ⟨hall', Handover.removeLoop_none TN now _ T hall'⟩
      · have hpre' : ∀ y ∈ x :: pre, ¬ y.removalCondition now := by
          intro y hy
          rcases List.mem_cons.mp hy with hy | hy
          · rw [hy]; exact hx
          · exact hpre y hy
        exact Or.inr ⟨x :: pre, e, post, by rw [hl]; rfl, hpre', he,
          by rw [hl]; exact Handover.removeLoop_first TN now (x :: pre) post e T hpre' he⟩

/-- The tick loop applies `T3105Tick` to every entry. -/
theorem Handover.tickLoop_entries (TN : LCH → Nat) (l : List HandoverEntry) :
    (Handover.tickLoop TN l).2.1 = l.map (fun x => (x.T3105Tick TN).2.1) := by
  induction l with
  | nil => rfl
  | cons x rest ih => simp only [Handover.tickLoop, ih, List.map_cons]

/-- A tick leaves the channel of the entry as it was. -/
theorem HandoverEntry.T3105Tick_mTCH (TN : LCH → Nat) (e : HandoverEntry) :
    (e.T3105Tick TN).2.1.mTCH = e.mTCH := by
  unfold HandoverEntry.T3105Tick
  split <;> rfl

/-- The tick loop leaves the channels of the list as they were. -/
theorem Handover.tickLoop_mTCH (TN : LCH → Nat) (l : List HandoverEntry) :
    (Handover.tickLoop TN l).2.1.map (fun x => x.mTCH) = l.map (fun x => x.mTCH) := by
  rw [Handover.tickLoop_entries, List.map_map]
  apply List.map_congr_left
  intro x _
  exact HandoverEntry.T3105Tick_mTCH TN x

/-- The registration loop when no entry is complete. -/
theorem Handover.registerLoop_none (register : Nat → Option Bool) (l : List HandoverEntry)
    (h : ∀ x ∈ l, x.mGotHComplete = false) :
    Handover.registerLoop register l = (false, l, []) := by
  induction l with
  | nil => rfl
  | cons x rest ih =>
    have hx : x.mGotHComplete = false := h x (List.mem_cons_self _ _)
    have hrest := ih (fun y hy => h y (List.mem_cons_of_mem _ hy))
    simp [Handover.registerLoop, HandoverEntry.SipRegister, hx, hrest]

/-- The registration loop registers the first complete entry and erases it. -/
theorem Handover.registerLoop_first (register : Nat → Option Bool)
    (pre post : List HandoverEntry) (e : HandoverEntry)
    (hpre : ∀ x ∈ pre, x.mGotHComplete = false) (he : e.mGotHComplete = true) :
    Handover.registerLoop register (pre ++ e :: post) =
      (true, pre ++ post, [HOEvent.Register e.mTransaction]) := by
  induction pre with
  | nil =>
    cases hr : register e.mTransaction <;>
      simp [Handover.registerLoop, HandoverEntry.SipRegister, he, hr]
  | cons x rest ih =>
    have hx : x.mGotHComplete = false := hpre x (List.mem_cons_self _ _)
    have hrest := ih (fun y hy => hpre y (List.mem_cons_of_mem _ hy))
    simp [Handover.registerLoop, HandoverEntry.SipRegister, hx, hrest]

/-- The two outcomes of the registration loop: nothing is erased, or exactly
the first complete entry. -/
theorem Handover.registerLoop_cases (register : Nat → Option Bool)
    (l : List HandoverEntry) :
    ((∀ x ∈ l, x.mGotHComplete = false) ∧
      Handover.registerLoop register l = (false, l, [])) ∨
    (∃ pre e post, l = pre ++ e :: post ∧ (∀ x ∈ pre, x.mGotHComplete = false) ∧
      e.mGotHComplete = true ∧
      Handover.registerLoop register l =
        (true, pre ++ post, [HOEvent.Register e.mTransaction])) := by
  induction l with
  | nil => exact Or.inl ⟨by simp, rfl⟩
  | cons x rest ih =>
    by_cases hx : x.mGotHComplete = true
    · exact Or.inr ⟨[], x, rest, rfl, by simp, hx,
        Handover.registerLoop_first register [] rest x (by simp) hx⟩
    · have hx' : x.mGotHComplete = false := by simpa using hx
      rcases ih with ⟨hall, _⟩ | ⟨pre, e, post, hl, hpre, he, _⟩
      · have hall' : ∀ y ∈ x :: rest, y.mGotHComplete = false := by
          intro y hy
          rcases List.mem_cons.mp hy with hy | hy
          · rw [hy]; exact hx'
          · exact hall y hy
        exact Or.inl ⟨hall', Handover.registerLoop_none register _ hall'⟩
      · have hpre' : ∀ y ∈ x :: pre, y.mGotHComplete = false := by
          intro y hy
          rcases List.mem_cons.mp hy with hy | hy
          · rw [hy]; exact hx'
          · exact hpre y hy
        exact Or.inr ⟨x :: pre, e, post, by rw [hl]; rfl, hpre', he,
          by rw [hl]; exact Handover.registerLoop_first register (x :: pre) post e hpre' he⟩

/-- The table left by a poll: transactions not found before are not found
after, transactions other than the two legs of the polled handover are found as
before, and no `HOCTimeout` call is made. -/
theorem OutgoingHandover.isFinished_frame (now : Nat) (a : PollAnswers)
    (o : OutgoingHandover) (T : TransactionTable) (r : PollResult)
    (h : o.isFinished now a T = some r) :
    (∀ id, TransactionTable.find T id = none → TransactionTable.find r.table id = none) ∧
    (∀ id, id ≠ o.mTransactionHO.mID → o.mTransactionMSC ≠ some id →
      TransactionTable.find r.table id = TransactionTable.find T id) ∧
    (∀ id, HOEvent.HOCTimeout id ∉ r.events) := by
  have hone : ∀ T' : TransactionTable, T' = (TransactionTable.remove T o.mTransactionHO.mID).2 →
      (∀ id, TransactionTable.find T id = none → TransactionTable.find T' id = none) ∧
      (∀ id, id ≠ o.mTransactionHO.mID → o.mTransactionMSC ≠ some id →
        TransactionTable.find T' id = TransactionTable.find T id) := by
    intro T' hT'
    subst hT'
    exact ⟨fun id hid => TransactionTable.find_remove_none T id _ hid,
      fun id hid _ => TransactionTable.find_remove_ne T id _ hid⟩
  have hsame : (∀ id, TransactionTable.find T id = none → TransactionTable.find T id = none) ∧
      (∀ id, id ≠ o.mTransactionHO.mID → o.mTransactionMSC ≠ some id →
        TransactionTable.find T id = TransactionTable.find T id) :=
    ⟨fun _ h => h, fun _ _ _ => rfl⟩
  have hev : ∀ (c d : Prop) [Decidable c] [Decidable d] (x y : HOEvent) (l : List HOEvent)
      (id : Nat), (∀ z ∈ x :: y :: l, z ≠ HOEvent.HOCTimeout id) →
      HOEvent.HOCTimeout id ∉ (if c then [x] else []) ++ (if d then [y] else []) ++ l := by
    intro c d _ _ x y l id hz hmem
    rcases List.mem_append.mp hmem with hmem | hmem
    · rcases List.mem_append.mp hmem with hmem | hmem
      · split_ifs at hmem
        · exact hz x (by simp) (List.mem_singleton.mp hmem).symm
        · cases hmem
      · split_ifs at hmem
        · exact hz y (by simp) (List.mem_singleton.mp hmem).symm
        · cases hmem
    · exact hz _ (by simp [hmem]) rfl
  simp only [OutgoingHandover.isFinished] at h
  by_cases h1 : o.mDestroyTail = true
  · rw [if_pos h1] at h
    cases h
    exact ⟨(hone _ rfl).1, (hone _ rfl).2, by simp⟩
  · rw [if_neg h1] at h
    by_cases h2 : a.SIPStateBefore ≠ SIPState.HO_Proxy
    · rw [if_pos h2] at h
      by_cases h3 : o.mT3103.expired now = true
      · rw [if_pos h3] at h
        cases h
        exact ⟨(hone _ rfl).1, (hone _ rfl).2, by simp⟩
      · rw [if_neg h3] at h
        by_cases h4 : a.HOSetupFinished = true
        · rw [if_pos h4] at h
          cases h
          exact ⟨(hone _ rfl).1, (hone _ rfl).2, by simp⟩
        · rw [if_neg h4] at h
          by_cases h5 : a.SIPStateAfter = SIPState.HO_Proxy
          · rw [if_pos h5] at h
            cases h
            exact ⟨hsame.1, hsame.2, by simp⟩
          · rw [if_neg h5] at h
            cases h
            exact ⟨hsame.1, hsame.2, by simp⟩
    · rw [if_neg h2] at h
      cases hm : o.mTransactionMSC with
      | none => simp [hm] at h
      | some MSC =>
        have htwo : (∀ id, TransactionTable.find T id = none →
              TransactionTable.find (TransactionTable.remove
                (TransactionTable.remove T o.mTransactionHO.mID).2 MSC).2 id = none) ∧
            (∀ id, id ≠ o.mTransactionHO.mID → some MSC ≠ some id →
              TransactionTable.find (TransactionTable.remove
                (TransactionTable.remove T o.mTransactionHO.mID).2 MSC).2 id =
                TransactionTable.find T id) := by
          refine ⟨fun id hid => TransactionTable.find_remove_none _ id _
            (TransactionTable.find_remove_none T id _ hid), fun id hid hmsc => ?_⟩
          have hne : id ≠ MSC := fun hh => hmsc (by rw [hh])
          rw [TransactionTable.find_remove_ne _ id MSC hne,
            TransactionTable.find_remove_ne T id _ hid]
        simp only [hm] at h
        by_cases h6 : a.msgHO = true ∧ a.uplinkTerm = true
        · rw [if_pos h6] at h
          cases h
          refine ⟨htwo.1, htwo.2, fun id => ?_⟩
          simp
        · rw [if_neg h6] at h
          by_cases h7 : a.msgMSC = true ∧ a.downlinkTerm = true
          · rw [if_pos h7] at h
            cases h
            refine ⟨htwo.1, htwo.2, fun id => ?_⟩
            exact hev (a.msgHO = true) (a.msgMSC = true) _ _ _ id (by simp)
          · rw [if_neg h7] at h
            cases h
            refine ⟨hsame.1, fun id hid _ => rfl, fun id => ?_⟩
            simp

/-- The table left by the outgoing loop: transactions not found before are
not found after, transactions that are no leg of any outgoing handover are
found as before, and no `HOCTimeout` call is made. -/
theorem Handover.outgoingLoop_frame (now : Nat) (answers : OutgoingHandover → PollAnswers)
    (outs : List OutgoingHandover) (T : TransactionTable)
    (q : List OutgoingHandover × TransactionTable × List HOEvent)
    (h : Handover.outgoingLoop now answers outs T = some q) :
    (∀ id, TransactionTable.find T id = none → TransactionTable.find q.2.1 id = none) ∧
    (∀ id, (∀ o ∈ outs, id ≠ o.mTransactionHO.mID ∧ o.mTransactionMSC ≠ some id) →
      TransactionTable.find q.2.1 id = TransactionTable.find T id) ∧
    (∀ id, HOEvent.HOCTimeout id ∉ q.2.2) := by
  induction outs generalizing T q with
  | nil =>
    simp only [Handover.outgoingLoop, Option.some.injEq] at h
    subst h
    exact ⟨fun _ h => h, fun _ _ => rfl, by simp⟩
  | cons o rest ih =>
    simp only [Handover.outgoingLoop] at h
    cases hp : o.isFinished now (answers o) T with
    | none => simp [hp] at h
    | some r =>
      have hf := OutgoingHandover.isFinished_frame now (answers o) o T r hp
      simp only [hp] at h
      split_ifs at h with hfin
      · cases h
        refine ⟨hf.1, fun id hid => ?_, hf.2.2⟩
        exact hf.2.1 id (hid o (List.mem_cons_self _ _)).1 (hid o (List.mem_cons_self _ _)).2
      · cases hq : Handover.outgoingLoop now answers rest r.table with
        | none => simp [hq] at h
        | some q' =>
          have hi := ih r.table q' hq
          simp only [hq, Option.some.injEq] at h
          subst h
          refine ⟨fun id hid => hi.1 id (hf.1 id hid), fun id hid => ?_, ?_⟩
          · rw [hi.2.1 id (fun o' ho' => hid o' (List.mem_cons_of_mem _ ho'))]
            exact hf.2.1 id (hid o (List.mem_cons_self _ _)).1
              (hid o (List.mem_cons_self _ _)).2
          · intro id hmem
            rcases List.mem_append.mp hmem with hmem | hmem
            · exact hf.2.2 id hmem
            · exact hi.2.2 id hmem

/-- The outgoing loop goes through when every outgoing handover polled in the
proxy state holds a reference to its original transaction. -/
theorem Handover.outgoingLoop_isSome (now : Nat) (answers : OutgoingHandover → PollAnswers)
    (outs : List OutgoingHandover) (T : TransactionTable)
    (h : ∀ o ∈ outs, o.mDestroyTail = false →
      (answers o).SIPStateBefore = SIPState.HO_Proxy → o.mTransactionMSC ≠ none) :
    ∃ q, Handover.outgoingLoop now answers outs T = some q := by
  induction outs generalizing T with
  | nil => exact ⟨_, rfl⟩
  | cons o rest ih =>
    have hpoll : ∃ r, o.isFinished now (answers o) T = some r := by
      by_cases h1 : o.mDestroyTail = true
      · obtain ⟨ev, hr, _⟩ :=
          OutgoingHandover.isFinished_teardown now (answers o) o T (Or.inl h1)
        exact ⟨_, hr⟩
      · by_cases h2 : (answers o).SIPStateBefore ≠ SIPState.HO_Proxy
        · simp only [OutgoingHandover.isFinished]
          rw [if_neg h1, if_pos h2]
          split_ifs <;> exact ⟨_, rfl⟩
        · have hs : (answers o).SIPStateBefore = SIPState.HO_Proxy := by
            by_contra hc
            exact h2 hc
          have hd : o.mDestroyTail = false := by simpa using h1
          cases hm : o.mTransactionMSC with
          | none => exact absurd hm (h o (List.mem_cons_self _ _) hd hs)
          | some MSC =>
            simp only [OutgoingHandover.isFinished, hm]
            rw [if_neg h1, if_neg h2]
            by_cases h6 : (answers o).msgHO = true ∧ (answers o).uplinkTerm = true
            · rw [if_pos h6]
              exact ⟨_, rfl⟩
            · rw [if_neg h6]
              by_cases h7 : (answers o).msgMSC = true ∧ (answers o).downlinkTerm = true
              · rw [if_pos h7]
                exact ⟨_, rfl⟩
              · rw [if_neg h7]
                exact ⟨_, rfl⟩
    obtain ⟨r, hr⟩ := hpoll
    simp only [Handover.outgoingLoop, hr]
    split_ifs
    · exact ⟨_, rfl⟩
    · obtain ⟨q', hq'⟩ := ih r.table (fun o' ho' => h o' (List.mem_cons_of_mem _ ho'))
      rw [hq']
      exact ⟨_, rfl⟩

/-- The list left by the removal loop is a sublist of the list before, at most
one entry shorter. -/
theorem Handover.removeLoop_sublist (TN : LCH → Nat) (now : Nat) (l : List HandoverEntry)
    (T : TransactionTable) :
    List.Sublist (Handover.removeLoop TN now l T).1 l ∧
      l.length ≤ (Handover.removeLoop TN now l T).1.length + 1 := by
  rcases Handover.removeLoop_cases TN now l T with ⟨_, h⟩ | ⟨pre, e, post, hl, _, _, h⟩
  · rw [h]
    exact ⟨List.Sublist.refl l, Nat.le_succ _⟩
  · rw [h, hl]
    refine ⟨List.Sublist.append (List.Sublist.refl pre) (List.sublist_cons_self e post), ?_⟩
    simp only [List.length_append, List.length_cons]
    omega

/-- The list left by the registration loop is a sublist of the list before, at
most one entry shorter. -/
theorem Handover.registerLoop_sublist (register : Nat → Option Bool)
    (l : List HandoverEntry) :
    List.Sublist (Handover.registerLoop register l).2.1 l ∧
      l.length ≤ (Handover.registerLoop register l).2.1.length + 1 := by
  rcases Handover.registerLoop_cases register l with ⟨_, h⟩ | ⟨pre, e, post, hl, _, _, h⟩
  · rw [h]
    exact ⟨List.Sublist.refl l, Nat.le_succ _⟩
  · rw [h, hl]
    refine ⟨List.Sublist.append (List.Sublist.refl pre) (List.sublist_cons_self e post), ?_⟩
    simp only [List.length_append, List.length_cons]
    omega

/-- The tick loop keeps the length of the list. -/
theorem Handover.tickLoop_length (TN : LCH → Nat) (l : List HandoverEntry) :
    (Handover.tickLoop TN l).2.1.length = l.length := by
  rw [Handover.tickLoop_entries, List.length_map]

/-- The registration loop makes no `HOCTimeout` call. -/
theorem Handover.registerLoop_events (register : Nat → Option Bool)
    (l : List HandoverEntry) (id : Nat) :
    HOEvent.HOCTimeout id ∉ (Handover.registerLoop register l).2.2 := by
  rcases Handover.registerLoop_cases register l with ⟨_, h⟩ | ⟨pre, e, post, _, _, _, h⟩
  · rw [h]; simp
  · rw [h]; simp

/-- What one iteration of the handover loop leaves behind, in terms of its four
loops: the inbound list is the list of the removal loop, ticked, and passed
through the registration loop when no tick was sent; the table is the one left
by the removal loop and then by the outgoing loop. -/
theorem Handover.handoverHandler_some (TN : LCH → Nat) (now : Nat)
    (answers : OutgoingHandover → PollAnswers) (register : Nat → Option Bool)
    (h : Handover) (T : TransactionTable) (r : CycleResult)
    (hr : Handover.handoverHandler TN now answers register h T = some r) :
    ∃ q tail, Handover.outgoingLoop now answers h.mOutgoingHandovers
        (Handover.removeLoop TN now h.mHandovers T).2.1 = some q ∧
      r.handover.mHandovers =
        (if (Handover.tickLoop TN (Handover.removeLoop TN now h.mHandovers T).1).1 then
          (Handover.tickLoop TN (Handover.removeLoop TN now h.mHandovers T).1).2.1
        else
          (Handover.registerLoop register
            (Handover.tickLoop TN (Handover.removeLoop TN now h.mHandovers T).1).2.1).2.1) ∧
      r.handover.mOutgoingHandovers = q.1 ∧
      r.table = q.2.1 ∧
      r.events = (Handover.removeLoop TN now h.mHandovers T).2.2 ++
        (Handover.tickLoop TN (Handover.removeLoop TN now h.mHandovers T).1).2.2 ++
        q.2.2 ++ tail ∧
      (∀ id, HOEvent.HOCTimeout id ∉ tail) := by
  simp only [Handover.handoverHandler] at hr
  cases hq : Handover.outgoingLoop now answers h.mOutgoingHandovers
      (Handover.removeLoop TN now h.mHandovers T).2.1 with
  | none => simp [hq] at hr
  | some q =>
    simp only [hq] at hr
    by_cases hd : (Handover.tickLoop TN (Handover.removeLoop TN now h.mHandovers T).1).1 = true
    · rw [if_pos hd] at hr
      cases hr
      exact ⟨q, [HOEvent.usleep], rfl, by rw [if_pos hd], rfl, rfl, rfl, by simp⟩
    · rw [if_neg hd] at hr
      cases hr
      refine ⟨q, _, rfl, by rw [if_neg hd], rfl, rfl, by rw [List.append_assoc], ?_⟩
      intro id hmem
      rcases List.mem_append.mp hmem with hmem | hmem
      · exact Handover.registerLoop_events register _ id hmem
      · split_ifs at hmem
        · cases hmem
        · simp at hmem

/-- One iteration of the handover loop goes through when the outgoing loop
does. -/
theorem Handover.handoverHandler_isSome (TN : LCH → Nat) (now : Nat)
    (answers : OutgoingHandover → PollAnswers) (register : Nat → Option Bool)
    (h : Handover) (T : TransactionTable)
    (q : List OutgoingHandover × TransactionTable × List HOEvent)
    (hq : Handover.outgoingLoop now answers h.mOutgoingHandovers
      (Handover.removeLoop TN now h.mHandovers T).2.1 = some q) :
    ∃ r, Handover.handoverHandler TN now answers register h T = some r := by
  simp only [Handover.handoverHandler, hq]
  split_ifs <;> exact ⟨_, rfl⟩

/-- An entry that does not meet the removal condition keeps its place in the
removal loop: the entries before it and after it are kept or erased, it
stays. -/
theorem Handover.removeLoop_keep (TN : LCH → Nat) (now : Nat)
    (pre post : List HandoverEntry) (e : HandoverEntry) (T : TransactionTable)
    (he : ¬ e.removalCondition now) :
    ∃ pre' post', List.Sublist pre' pre ∧ List.Sublist post' post ∧
      (Handover.removeLoop TN now (pre ++ e :: post) T).1 = pre' ++ e :: post' := by
  induction pre with
  | nil =>
    have hx : (e.removeHandoverEntry TN now T).1 = false := by
      have := (HandoverEntry.removeHandoverEntry_fst TN now e T).not.mpr he
      simpa using this
    have hx2 := HandoverEntry.removeHandoverEntry_false TN now e T hx
    refine ⟨[], (Handover.removeLoop TN now post T).1, List.Sublist.refl _,
      (Handover.removeLoop_sublist TN now post T).1, ?_⟩
    simp only [List.nil_append, Handover.removeLoop, hx2, Bool.false_eq_true, if_false]
  | cons x rest ih =>
    by_cases hx : x.removalCondition now
    · refine ⟨rest, post, List.sublist_cons_self x rest, List.Sublist.refl _, ?_⟩
      have := Handover.removeLoop_first TN now [] (rest ++ e :: post) x T (by simp) hx
      simpa using congrArg Prod.fst this
    · obtain ⟨pre', post', h1, h2, h3⟩ := ih
      have hx1 : (x.removeHandoverEntry TN now T).1 = false := by
        have := (HandoverEntry.removeHandoverEntry_fst TN now x T).not.mpr hx
        simpa using this
      have hx2 := HandoverEntry.removeHandoverEntry_false TN now x T hx1
      refine ⟨x :: pre', post', List.Sublist.cons₂ x h1, h2, ?_⟩
      show (Handover.removeLoop TN now (x :: (rest ++ e :: post)) T).1 = _
      simp only [Handover.removeLoop, hx2, Bool.false_eq_true, if_false, h3,
        List.cons_append]

/-- The search loop of `handoverAccess` leaves the channels of the list as
they were. -/
theorem Handover.accessLoop_mTCH (TN : LCH → Nat) (wTN : Nat) (initialTA : Int)
    (l : List HandoverEntry) :
    (Handover.accessLoop TN wTN initialTA l).1.map (fun x => x.mTCH) =
      l.map (fun x => x.mTCH) := by
  induction l with
  | nil => rfl
  | cons x rest ih =>
    simp only [Handover.accessLoop]
    split_ifs
    · simp only [List.map_cons, HandoverEntry.HandoverAccessDetected,
        HandoverEntry.T3105Tick_mTCH]
    · simp only [List.map_cons, ih]

/-- The search loop of `handoverComplete` leaves the channels of the list as
they were. -/
theorem Handover.completeLoop_mTCH (TN : LCH → Nat) (wTN : Nat) (l : List HandoverEntry) :
    (Handover.completeLoop TN wTN l).map (fun x => x.mTCH) = l.map (fun x => x.mTCH) := by
  induction l with
  | nil => rfl
  | cons x rest ih =>
    simp only [Handover.completeLoop]
    split_ifs
    · simp only [List.map_cons, HandoverEntry.HandoverCompleteDetected]
    · simp only [List.map_cons, ih]

/-- The channels of the inbound list after one iteration of the handover loop
are a sublist of the channels before. -/
theorem Handover.handoverHandler_mTCH (TN : LCH → Nat) (now : Nat)
    (answers : OutgoingHandover → PollAnswers) (register : Nat → Option Bool)
    (h : Handover) (T : TransactionTable) (r : CycleResult)
    (hr : Handover.handoverHandler TN now answers register h T = some r) :
    List.Sublist (r.handover.mHandovers.map (fun x => x.mTCH))
      (h.mHandovers.map (fun x => x.mTCH)) := by
  obtain ⟨q, tail, _, hl, _⟩ := Handover.handoverHandler_some TN now answers register h T r hr
  have h1 : List.Sublist
      ((Handover.tickLoop TN (Handover.removeLoop TN now h.mHandovers T).1).2.1.map
        (fun x => x.mTCH)) (h.mHandovers.map (fun x => x.mTCH)) := by
    rw [Handover.tickLoop_mTCH]
    exact List.Sublist.map _ (Handover.removeLoop_sublist TN now h.mHandovers T).1
  rw [hl]
  split_ifs
  · exact h1
  · exact List.Sublist.trans
      (List.Sublist.map _ (Handover.registerLoop_sublist register _).1) h1

/-- What a failed or refused `addHandover` leaves behind, and what a successful
one adds. -/
theorem Handover.addHandover_inbound (TN : LCH → Nat) (now Ny1 T3103 : Nat)
    (getTCH : Option LCH) (transaction : TransactionEntry) (h : Handover)
    (T : TransactionTable) :
    (Handover.addHandover TN now Ny1 T3103 getTCH transaction h T).2.1.mHandovers =
        h.mHandovers ∨
    ∃ TCH e, getTCH = some TCH ∧ e.mTCH = TCH ∧
      (∀ lp ∈ h.mHandovers, TN lp.mTCH ≠ TN TCH) ∧
      (Handover.addHandover TN now Ny1 T3103 getTCH transaction h T).2.1.mHandovers =
        h.mHandovers ++ [e] := by
  cases hg : getTCH with
  | none => exact Or.inl (by simp [Handover.addHandover])
  | some TCH =>
    by_cases hany : h.mHandovers.any (fun lp => decide (TN lp.mTCH = TN TCH)) = true
    · exact Or.inl (by simp only [Handover.addHandover, hany, if_true])
    · refine Or.inr ⟨TCH,
        (HandoverEntry.new TN now Ny1 T3103 transaction.mID TCH
          (h.allocateHandoverReference).1).1, rfl, rfl, ?_, ?_⟩
      · intro lp hlp heq
        exact hany (List.any_eq_true.mpr ⟨lp, hlp, by simp [heq]⟩)
      · simp only [Handover.addHandover, hany, Bool.false_eq_true, if_false,
          Handover.allocateHandoverReference]

/-- In every reachable state of the handover engine the timeslot numbers of
the channels of the inbound list are pairwise distinct. -/
theorem Handover.Reachable.nodup_TN (TN : LCH → Nat) (h : Handover)
    (hr : Handover.Reachable TN h) :
    ((h.mHandovers.map (fun x => x.mTCH)).map TN).Nodup := by
  induction hr with
  | init h hempty => rw [hempty]; exact List.nodup_nil
  | addHandover now Ny1 T3103 getTCH transaction h T _ ih =>
    rcases Handover.addHandover_inbound TN now Ny1 T3103 getTCH transaction h T with
      heq | ⟨TCH, e, _, he, hne, heq⟩
    · rw [heq]; exact ih
    · rw [heq]
      simp only [List.map_append, List.map_cons, List.map_nil]
      refine List.Nodup.append ih (List.nodup_singleton _) ?_
      simp only [List.disjoint_singleton, List.mem_map, not_exists, not_and]
      intro c hx hc
      obtain ⟨x, hxm, hxc⟩ := hx
      rw [← hxc, he] at hc
      exact hne x hxm hc
  | handoverAccess h wTN initialTA _ ih =>
    simp only [Handover.handoverAccess, Handover.accessLoop_mTCH]
    exact ih
  | handoverComplete h wTN _ ih =>
    simp only [Handover.handoverComplete, Handover.completeLoop_mTCH]
    exact ih
  | handoverHandler now answers register h T r _ hcyc ih =>
    exact List.Nodup.sublist
      (List.Sublist.map TN (Handover.handoverHandler_mTCH TN now answers register h T r hcyc))
      ih
  | outgoing h outs _ ih => exact ih

/-- C16 (as stated, refuted). One iteration of the handover loop on an inbound
list of two entries, the first with T3103 expired and no completion, the
second with completion detected: the removal loop erases the first, no tick is
sent, and the registration loop erases the second; both entries leave the list
in the same cycle. -/
theorem Handover_handoverHandler_counterexample :
    Handover.handoverHandler (fun c => c) 200
        (fun _ => ⟨SIPState.other 0, false, SIPState.other 0, false, false, false, false⟩)
        (fun _ => some true)
        { mHandovers :=
            [{ mTransaction := 7, mTCH := 2, mHandoverReference := 5, mGotHA := false,
               mGotHComplete := false, mRegisterPerformed := false,
               mPhysicalInfoAttempts := 0, mInitialTA := 0, mNy1 := 3,
               mT3103 := { mActive := true, mEndTime := 100 } },
             { mTransaction := 8, mTCH := 3, mHandoverReference := 6, mGotHA := false,
               mGotHComplete := true, mRegisterPerformed := false,
               mPhysicalInfoAttempts := 1, mInitialTA := 4, mNy1 := 3,
               mT3103 := { mActive := false, mEndTime := 150 } }],
          mOutgoingHandovers := [], mHandoverReference := 6, mHandoverSignal := 2 }
        [{ mID := 7, mSubscriber := L3MobileIdentity.IMSI 1,
           mService := L3CMServiceType.HandoverOriginatedCall,
           mGSMState := CallState.NullState, mTimers := [], mChannel := some 2,
           dead := false },
         { mID := 8, mSubscriber := L3MobileIdentity.IMSI 2,
           mService := L3CMServiceType.HandoverOriginatedCall,
           mGSMState := CallState.Active, mTimers := [], mChannel := some 3,
           dead := false }] =
      some
        { handover :=
            { mHandovers := [], mOutgoingHandovers := [], mHandoverReference := 6,
              mHandoverSignal := 2 },
          table :=
            [{ mID := 8, mSubscriber := L3MobileIdentity.IMSI 2,
               mService := L3CMServiceType.HandoverOriginatedCall,
               mGSMState := CallState.Active, mTimers := [], mChannel := some 3,
               dead := false }],
          events := [HOEvent.handoverOff 2, HOEvent.HOCTimeout 7, HOEvent.SIPRemoveCall 7,
            HOEvent.Register 8] } := by
  decide

/-- C16 (amended). In one iteration of the handover loop at most one entry is
erased by the removal loop, the first entry that meets the removal condition,
and at most one more by the registration loop, the first entry on which
completion was detected, which runs only when no tick was sent: the inbound
list afterwards is the list left by the removal loop, ticked, and passed
through the registration loop when no tick was sent; its channels are a sublist
of the channels before; at most two entries leave the list, and at most one
when a tick was sent. -/
theorem Handover_handoverHandler_removals (TN : LCH → Nat) (now : Nat)
    (answers : OutgoingHandover → PollAnswers) (register : Nat → Option Bool)
    (h : Handover) (T : TransactionTable) (r : CycleResult)
    (hr : Handover.handoverHandler TN now answers register h T = some r) :
    List.Sublist (r.handover.mHandovers.map (fun x => x.mTCH))
      (h.mHandovers.map (fun x => x.mTCH)) ∧
    h.mHandovers.length ≤ r.handover.mHandovers.length + 2 ∧
    h.mHandovers.length ≤ (Handover.removeLoop TN now h.mHandovers T).1.length + 1 ∧
    ((Handover.tickLoop TN (Handover.removeLoop TN now h.mHandovers T).1).1 = true →
      h.mHandovers.length ≤ r.handover.mHandovers.length + 1) ∧
    (∀ l, l.length ≤ (Handover.registerLoop register l).2.1.length + 1) ∧
    r.handover.mHandovers =
      (if (Handover.tickLoop TN (Handover.removeLoop TN now h.mHandovers T).1).1 then
        (Handover.tickLoop TN (Handover.removeLoop TN now h.mHandovers T).1).2.1
      else
        (Handover.registerLoop register
          (Handover.tickLoop TN (Handover.removeLoop TN now h.mHandovers T).1).2.1).2.1) ∧
    (((∀ x ∈ h.mHandovers, ¬ x.removalCondition now) ∧
        (Handover.removeLoop TN now h.mHandovers T).1 = h.mHandovers) ∨
      (∃ pre e post, h.mHandovers = pre ++ e :: post ∧
        (∀ x ∈ pre, ¬ x.removalCondition now) ∧ e.removalCondition now ∧
        (Handover.removeLoop TN now h.mHandovers T).1 = pre ++ post)) ∧
    (∀ l,
      ((∀ x ∈ l, x.mGotHComplete = false) ∧ (Handover.registerLoop register l).2.1 = l) ∨
      (∃ pre e post, l = pre ++ e :: post ∧ (∀ x ∈ pre, x.mGotHComplete = false) ∧
        e.mGotHComplete = true ∧ (Handover.registerLoop register l).2.1 = pre ++ post)) := by
  obtain ⟨q, tail, _, hl, _⟩ := Handover.handoverHandler_some TN now answers register h T r hr
  have h1 := (Handover.removeLoop_sublist TN now h.mHandovers T).2
  have h2 := Handover.tickLoop_length TN (Handover.removeLoop TN now h.mHandovers T).1
  have h3 := (Handover.registerLoop_sublist register
    (Handover.tickLoop TN (Handover.removeLoop TN now h.mHandovers T).1).2.1).2
  refine ⟨Handover.handoverHandler_mTCH TN now answers register h T r hr, ?_, h1, ?_,
    fun l => (Handover.registerLoop_sublist register l).2, hl, ?_, ?_⟩
  · rw [hl]
    split_ifs <;> omega
  · intro hd
    rw [hl, if_pos hd]
    omega
  · rcases Handover.removeLoop_cases TN now h.mHandovers T with ⟨ha, hb⟩ | ⟨pre, e, post, ha, hb,
      hc, hd⟩
    · exact Or.inl ⟨ha, by rw [hb]⟩
    · exact Or.inr ⟨pre, e, post, ha, hb, hc, by rw [hd]⟩
  · intro l
    rcases Handover.registerLoop_cases register l with ⟨ha, hb⟩ | ⟨pre, e, post, ha, hb, hc, hd⟩
    · exact Or.inl ⟨ha, by rw [hb]⟩
    · exact Or.inr ⟨pre, e, post, ha, hb, hc, by rw [hd]⟩

/-- C16 (amended) at the state of two entries, the first with T3103 expired,
the second complete: the bound of two is attained, the removal loop erases the
first entry and the registration loop the second, and the list is empty
afterwards. -/
theorem Handover_handoverHandler_removals_witness :
    ∃ r, Handover.handoverHandler (fun c => c) 200
        (fun _ => ⟨SIPState.other 0, false, SIPState.other 0, false, false, false, false⟩)
        (fun _ => some true)
        { mHandovers :=
            [{ mTransaction := 7, mTCH := 2, mHandoverReference := 5, mGotHA := false,
               mGotHComplete := false, mRegisterPerformed := false,
               mPhysicalInfoAttempts := 0, mInitialTA := 0, mNy1 := 3,
               mT3103 := { mActive := true, mEndTime := 100 } },
             { mTransaction := 8, mTCH := 3, mHandoverReference := 6, mGotHA := false,
               mGotHComplete := true, mRegisterPerformed := false,
               mPhysicalInfoAttempts := 1, mInitialTA := 4, mNy1 := 3,
               mT3103 := { mActive := false, mEndTime := 150 } }],
          mOutgoingHandovers := [], mHandoverReference := 6, mHandoverSignal := 2 }
        [{ mID := 7, mSubscriber := L3MobileIdentity.IMSI 1,
           mService := L3CMServiceType.HandoverOriginatedCall,
           mGSMState := CallState.NullState, mTimers := [], mChannel := some 2,
           dead := false },
         { mID := 8, mSubscriber := L3MobileIdentity.IMSI 2,
           mService := L3CMServiceType.HandoverOriginatedCall,
           mGSMState := CallState.Active, mTimers := [], mChannel := some 3,
           dead := false }] = some r ∧
      2 ≤ r.handover.mHandovers.length + 2 ∧
      r.handover.mHandovers.length = 0 :=
  ⟨_, rfl, (Handover_handoverHandler_removals (fun c => c) 200
    (fun _ => ⟨SIPState.other 0, false, SIPState.other 0, false, false, false, false⟩)
    (fun _ => some true)
    { mHandovers :=
        [{ mTransaction := 7, mTCH := 2, mHandoverReference := 5, mGotHA := false,
           mGotHComplete := false, mRegisterPerformed := false,
           mPhysicalInfoAttempts := 0, mInitialTA := 0, mNy1 := 3,
           mT3103 := { mActive := true, mEndTime := 100 } },
         { mTransaction := 8, mTCH := 3, mHandoverReference := 6, mGotHA := false,
           mGotHComplete := true, mRegisterPerformed := false,
           mPhysicalInfoAttempts := 1, mInitialTA := 4, mNy1 := 3,
           mT3103 := { mActive := false, mEndTime := 150 } }],
      mOutgoingHandovers := [], mHandoverReference := 6, mHandoverSignal := 2 }
    [{ mID := 7, mSubscriber := L3MobileIdentity.IMSI 1,
       mService := L3CMServiceType.HandoverOriginatedCall,
       mGSMState := CallState.NullState, mTimers := [], mChannel := some 2,
       dead := false },
     { mID := 8, mSubscriber := L3MobileIdentity.IMSI 2,
       mService := L3CMServiceType.HandoverOriginatedCall,
       mGSMState := CallState.Active, mTimers := [], mChannel := some 3,
       dead := false }] _ rfl).2.1, by decide⟩

/-- C20. At most one inbound handover entry per physical channel: in every
state reachable from an empty inbound list the channels of the inbound list,
and even their timeslot numbers, are pairwise distinct; when `addHandover`
cannot obtain a channel, or the obtained channel is already bound by an
existing entry, it returns false and leaves the engine (inbound list, handover
reference) and the transaction table as they were. -/
theorem Handover_one_entry_per_channel (TN : LCH → Nat) :
    (∀ h, Handover.Reachable TN h →
      (h.mHandovers.map (fun x => x.mTCH)).Nodup ∧
      ((h.mHandovers.map (fun x => x.mTCH)).map TN).Nodup) ∧
    (∀ (now Ny1 T3103 : Nat) (transaction : TransactionEntry) (h : Handover)
      (T : TransactionTable),
      Handover.addHandover TN now Ny1 T3103 none transaction h T = (false, h, T, [])) ∧
    (∀ (now Ny1 T3103 : Nat) (TCH : LCH) (transaction : TransactionEntry) (h : Handover)
      (T : TransactionTable), (∃ lp ∈ h.mHandovers, lp.mTCH = TCH) →
      Handover.addHandover TN now Ny1 T3103 (some TCH) transaction h T = (false, h, T, [])) := by
  refine ⟨fun h hr => ?_, fun now Ny1 T3103 transaction h T => rfl, ?_⟩
  · have hn := Handover.Reachable.nodup_TN TN h hr
    exact ⟨List.Nodup.of_map TN hn, hn⟩
  · intro now Ny1 T3103 TCH transaction h T hex
    obtain ⟨lp, hlp, heq⟩ := hex
    have hany : h.mHandovers.any (fun lp => decide (TN lp.mTCH = TN TCH)) = true :=
      List.any_eq_true.mpr ⟨lp, hlp, by simp [heq]⟩
    simp only [Handover.addHandover, hany, if_true]

/-- C20 at a concrete state: after one accepted `addHandover` on channel 2, a
second `addHandover` that obtains channel 2 again is refused. -/
theorem Handover_one_entry_per_channel_witness :
    Handover.addHandover (fun c => c) 20 3 100 (some 2)
        { mID := 8, mSubscriber := L3MobileIdentity.IMSI 2,
          mService := L3CMServiceType.HandoverOriginatedCall,
          mGSMState := CallState.NullState, mTimers := [], mChannel := some 2,
          dead := false }
        (Handover.addHandover (fun c => c) 10 3 100 (some 2)
          { mID := 7, mSubscriber := L3MobileIdentity.IMSI 1,
            mService := L3CMServiceType.HandoverOriginatedCall,
            mGSMState := CallState.NullState, mTimers := [], mChannel := some 2,
            dead := false } Handover.new []).2.1 [] =
      (false,
        (Handover.addHandover (fun c => c) 10 3 100 (some 2)
          { mID := 7, mSubscriber := L3MobileIdentity.IMSI 1,
            mService := L3CMServiceType.HandoverOriginatedCall,
            mGSMState := CallState.NullState, mTimers := [], mChannel := some 2,
            dead := false } Handover.new []).2.1, [], []) :=
  (Handover_one_entry_per_channel (fun c => c)).2.2 20 3 100 2 _ _ [] (by decide)

/-- The tick loop sets `delaySipRegister` when an entry has access detected. -/
theorem Handover.tickLoop_flag (TN : LCH → Nat) : ∀ (l : List HandoverEntry)
    (x : HandoverEntry), x ∈ l → x.mGotHA = true → (Handover.tickLoop TN l).1 = true
  | [], _, hx, _ => by cases hx
  | lp :: rest, x, hx, ha => by
    simp only [Handover.tickLoop, Bool.or_eq_true]
    rcases List.mem_cons.mp hx with hx | hx
    · subst hx
      left
      simp only [HandoverEntry.T3105Tick, ha, if_true]
    · right
      exact Handover.tickLoop_flag TN rest x hx ha

/-- The tick loop sends the physical information of every entry that has
access detected. -/
theorem Handover.tickLoop_sends (TN : LCH → Nat) : ∀ (l : List HandoverEntry)
    (x : HandoverEntry), x ∈ l → x.mGotHA = true →
    HOEvent.sendPhysicalInformation (TN x.mTCH) x.mInitialTA ∈ (Handover.tickLoop TN l).2.2
  | [], _, hx, _ => by cases hx
  | lp :: rest, x, hx, ha => by
    simp only [Handover.tickLoop, List.mem_append]
    rcases List.mem_cons.mp hx with hx | hx
    · subst hx
      left
      simp only [HandoverEntry.T3105Tick, ha, if_true, List.mem_singleton]
    · right
      exact Handover.tickLoop_sends TN rest x hx ha

/-- The entry left by a tick on an entry that has access detected. -/
theorem HandoverEntry.T3105Tick_sent (TN : LCH → Nat) (e : HandoverEntry)
    (ha : e.mGotHA = true) :
    (e.T3105Tick TN).2.1 = { e with mPhysicalInfoAttempts := e.mPhysicalInfoAttempts + 1 } := by
  simp only [HandoverEntry.T3105Tick, ha, if_true]

/-- A run of the handover loop with Ny1 = 3 on a single entry: access detection
sends tick 1, the first poll sends tick 2, the second poll sends tick 3 and
keeps the entry, the third poll (which would have sent tick 4) removes the
entry, times out the owning session and removes it from the table. -/
theorem Handover.handoverHandler_Ny1_three :
    let TN : LCH → Nat := fun c => c
    let answers : OutgoingHandover → PollAnswers :=
      fun _ => ⟨SIPState.other 0, false, SIPState.other 0, false, false, false, false⟩
    let register : Nat → Option Bool := fun _ => some true
    let t : TransactionEntry :=
      { mID := 7, mSubscriber := L3MobileIdentity.IMSI 1,
        mService := L3CMServiceType.HandoverOriginatedCall,
        mGSMState := CallState.NullState, mTimers := [], mChannel := some 2, dead := false }
    let s0 := Handover.addHandover TN 10 3 1000 (some 2) t Handover.new []
    let s1 := Handover.handoverAccess TN s0.2.1 2 4
    ∃ r1 r2 r3,
      Handover.handoverHandler TN 20 answers register s1.1 s0.2.2.1 = some r1 ∧
      Handover.handoverHandler TN 30 answers register r1.handover r1.table = some r2 ∧
      Handover.handoverHandler TN 40 answers register r2.handover r2.table = some r3 ∧
      s1.2 = [HOEvent.handoverOff 2, HOEvent.sendPhysicalInformation 2 4] ∧
      r1.events = [HOEvent.sendPhysicalInformation 2 4, HOEvent.usleep] ∧
      r2.events = [HOEvent.sendPhysicalInformation 2 4, HOEvent.usleep] ∧
      r2.handover.mHandovers.map (fun x => x.mPhysicalInfoAttempts) = [3] ∧
      TransactionTable.find r2.table 7 = some t ∧
      r3.events = [HOEvent.handoverOff 2, HOEvent.HOCTimeout 7, HOEvent.SIPRemoveCall 7,
        HOEvent.usleep] ∧
      r3.handover.mHandovers = [] ∧
      TransactionTable.find r3.table 7 = none := by
  intro TN answers register t s0 s1
  refine ⟨_, _, _, rfl, rfl, rfl, ?_⟩
  decide

/-- C11 (as stated, refuted). First: an entry with access detected, no
completion, Ny1 = 3 and one tick sent, whose T3103 has expired, is removed by
`removeHandoverEntry`, which times out the owning session. Second: on the list
of an entry with T3103 expired followed by an entry with Ny1 = 3 and three
ticks sent, the next poll erases the first entry only; the second entry stays
and is sent tick 4. -/
theorem Handover_retry_bound_counterexample :
    HandoverEntry.removeHandoverEntry (fun c => c) 200
        { mTransaction := 7, mTCH := 2, mHandoverReference := 5, mGotHA := true,
          mGotHComplete := false, mRegisterPerformed := false,
          mPhysicalInfoAttempts := 1, mInitialTA := 4, mNy1 := 3,
          mT3103 := { mActive := true, mEndTime := 100 } }
        [{ mID := 7, mSubscriber := L3MobileIdentity.IMSI 1,
           mService := L3CMServiceType.HandoverOriginatedCall,
           mGSMState := CallState.NullState, mTimers := [], mChannel := some 2,
           dead := false }] =
      (true, [], [HOEvent.handoverOff 2, HOEvent.HOCTimeout 7, HOEvent.SIPRemoveCall 7]) ∧
    Handover.handoverHandler (fun c => c) 200
        (fun _ => ⟨SIPState.other 0, false, SIPState.other 0, false, false, false, false⟩)
        (fun _ => some true)
        { mHandovers :=
            [{ mTransaction := 7, mTCH := 2, mHandoverReference := 5, mGotHA := false,
               mGotHComplete := false, mRegisterPerformed := false,
               mPhysicalInfoAttempts := 0, mInitialTA := 0, mNy1 := 3,
               mT3103 := { mActive := true, mEndTime := 100 } },
             { mTransaction := 8, mTCH := 3, mHandoverReference := 6, mGotHA := true,
               mGotHComplete := false, mRegisterPerformed := false,
               mPhysicalInfoAttempts := 3, mInitialTA := 4, mNy1 := 3,
               mT3103 := { mActive := true, mEndTime := 500 } }],
          mOutgoingHandovers := [], mHandoverReference := 6, mHandoverSignal := 2 }
        [{ mID := 7, mSubscriber := L3MobileIdentity.IMSI 1,
           mService := L3CMServiceType.HandoverOriginatedCall,
           mGSMState := CallState.NullState, mTimers := [], mChannel := some 2,
           dead := false },
         { mID := 8, mSubscriber := L3MobileIdentity.IMSI 2,
           mService := L3CMServiceType.HandoverOriginatedCall,
           mGSMState := CallState.NullState, mTimers := [], mChannel := some 3,
           dead := false }] =
      some
        { handover :=
            { mHandovers :=
                [{ mTransaction := 8, mTCH := 3, mHandoverReference := 6, mGotHA := true,
                   mGotHComplete := false, mRegisterPerformed := false,
                   mPhysicalInfoAttempts := 4, mInitialTA := 4, mNy1 := 3,
                   mT3103 := { mActive := true, mEndTime := 500 } }],
              mOutgoingHandovers := [], mHandoverReference := 6, mHandoverSignal := 2 },
          table :=
            [{ mID := 8, mSubscriber := L3MobileIdentity.IMSI 2,
               mService := L3CMServiceType.HandoverOriginatedCall,
               mGSMState := CallState.NullState, mTimers := [], mChannel := some 3,
               dead := false }],
          events := [HOEvent.handoverOff 2, HOEvent.HOCTimeout 7, HOEvent.SIPRemoveCall 7,
            HOEvent.sendPhysicalInformation 3 4, HOEvent.usleep] } := by
  decide

/-- C11 (amended). For an entry of the inbound list with access detected, no
registration performed (as is the case, in every reachable state, when
completion has not been detected) and T3103 not expired: `removeHandoverEntry` returns
true exactly when Ny1 ticks have been sent; while fewer than Ny1 ticks have
been sent it touches nothing, and the poll keeps the entry and sends it one
more tick; once Ny1 ticks have been sent and no entry before it in the list is
due for removal, the poll erases the entry instead of ticking it (the ticks of
the poll are those of the other entries), times out the owning session and
removes it from the transaction table. The polls of the outgoing handovers are
assumed to go through. -/
theorem Handover_retry_bound (TN : LCH → Nat) (now : Nat)
    (answers : OutgoingHandover → PollAnswers) (register : Nat → Option Bool)
    (h : Handover) (T : TransactionTable) (pre post : List HandoverEntry)
    (e : HandoverEntry)
    (hl : h.mHandovers = pre ++ e :: post)
    (hHA : e.mGotHA = true) (hR : e.mRegisterPerformed = false)
    (hT : e.mT3103.expired now = false)
    (hwf : ∀ o ∈ h.mOutgoingHandovers, o.mDestroyTail = false →
      (answers o).SIPStateBefore = SIPState.HO_Proxy → o.mTransactionMSC ≠ none) :
    ((e.removeHandoverEntry TN now T).1 = true ↔ e.mNy1 ≤ e.mPhysicalInfoAttempts) ∧
    (e.mPhysicalInfoAttempts < e.mNy1 →
      e.removeHandoverEntry TN now T = (false, T, []) ∧
      ∃ r, Handover.handoverHandler TN now answers register h T = some r ∧
        { e with mPhysicalInfoAttempts := e.mPhysicalInfoAttempts + 1 } ∈
          r.handover.mHandovers ∧
        HOEvent.sendPhysicalInformation (TN e.mTCH) e.mInitialTA ∈ r.events) ∧
    (e.mNy1 ≤ e.mPhysicalInfoAttempts → (∀ x ∈ pre, ¬ x.removalCondition now) →
      ∃ r, Handover.handoverHandler TN now answers register h T = some r ∧
        HOEvent.HOCTimeout e.mTransaction ∈ r.events ∧
        TransactionTable.find r.table e.mTransaction = none ∧
        List.Sublist (r.handover.mHandovers.map (fun x => x.mTCH))
          ((pre ++ post).map (fun x => x.mTCH)) ∧
        ∃ rest, r.events =
          [HOEvent.handoverOff (TN e.mTCH), HOEvent.HOCTimeout e.mTransaction,
            HOEvent.SIPRemoveCall e.mTransaction] ++
          (Handover.tickLoop TN (pre ++ post)).2.2 ++ rest) := by
  have hcond : e.removalCondition now ↔ e.mNy1 ≤ e.mPhysicalInfoAttempts := by
    unfold HandoverEntry.removalCondition
    constructor
    · rintro (h1 | h2 | h3)
      · exact h1.2
      · rw [hR] at h2
        cases h2
      · rw [hT] at h3
        cases h3.1
    · intro hle
      exact Or.inl ⟨hHA, hle⟩
  obtain ⟨q, hq⟩ := Handover.outgoingLoop_isSome now answers h.mOutgoingHandovers
    (Handover.removeLoop TN now h.mHandovers T).2.1 hwf
  obtain ⟨r, hr⟩ := Handover.handoverHandler_isSome TN now answers register h T q hq
  obtain ⟨q', tail, hq', hlist, _, htable, hevents, _⟩ :=
    Handover.handoverHandler_some TN now answers register h T r hr
  rw [hq] at hq'
  cases hq'
  refine ⟨(HandoverEntry.removeHandoverEntry_fst TN now e T).trans hcond, ?_, ?_⟩
  · intro hlt
    have hnot : ¬ e.removalCondition now := fun hc => by
      have := hcond.mp hc
      omega
    have hfalse : (e.removeHandoverEntry TN now T).1 = false := by
      cases hb : (e.removeHandoverEntry TN now T).1
      · rfl
      · exact absurd ((HandoverEntry.removeHandoverEntry_fst TN now e T).mp hb) hnot
    refine ⟨HandoverEntry.removeHandoverEntry_false TN now e T hfalse, r, hr, ?_, ?_⟩
    · obtain ⟨pre', post', _, _, hkeep⟩ := Handover.removeLoop_keep TN now pre post e T hnot
      rw [hl, hkeep] at hlist
      have hmem : e ∈ pre' ++ e :: post' := by simp
      rw [if_pos (Handover.tickLoop_flag TN _ e hmem hHA), Handover.tickLoop_entries] at hlist
      rw [hlist, ← HandoverEntry.T3105Tick_sent TN e hHA]
      exact List.mem_map.mpr ⟨e, hmem, rfl⟩
    · obtain ⟨pre', post', _, _, hkeep⟩ := Handover.removeLoop_keep TN now pre post e T hnot
      rw [hevents, hl, hkeep]
      have hmem : e ∈ pre' ++ e :: post' := by simp
      simp only [List.mem_append]
      exact Or.inl (Or.inl (Or.inr (Handover.tickLoop_sends TN _ e hmem hHA)))
  · intro hle hpre
    have hrm := Handover.removeLoop_first TN now pre post e T hpre (hcond.mpr hle)
    rw [HandoverEntry.removeHandoverEntry_exhausted TN now e T ⟨hHA, hle⟩] at hrm
    rw [← hl] at hrm
    refine ⟨r, hr, ?_, ?_, ?_, ?_⟩
    · rw [hevents, hrm]
      simp
    · rw [htable]
      refine (Handover.outgoingLoop_frame now answers h.mOutgoingHandovers _ q hq).1 _ ?_
      rw [hrm]
      exact TransactionTable.find_remove_self T e.mTransaction
    · rw [hlist, hrm]
      rw [← Handover.tickLoop_mTCH TN (pre ++ post)]
      split_ifs
      · exact List.Sublist.refl _
      · exact List.Sublist.map _ (Handover.registerLoop_sublist register _).1
    · refine ⟨q.2.2 ++ tail, ?_⟩
      rw [hevents, hrm, List.append_assoc]

/-- C11 (amended) at a concrete state: a single entry with Ny1 = 3 and three
ticks sent is erased by the poll, its session is timed out and removed from the
table. -/
theorem Handover_retry_bound_witness :
    ∃ r, Handover.handoverHandler (fun c => c) 40
        (fun _ => ⟨SIPState.other 0, false, SIPState.other 0, false, false, false, false⟩)
        (fun _ => some true)
        { mHandovers :=
            [{ mTransaction := 7, mTCH := 2, mHandoverReference := 5, mGotHA := true,
               mGotHComplete := false, mRegisterPerformed := false,
               mPhysicalInfoAttempts := 3, mInitialTA := 4, mNy1 := 3,
               mT3103 := { mActive := true, mEndTime := 100 } }],
          mOutgoingHandovers := [], mHandoverReference := 5, mHandoverSignal := 1 }
        [{ mID := 7, mSubscriber := L3MobileIdentity.IMSI 1,
           mService := L3CMServiceType.HandoverOriginatedCall,
           mGSMState := CallState.NullState, mTimers := [], mChannel := some 2,
           dead := false }] = some r ∧
      HOEvent.HOCTimeout 7 ∈ r.events ∧
      TransactionTable.find r.table 7 = none ∧
      List.Sublist (r.handover.mHandovers.map (fun x => x.mTCH))
        (List.map (fun x : HandoverEntry => x.mTCH) ([] ++ [])) ∧
      ∃ rest, r.events =
        [HOEvent.handoverOff 2, HOEvent.HOCTimeout 7, HOEvent.SIPRemoveCall 7] ++
        (Handover.tickLoop (fun c => c) ([] ++ [])).2.2 ++ rest :=
  (Handover_retry_bound (fun c => c) 40
    (fun _ => ⟨SIPState.other 0, false, SIPState.other 0, false, false, false, false⟩)
    (fun _ => some true)
    { mHandovers :=
        [{ mTransaction := 7, mTCH := 2, mHandoverReference := 5, mGotHA := true,
           mGotHComplete := false, mRegisterPerformed := false,
           mPhysicalInfoAttempts := 3, mInitialTA := 4, mNy1 := 3,
           mT3103 := { mActive := true, mEndTime := 100 } }],
      mOutgoingHandovers := [], mHandoverReference := 5, mHandoverSignal := 1 }
    [{ mID := 7, mSubscriber := L3MobileIdentity.IMSI 1,
       mService := L3CMServiceType.HandoverOriginatedCall,
       mGSMState := CallState.NullState, mTimers := [], mChannel := some 2,
       dead := false }] [] []
    { mTransaction := 7, mTCH := 2, mHandoverReference := 5, mGotHA := true,
      mGotHComplete := false, mRegisterPerformed := false,
      mPhysicalInfoAttempts := 3, mInitialTA := 4, mNy1 := 3,
      mT3103 := { mActive := true, mEndTime := 100 } }
    rfl rfl rfl (by decide) (by decide)).2.2 (by decide)
    (fun x hx => absurd hx (List.not_mem_nil x))

/-- The search loop of `handoverAccess` keeps every property of entries that
`HandoverAccessDetected` keeps. -/
theorem Handover.accessLoop_forall (TN : LCH → Nat) (wTN : Nat) (initialTA : Int)
    (P : HandoverEntry → Prop)
    (hP : ∀ x, P x → P (x.HandoverAccessDetected TN initialTA).1) :
    ∀ l : List HandoverEntry, (∀ x ∈ l, P x) →
      ∀ x ∈ (Handover.accessLoop TN wTN initialTA l).1, P x
  | [], _ => by simp [Handover.accessLoop]
  | lp :: rest, hl => by
    intro x hx
    simp only [Handover.accessLoop] at hx
    by_cases hc : TN lp.mTCH = wTN
    · rw [if_pos hc] at hx
      rcases List.mem_cons.mp hx with hx | hx
      · rw [hx]
        exact hP lp (hl lp (List.mem_cons_self _ _))
      · exact hl x (List.mem_cons_of_mem _ hx)
    · rw [if_neg hc] at hx
      rcases List.mem_cons.mp hx with hx | hx
      · rw [hx]
        exact hl lp (List.mem_cons_self _ _)
      · exact Handover.accessLoop_forall TN wTN initialTA P hP rest
          (fun y hy => hl y (List.mem_cons_of_mem _ hy)) x hx

/-- The search loop of `handoverComplete` keeps every property of entries that
`HandoverCompleteDetected` keeps. -/
theorem Handover.completeLoop_forall (TN : LCH → Nat) (wTN : Nat)
    (P : HandoverEntry → Prop) (hP : ∀ x, P x → P x.HandoverCompleteDetected) :
    ∀ l : List HandoverEntry, (∀ x ∈ l, P x) →
      ∀ x ∈ Handover.completeLoop TN wTN l, P x
  | [], _ => by simp [Handover.completeLoop]
  | lp :: rest, hl => by
    intro x hx
    simp only [Handover.completeLoop] at hx
    by_cases hc : TN lp.mTCH = wTN
    · rw [if_pos hc] at hx
      rcases List.mem_cons.mp hx with hx | hx
      · rw [hx]
        exact hP lp (hl lp (List.mem_cons_self _ _))
      · exact hl x (List.mem_cons_of_mem _ hx)
    · rw [if_neg hc] at hx
      rcases List.mem_cons.mp hx with hx | hx
      · rw [hx]
        exact hl lp (List.mem_cons_self _ _)
      · exact Handover.completeLoop_forall TN wTN P hP rest
          (fun y hy => hl y (List.mem_cons_of_mem _ hy)) x hx

/-- In every reachable state of the handover engine an entry whose
registration has been performed has completion detected: `mRegisterPerformed`
is only set by `SipRegister` on a complete entry. -/
theorem Handover.Reachable.registered_complete (TN : LCH → Nat) (h : Handover)
    (hr : Handover.Reachable TN h) :
    ∀ x ∈ h.mHandovers, x.mRegisterPerformed = true → x.mGotHComplete = true := by
  induction hr with
  | init h hnil =>
    intro x hx
    rw [hnil] at hx
    cases hx
  | addHandover now Ny1 T3103 getTCH transaction h T _ ih =>
    intro x hx
    unfold Handover.addHandover at hx
    cases getTCH with
    | none => exact ih x hx
    | some TCH =>
      simp only at hx
      split_ifs at hx
      · exact ih x hx
      · simp only [Handover.allocateHandoverReference, List.mem_append,
          List.mem_singleton] at hx
        rcases hx with hx | hx
        · exact ih x hx
        · intro hreg
          rw [hx] at hreg
          simp [HandoverEntry.new] at hreg
  | handoverAccess h wTN initialTA _ ih =>
    refine Handover.accessLoop_forall TN wTN initialTA
      (fun x => x.mRegisterPerformed = true → x.mGotHComplete = true) ?_ h.mHandovers ih
    intro x hx
    simp only [HandoverEntry.HandoverAccessDetected, HandoverEntry.T3105Tick, if_true]
    exact hx
  | handoverComplete h wTN _ ih =>
    refine Handover.completeLoop_forall TN wTN
      (fun x => x.mRegisterPerformed = true → x.mGotHComplete = true) ?_ h.mHandovers ih
    intro x _ _
    rfl
  | handoverHandler now answers register h T r _ hcycle ih =>
    obtain ⟨q, tail, _, hlist, _⟩ :=
      Handover.handoverHandler_some TN now answers register h T r hcycle
    have hticked : ∀ x ∈ (Handover.tickLoop TN (Handover.removeLoop TN now h.mHandovers T).1).2.1,
        x.mRegisterPerformed = true → x.mGotHComplete = true := by
      intro x hx
      rw [Handover.tickLoop_entries] at hx
      obtain ⟨y, hy, hyx⟩ := List.mem_map.mp hx
      have hy' := ih y ((Handover.removeLoop_sublist TN now h.mHandovers T).1.subset hy)
      rw [← hyx]
      unfold HandoverEntry.T3105Tick
      split_ifs
      · exact hy'
      · exact hy'
    intro x hx
    rw [hlist] at hx
    split_ifs at hx
    · exact hticked x hx
    · exact hticked x ((Handover.registerLoop_sublist register _).1.subset hx)
  | outgoing h outs _ ih => exact ih

/-- The entry of the scenario D witness is the one that `HandoverEntry.new` at time 10
(Ny1 = 3, T3103 = 100), `HandoverAccessDetected(4)`, one `T3105Tick` of the loop
and `HandoverCompleteDetected` produce. -/
theorem HandoverEntry.scenarioD_entry :
    ((((HandoverEntry.new (fun c => c) 10 3 100 7 2 5).1.HandoverAccessDetected
        (fun c => c) 4).1.T3105Tick (fun c => c)).2.1).HandoverCompleteDetected =
      { mTransaction := 7, mTCH := 2, mHandoverReference := 5, mGotHA := false,
        mGotHComplete := true, mRegisterPerformed := false,
        mPhysicalInfoAttempts := 2, mInitialTA := 4, mNy1 := 3,
        mT3103 := { mActive := false, mEndTime := 110 } } := by
  decide

/-- The lookup by channel finds nothing when no live transaction is on the
channel; the table it leaves is the table without its dead entries. -/
theorem TransactionTable.findByChannel_none (T : TransactionTable) (chan : LCH)
    (hno : ∀ t ∈ T, t.dead = false → t.mChannel ≠ some chan) :
    TransactionTable.findByChannel T chan = (none, List.filter (fun t => !t.dead) T) := by
  unfold TransactionTable.findByChannel
  simp only [Prod.mk.injEq, and_true]
  rw [List.find?_eq_none]
  intro t ht
  rw [List.mem_filter] at ht
  have hd : t.dead = false := by simpa using ht.2
  simpa using hno t ht.1 hd

/-- C19 (as stated, refuted). A handover-complete message on channel 3 while
the only transaction of the table is on channel 2: `HandoverCompleteHandler`
returns normally, with no fault surfaced to its caller. -/
theorem HandoverCompleteHandler_no_transaction_counterexample :
    HandoverCompleteHandler (fun c => c) 16484 Handover.new
        [{ mID := 7, mSubscriber := L3MobileIdentity.IMSI 1,
           mService := L3CMServiceType.HandoverOriginatedCall,
           mGSMState := CallState.NullState, mTimers := [], mChannel := some 2,
           dead := false }] 3 =
      (Handover.new,
        [{ mID := 7, mSubscriber := L3MobileIdentity.IMSI 1,
           mService := L3CMServiceType.HandoverOriginatedCall,
           mGSMState := CallState.NullState, mTimers := [], mChannel := some 2,
           dead := false }], [], none) := by
  decide

/-- C19 (amended). When no live transaction of the table is on the channel,
`AssignmentCompleteHandler` throws `UnexpectedMessage` to its caller, while
`HandoverCompleteHandler` returns normally; both make no call, the handover
engine is left as it was, and the table afterwards is the table without its
dead entries, which the lookup clears: the table itself when it has no dead
entry. -/
theorem CompleteHandlers_no_transaction (TN : LCH → Nat) (rtpPort : Nat) (h : Handover)
    (T : TransactionTable) (chan : LCH)
    (hno : ∀ t ∈ T, t.dead = false → t.mChannel ≠ some chan) :
    AssignmentCompleteHandler T chan =
      (List.filter (fun t => !t.dead) T, [], some HandlerFault.UnexpectedMessage) ∧
    HandoverCompleteHandler TN rtpPort h T chan =
      (h, List.filter (fun t => !t.dead) T, [], none) ∧
    ((∀ t ∈ T, t.dead = false) → List.filter (fun t => !t.dead) T = T) := by
  have hf := TransactionTable.findByChannel_none T chan hno
  refine ⟨?_, ?_, ?_⟩
  · unfold AssignmentCompleteHandler
    simp only [hf]
  · unfold HandoverCompleteHandler
    simp only [hf]
  · intro hlive
    rw [List.filter_eq_self]
    intro t ht
    simp [hlive t ht]

/-- C19 (amended) at a concrete table: an assignment-complete message on
channel 3 while the only transaction is on channel 2. -/
theorem CompleteHandlers_no_transaction_witness :
    AssignmentCompleteHandler
        [{ mID := 7, mSubscriber := L3MobileIdentity.IMSI 1,
           mService := L3CMServiceType.MobileOriginatedCall,
           mGSMState := CallState.NullState, mTimers := [], mChannel := some 2,
           dead := false }] 3 =
      (List.filter (fun t => !t.dead)
        [{ mID := 7, mSubscriber := L3MobileIdentity.IMSI 1,
           mService := L3CMServiceType.MobileOriginatedCall,
           mGSMState := CallState.NullState, mTimers := [], mChannel := some 2,
           dead := false }], [], some HandlerFault.UnexpectedMessage) :=
  (CompleteHandlers_no_transaction (fun c => c) 16484 Handover.new
    [{ mID := 7, mSubscriber := L3MobileIdentity.IMSI 1,
       mService := L3CMServiceType.MobileOriginatedCall,
       mGSMState := CallState.NullState, mTimers := [], mChannel := some 2,
       dead := false }] 3 (by decide)).1

/-! ## Further properties of the channel request arbitrator -/

/-- The call made by `allocateChannel` is one of the two channel requests, with
the provider's answer to it. -/
theorem allocateChannel_cases (bts : BTS) (type : ChannelType) (request : Event)
    (ans : Option LCH) (h : allocateChannel bts type = some (request, ans)) :
    (request = Event.getTCH ∧ ans = bts.getTCH ∧ type = ChannelType.TCHFType) ∨
    (request = Event.getSDCCH ∧ ans = bts.getSDCCH ∧ type ≠ ChannelType.TCHFType) := by
  cases type <;> simp [allocateChannel] at h <;> obtain ⟨h1, h2⟩ := h <;> subst h1 <;>
    subst h2 <;> simp

/-- The paths of `AccessGrantResponder`: every call that returns took exactly
one of the seven paths below, with the trace of that path. -/
theorem AccessGrantResponder_cases (cfg : Config) (bts : BTS) (RA when : Nat)
    (RSSI timingError : ℚ) (tr : List Event)
    (h : AccessGrantResponder cfg bts RA when RSSI timingError = some tr) :
    (bts.hold = true ∧ tr = rachReports RA timingError) ∨
    (bts.hold = false ∧ bts.age > cfg.maxAge ∧
      tr = rachReports RA timingError ++ [Event.growT3122]) ∨
    (bts.hold = false ∧ bts.age ≤ cfg.maxAge ∧ timingError > (cfg.TAMax : ℚ) ∧
      tr = rachReports RA timingError) ∨
    (bts.hold = false ∧ bts.age ≤ cfg.maxAge ∧ timingError ≤ (cfg.TAMax : ℚ) ∧
      (∃ load, bts.AGCH = some load ∧ (load : Int) > cfg.AGCHQMax) ∧
      tr = rachReports RA timingError) ∨
    ((∃ load, passesScreens cfg bts timingError load) ∧ refusedByReserve cfg bts RA ∧
      tr = rachReports RA timingError ++ [Event.growT3122,
        Event.AGCHSend
          (AGCHMessage.L3ImmediateAssignmentReject RA when (bts.growT3122 / 1000))]) ∨
    ((∃ load, passesScreens cfg bts timingError load) ∧ ¬ refusedByReserve cfg bts RA ∧
      ∃ type request, decodeChannelNeeded cfg RA = some type ∧
        allocateChannel bts type = some (request, none) ∧
        tr = rachReports RA timingError ++ [request, Event.growT3122,
          Event.AGCHSend
            (AGCHMessage.L3ImmediateAssignmentReject RA when (bts.growT3122 / 1000))]) ∨
    ((∃ load, passesScreens cfg bts timingError load) ∧ ¬ refusedByReserve cfg bts RA ∧
      ∃ type request chan, decodeChannelNeeded cfg RA = some type ∧
        allocateChannel bts type = some (request, some chan) ∧
        tr = rachReports RA timingError ++ [request,
          Event.setPhy chan RSSI timingError,
          Event.reportsIncr Counter.RACH_TA_Accepted (truncToInt timingError),
          Event.AGCHSend
            (AGCHMessage.L3ImmediateAssignment RA when chan (initialTA timingError)),
          Event.shrinkT3122]) := by
  unfold AccessGrantResponder at h
  by_cases hhold : bts.hold = true
  · left
    simp only [hhold, if_true, Option.some.injEq] at h
    exact ⟨hhold, h.symm⟩
  have hhold' : bts.hold = false := by simpa using hhold
  right
  simp only [hhold', Bool.false_eq_true, if_false] at h
  by_cases hage : bts.age > cfg.maxAge
  · left
    rw [if_pos hage] at h
    exact ⟨hhold', hage, (Option.some.inj h).symm⟩
  right
  rw [if_neg hage] at h
  by_cases hte : timingError > (cfg.TAMax : ℚ)
  · left
    rw [if_pos hte] at h
    exact ⟨hhold', not_lt.mp hage, hte, (Option.some.inj h).symm⟩
  right
  rw [if_neg hte] at h
  cases hA : bts.AGCH with
  | none => simp [hA] at h
  | some load =>
    simp only [hA] at h
    by_cases hload : (load : Int) > cfg.AGCHQMax
    · left
      rw [if_pos hload] at h
      exact ⟨hhold', not_lt.mp hage, not_lt.mp hte, ⟨load, rfl, hload⟩,
        (Option.some.inj h).symm⟩
    right
    rw [if_neg hload] at h
    have hs : ∃ load, passesScreens cfg bts timingError load :=
      ⟨load, hhold', not_lt.mp hage, not_lt.mp hte, hA, not_lt.mp hload⟩
    by_cases hres : requestingLUR cfg RA = true ∧
        castInt bts.SDCCHAvailable ≤ cfg.SDCCHReserve
    · left
      rw [if_pos hres] at h
      exact ⟨hs, hres, (Option.some.inj h).symm⟩
    right
    rw [if_neg hres] at h
    cases hd : decodeChannelNeeded cfg RA with
    | none => simp [hd] at h
    | some type =>
      simp only [hd] at h
      cases hc : allocateChannel bts type with
      | none => simp [hc] at h
      | some ra =>
        obtain ⟨request, ans⟩ := ra
        cases ans with
        | none =>
          left
          simp only [hc] at h
          exact ⟨hs, hres, type, request, rfl, hc, (Option.some.inj h).symm⟩
        | some chan =>
          right
          simp only [hc] at h
          exact ⟨hs, hres, type, request, chan, rfl, hc, (Option.some.inj h).symm⟩

/-- C21. The congestion backoff counter in `AccessGrantResponder`: under
hold-off it is untouched and nothing is sent; when the request is too old (and
hold-off is not active) it is grown exactly once and nothing is sent; on an
excessive timing error it is untouched and nothing is sent; on every path at
most one message is sent, a rejection or an assignment; with a rejection the
counter is grown exactly once and not shrunk; with an assignment it is shrunk
exactly once and not grown; and when nothing is sent it is not shrunk, and
grown (once) only on the too-old path. -/
theorem AccessGrantResponder_backoff (cfg : Config) (bts : BTS) (RA when : Nat)
    (RSSI timingError : ℚ) (tr : List Event)
    (h : AccessGrantResponder cfg bts RA when RSSI timingError = some tr) :
    (bts.hold = true → growCount tr = 0 ∧ shrinkCount tr = 0 ∧ agchSent tr = []) ∧
    (bts.hold = false → bts.age > cfg.maxAge →
      growCount tr = 1 ∧ shrinkCount tr = 0 ∧ agchSent tr = []) ∧
    (bts.hold = false → bts.age ≤ cfg.maxAge → timingError > (cfg.TAMax : ℚ) →
      growCount tr = 0 ∧ shrinkCount tr = 0 ∧ agchSent tr = []) ∧
    (agchSent tr = [] ∨
      agchSent tr =
        [AGCHMessage.L3ImmediateAssignmentReject RA when (bts.growT3122 / 1000)] ∨
      ∃ chan, agchSent tr =
        [AGCHMessage.L3ImmediateAssignment RA when chan (initialTA timingError)]) ∧
    (agchSent tr = [AGCHMessage.L3ImmediateAssignmentReject RA when (bts.growT3122 / 1000)] →
      growCount tr = 1 ∧ shrinkCount tr = 0) ∧
    (∀ chan, agchSent tr =
        [AGCHMessage.L3ImmediateAssignment RA when chan (initialTA timingError)] →
      growCount tr = 0 ∧ shrinkCount tr = 1) ∧
    (agchSent tr = [] → shrinkCount tr = 0 ∧
      growCount tr = if bts.hold = false ∧ bts.age > cfg.maxAge then 1 else 0) := by
  rcases AccessGrantResponder_cases cfg bts RA when RSSI timingError tr h with
    ⟨h1, ht⟩ | ⟨h1, h2, ht⟩ | ⟨h1, h2, h3, ht⟩ | ⟨h1, h2, h3, _, ht⟩ | ⟨⟨l, hs⟩, _, ht⟩ |
    ⟨⟨l, hs⟩, _, type, request, _, hc, ht⟩ | ⟨⟨l, hs⟩, _, type, request, chan, _, hc, ht⟩
  · subst ht
    simp [rachReports, growCount, shrinkCount, agchSent, h1]
  · subst ht
    simp [rachReports, growCount, shrinkCount, agchSent, h1, h2, not_le.mpr h2]
  · subst ht
    simp [rachReports, growCount, shrinkCount, agchSent, h1, h2, not_lt.mpr h2]
  · subst ht
    simp [rachReports, growCount, shrinkCount, agchSent, h1, h2, h3, not_lt.mpr h2,
      not_lt.mpr h3]
  · subst ht
    obtain ⟨h1, h2, h3, _, _⟩ := hs
    simp [rachReports, growCount, shrinkCount, agchSent, h1, h2, h3, not_lt.mpr h2,
      not_lt.mpr h3]
  · subst ht
    obtain ⟨h1, h2, h3, _, _⟩ := hs
    rcases allocateChannel_cases bts type request none hc with ⟨hr, _⟩ | ⟨hr, _⟩ <;>
      subst hr <;>
      simp [rachReports, growCount, shrinkCount, agchSent, h1, h2, h3, not_lt.mpr h2,
        not_lt.mpr h3]
  · subst ht
    obtain ⟨h1, h2, h3, _, _⟩ := hs
    rcases allocateChannel_cases bts type request (some chan) hc with ⟨hr, _⟩ | ⟨hr, _⟩ <;>
      subst hr <;>
      simp [rachReports, growCount, shrinkCount, agchSent, h1, h2, h3, not_lt.mpr h2,
        not_lt.mpr h3]

/-- C21 at a concrete input: a location-update request refused by the reserve
check grows the counter once and does not shrink it. -/
theorem AccessGrantResponder_backoff_witness :
    ∃ tr, AccessGrantResponder ⟨0, false, 10, 63, 5, 2⟩
        ⟨false, 3, some 1, 2, 2000, none, some 7⟩ 0 40 (-60) 3 = some tr ∧
      growCount tr = 1 ∧ shrinkCount tr = 0 :=
  ⟨_, AccessGrantResponder_reserve ⟨0, false, 10, 63, 5, 2⟩
      ⟨false, 3, some 1, 2, 2000, none, some 7⟩ 0 40 (-60) 3 1
      rfl (by decide) (by decide) rfl (by decide) (by decide),
    (AccessGrantResponder_backoff ⟨0, false, 10, 63, 5, 2⟩
      ⟨false, 3, some 1, 2, 2000, none, some 7⟩ 0 40 (-60) 3 _
      (AccessGrantResponder_reserve ⟨0, false, 10, 63, 5, 2⟩
        ⟨false, 3, some 1, 2, 2000, none, some 7⟩ 0 40 (-60) 3 1
        rfl (by decide) (by decide) rfl (by decide) (by decide))).2.2.2.2.1 rfl⟩

/-- The floor of a rational is not above it. -/
theorem floor_le_self (q : ℚ) : (q.floor : ℚ) ≤ q := Rat.le_floor.mp le_rfl

/-- A rational is below its floor plus one. -/
theorem lt_floor_add_one (q : ℚ) : q < (q.floor : ℚ) + 1 := by
  by_contra hc
  have h1 : ((q.floor + 1 : Int) : ℚ) ≤ q := by push_cast; exact not_lt.mp hc
  have h2 := Rat.le_floor.mpr h1
  omega

/-- The floor of a rational between an integer and its successor. -/
theorem floor_eq (q : ℚ) (z : Int) (h1 : (z : ℚ) ≤ q) (h2 : q < (z : ℚ) + 1) : q.floor = z := by
  have h3 := Rat.le_floor.mpr h1
  have h4 : ¬ (z + 1 ≤ q.floor) := by
    intro hc
    have := Rat.le_floor.mp hc
    push_cast at this
    linarith
  omega

/-- Rounding to nearest gives the floor or the floor plus one. -/
theorem floor_le_roundHalfEven (q : ℚ) :
    q.floor ≤ roundHalfEven q ∧ roundHalfEven q ≤ q.floor + 1 := by
  unfold roundHalfEven
  simp only
  split_ifs <;> constructor <;> omega

/-- Rounding to nearest does not go below an integer that the value is not below. -/
theorem le_roundHalfEven (q : ℚ) (z : Int) (h : (z : ℚ) ≤ q) : z ≤ roundHalfEven q :=
  le_trans (Rat.le_floor.mpr h) (floor_le_roundHalfEven q).1

/-- Rounding to nearest does not go above an integer that the value is not above. -/
theorem roundHalfEven_le (q : ℚ) (z : Int) (h : q ≤ (z : ℚ)) : roundHalfEven q ≤ z := by
  have hf : q.floor ≤ z := by
    have h1 : (q.floor : ℚ) ≤ z := le_trans (floor_le_self q) h
    exact_mod_cast h1
  by_cases hr : q - q.floor < 1 / 2
  · unfold roundHalfEven
    simp only [hr, if_true]
    exact hf
  · have hlt : (q.floor : ℚ) < z := by linarith
    have hlt' : q.floor < z := by exact_mod_cast hlt
    have := (floor_le_roundHalfEven q).2
    omega

/-- Rounding to nearest leaves an integer as it is. -/
theorem roundHalfEven_intCast (z : Int) : roundHalfEven (z : ℚ) = z := by
  apply le_antisymm
  · exact roundHalfEven_le _ z le_rfl
  · exact le_roundHalfEven _ z le_rfl

/-- The spacing is positive. -/
theorem binary32Quantum_pos (x : ℚ) : 0 < binary32Quantum x := by
  unfold binary32Quantum
  positivity

/-- A value that is a whole multiple of the spacing around `x` is not crossed by
the rounding of `x`. -/
theorem binary32_threshold (x t : ℚ) (z : Int) (ht : t = z * binary32Quantum x) :
    (x ≤ t → binary32 x ≤ t) ∧ (t ≤ x → t ≤ binary32 x) := by
  have hu := binary32Quantum_pos x
  by_cases hx : x = 0
  · subst hx
    simp [binary32]
  · unfold binary32
    rw [if_neg hx, ht]
    constructor
    · intro h
      have h1 : x / binary32Quantum x ≤ (z : ℚ) := by
        rw [div_le_iff₀ hu]
        exact h
      have h2 := roundHalfEven_le _ z h1
      have h3 : ((roundHalfEven (x / binary32Quantum x) : Int) : ℚ) ≤ (z : ℚ) := by
        exact_mod_cast h2
      exact mul_le_mul_of_nonneg_right h3 (le_of_lt hu)
    · intro h
      have h1 : (z : ℚ) ≤ x / binary32Quantum x := by
        rw [le_div_iff₀ hu]
        exact h
      have h2 := le_roundHalfEven _ z h1
      have h3 : (z : ℚ) ≤ ((roundHalfEven (x / binary32Quantum x) : Int) : ℚ) := by
        exact_mod_cast h2
      exact mul_le_mul_of_nonneg_right h3 (le_of_lt hu)

/-- Below `2 ^ (K + 24)` in magnitude the spacing divides `2 ^ K`
(for `K` not below the subnormal spacing). -/
theorem binary32Quantum_dvd (x : ℚ) (K : Int) (hK : -149 ≤ K) (hx : x ≠ 0)
    (hlt : |x| < 2 ^ (K + 24)) :
    ∃ N : Nat, (2 : ℚ) ^ K = ((2 ^ N : Nat) : Int) * binary32Quantum x := by
  have hpos : 0 < |x| := abs_pos.mpr hx
  have hlog : Int.log 2 |x| < K + 24 := by
    have := (Int.lt_zpow_iff_log_lt (R := ℚ) (b := 2) (by norm_num) hpos (x := K + 24)).mp
      (by push_cast; exact hlt)
    exact this
  have hle : max (Int.log 2 |x|) (-126) - 23 ≤ K := by omega
  refine ⟨(K - (max (Int.log 2 |x|) (-126) - 23)).toNat, ?_⟩
  unfold binary32Quantum
  push_cast
  rw [← zpow_natCast, ← zpow_add₀ (by norm_num : (2 : ℚ) ≠ 0)]
  congr 1
  rw [Int.toNat_of_nonneg (by omega)]
  ring

/-- A dyadic value `n * 2 ^ K` is not crossed by the rounding of a value below
`2 ^ (K + 24)` in magnitude. -/
theorem binary32_dyadic (x : ℚ) (n K : Int) (hK : -149 ≤ K) (hlt : |x| < 2 ^ (K + 24)) :
    (x ≤ n * 2 ^ K → binary32 x ≤ n * 2 ^ K) ∧ (n * 2 ^ K ≤ x → n * 2 ^ K ≤ binary32 x) := by
  by_cases hx : x = 0
  · subst hx
    simp [binary32]
  · obtain ⟨N, hN⟩ := binary32Quantum_dvd x K hK hx hlt
    apply binary32_threshold x _ (n * ((2 ^ N : Nat) : Int))
    rw [hN]
    push_cast
    ring


/-- The rounding does not cross 0. -/
theorem binary32_zero (x : ℚ) : (x ≤ 0 → binary32 x ≤ 0) ∧ (0 ≤ x → 0 ≤ binary32 x) :=
  binary32_threshold x 0 0 (by simp)

/-- A value that is a whole multiple of the spacing around it is left as it is. -/
theorem binary32_exact (x : ℚ) (n K : Int) (hK : -149 ≤ K) (hlt : |x| < 2 ^ (K + 24))
    (hx : x = n * 2 ^ K) : binary32 x = x := by
  have h := binary32_dyadic x n K hK hlt
  rw [← hx] at h
  exact le_antisymm (h.1 le_rfl) (h.2 le_rfl)

/-- The exponent of a positive rational between two consecutive powers of 2. -/
theorem log2_eq (x : ℚ) (e : Int) (h1 : (2 : ℚ) ^ e ≤ x) (h2 : x < 2 ^ (e + 1)) :
    Int.log 2 x = e := by
  have hx : 0 < x := lt_of_lt_of_le (by positivity) h1
  have ha := (Int.zpow_le_iff_le_log (R := ℚ) (b := 2) (by norm_num) hx (x := e)).mp
    (by push_cast; exact h1)
  have hb := (Int.lt_zpow_iff_log_lt (R := ℚ) (b := 2) (by norm_num) hx (x := e + 1)).mp
    (by push_cast; exact h2)
  omega

/-- A natural number up to `2 ^ 24` is not crossed from above by the rounding. -/
theorem le_binary32_of_nat (x : ℚ) (n : Nat) (hn : n ≤ 2 ^ 24) (h : (n : ℚ) ≤ x) :
    (n : ℚ) ≤ binary32 x := by
  by_cases hlt : |x| < 2 ^ ((0 : Int) + 24)
  · have := (binary32_dyadic x n 0 (by norm_num) hlt).2
    simp only [zpow_zero, mul_one, Int.cast_natCast] at this
    exact this h
  · have hx0 : 0 ≤ x := le_trans (by positivity) h
    have hbig : (2 : ℚ) ^ (24 : Int) ≤ x := by
      rw [abs_of_nonneg hx0] at hlt
      simpa using not_lt.mp hlt
    have hx : 0 < x := lt_of_lt_of_le (by positivity) hbig
    have hlog : (24 : Int) ≤ Int.log 2 x :=
      (Int.zpow_le_iff_le_log (R := ℚ) (b := 2) (by norm_num) hx (x := 24)).mp
        (by push_cast; exact hbig)
    have hq : binary32Quantum x = 2 ^ (Int.log 2 x - 23) := by
      unfold binary32Quantum
      rw [abs_of_pos hx, max_eq_left (by omega)]
    have hsplit : (2 : ℚ) ^ Int.log 2 x = 2 ^ (23 : Int) * 2 ^ (Int.log 2 x - 23) := by
      rw [← zpow_add₀ (by norm_num : (2 : ℚ) ≠ 0)]
      congr 1
      ring
    have hpow : (2 : ℚ) ^ Int.log 2 x = ((2 ^ 23 : Nat) : Int) * binary32Quantum x := by
      rw [hq, hsplit]
      norm_num
    have hself : (2 : ℚ) ^ Int.log 2 x ≤ x := by
      have := Int.zpow_log_le_self (R := ℚ) (b := 2) (by norm_num) hx
      simpa using this
    have h1 := (binary32_threshold x _ _ hpow).2 hself
    have h2 : (2 : ℚ) ^ (24 : Int) ≤ 2 ^ Int.log 2 x :=
      zpow_le_zpow_right₀ (by norm_num) hlog
    have h3 : (n : ℚ) ≤ 2 ^ (24 : Int) := by
      have : ((n : Nat) : ℚ) ≤ ((2 ^ 24 : Nat) : ℚ) := by exact_mod_cast hn
      norm_num at this ⊢
      exact this
    linarith

/-- A natural number below `2 ^ 24` is not crossed from below by the rounding. -/
theorem binary32_le_of_nat (x : ℚ) (n : Nat) (hn : n < 2 ^ 24) (h : x ≤ (n : ℚ)) :
    binary32 x ≤ (n : ℚ) := by
  by_cases hx : x ≤ 0
  · exact le_trans ((binary32_zero x).1 hx) (by positivity)
  · have hx0 : 0 < x := not_le.mp hx
    have hlt : |x| < 2 ^ ((0 : Int) + 24) := by
      rw [abs_of_pos hx0]
      have : ((n : Nat) : ℚ) < ((2 ^ 24 : Nat) : ℚ) := by exact_mod_cast hn
      have h2 : (2 : ℚ) ^ ((0 : Int) + 24) = ((2 ^ 24 : Nat) : ℚ) := by norm_num
      rw [h2]
      linarith
    have := (binary32_dyadic x n 0 (by norm_num) hlt).1
    simp only [zpow_zero, mul_one, Int.cast_natCast] at this
    exact this h

/-- The rounding does not cross 1/2. -/
theorem binary32_le_half (x : ℚ) (h : x ≤ 1 / 2) : binary32 x ≤ 1 / 2 := by
  by_cases hx : x ≤ 0
  · exact le_trans ((binary32_zero x).1 hx) (by norm_num)
  · have hx0 : 0 < x := not_le.mp hx
    have hlt : |x| < 2 ^ ((-1 : Int) + 24) := by
      rw [abs_of_pos hx0]
      have h2 : (1 : ℚ) / 2 < 2 ^ ((-1 : Int) + 24) := by norm_num
      exact lt_of_le_of_lt h h2
    have := (binary32_dyadic x 1 (-1) (by norm_num) hlt).1
    have h3 : ((1 : Int) : ℚ) * 2 ^ (-1 : Int) = 1 / 2 := by norm_num
    rw [h3] at this
    exact this h

/-- The truncation of a rational below 1 is at most 0. -/
theorem truncToInt_nonpos (q : ℚ) (h : q < 1) : truncToInt q ≤ 0 := by
  unfold truncToInt
  split_ifs with h0
  · have := floor_le_self q
    have h1 : (q.floor : ℚ) < 1 := by linarith
    have h2 : q.floor < 1 := by exact_mod_cast h1
    omega
  · have h1 : (0 : Int) ≤ (-q).floor := Rat.le_floor.mpr (by push_cast; linarith)
    omega

/-- The truncation of a non-negative rational is its floor: the largest
integer not above it. -/
theorem truncToInt_floor (q : ℚ) (h : 0 ≤ q) (z : Int) : z ≤ truncToInt q ↔ (z : ℚ) ≤ q := by
  unfold truncToInt
  rw [if_pos h]
  exact Rat.le_floor

/-- The truncation of a non-negative rational is not above an integer that the
rational is not above. -/
theorem truncToInt_le (q : ℚ) (h : 0 ≤ q) (z : Int) (hz : q ≤ (z : ℚ)) : truncToInt q ≤ z := by
  unfold truncToInt
  rw [if_pos h]
  have h1 : (q.floor : ℚ) ≤ z := le_trans (floor_le_self q) hz
  exact_mod_cast h1

/-- The clamped timing advance is the truncation of the binary32 sum, raised to 0
and lowered to 62. -/
theorem initialTA_eq (timingError : ℚ) :
    initialTA timingError =
      min 62 (max 0 (truncToInt (binary32 (timingError + 1 / 2)))) := by
  unfold initialTA
  simp only
  split_ifs <;> omega

/-- The clamped timing advance against the exact formula: range, value for
negative timing errors, value from 61.5 on, and the exact value or one more in
general. -/
theorem initialTA_spec (timingError : ℚ) :
    0 ≤ initialTA timingError ∧ initialTA timingError ≤ 62 ∧
    (timingError < 0 → initialTA timingError = 0) ∧
    (123 / 2 ≤ timingError → initialTA timingError = 62) ∧
    min 62 (max 0 (truncToInt (timingError + 1 / 2))) ≤ initialTA timingError ∧
    initialTA timingError ≤ min 62 (max 0 (truncToInt (timingError + 1 / 2))) + 1 := by
  rw [initialTA_eq]
  have hneg : timingError < 0 →
      truncToInt (binary32 (timingError + 1 / 2)) ≤ 0 ∧
      truncToInt (timingError + 1 / 2) ≤ 0 := by
    intro h
    have h1 := binary32_le_half (timingError + 1 / 2) (by linarith)
    exact ⟨truncToInt_nonpos _ (by linarith), truncToInt_nonpos _ (by linarith)⟩
  have hbig : ∀ n : Nat, n ≤ 62 → (n : ℚ) ≤ timingError + 1 / 2 →
      (n : Int) ≤ truncToInt (binary32 (timingError + 1 / 2)) := by
    intro n hn h
    have h1 := le_binary32_of_nat _ n (by omega) h
    have h0 : (0 : ℚ) ≤ binary32 (timingError + 1 / 2) := le_trans (by positivity) h1
    exact (truncToInt_floor _ h0 n).mpr (by exact_mod_cast h1)
  refine ⟨by omega, by omega, ?_, ?_, ?_⟩
  · intro h
    have := (hneg h).1
    omega
  · intro h
    have := hbig 62 le_rfl (by push_cast; linarith)
    omega
  · by_cases hn : timingError < 0
    · obtain ⟨h1, h2⟩ := hneg hn
      omega
    · have hs : (0 : ℚ) ≤ timingError + 1 / 2 := by linarith
      have hf0 : (0 : Int) ≤ truncToInt (timingError + 1 / 2) :=
        (truncToInt_floor _ hs 0).mpr (by push_cast; exact hs)
      by_cases h62 : 62 ≤ truncToInt (timingError + 1 / 2)
      · have h1 := (truncToInt_floor _ hs 62).mp h62
        have := hbig 62 le_rfl (by push_cast at h1 ⊢; exact h1)
        omega
      · obtain ⟨n, hn'⟩ := Int.eq_ofNat_of_zero_le hf0
        have hnle : n ≤ 62 := by omega
        have hlow : ((n : Nat) : ℚ) ≤ timingError + 1 / 2 := by
          have := (truncToInt_floor _ hs (n : Int)).mp (by omega)
          exact_mod_cast this
        have hup : timingError + 1 / 2 ≤ ((n + 1 : Nat) : ℚ) := by
          by_contra hc
          have h1 : (((n + 1 : Nat) : Int) : ℚ) ≤ timingError + 1 / 2 := by
            push_cast
            push_cast at hc
            linarith
          have := (truncToInt_floor _ hs ((n + 1 : Nat) : Int)).mpr h1
          omega
        have h1 := hbig n hnle hlow
        have h2 := binary32_le_of_nat _ (n + 1) (by omega) hup
        have h0 : (0 : ℚ) ≤ binary32 (timingError + 1 / 2) :=
          (binary32_zero _).2 hs
        have h3 := truncToInt_le _ h0 ((n + 1 : Nat) : Int) (by exact_mod_cast h2)
        omega


/-- Up to `2 ^ 30` in magnitude the binary32 sum `timingError + 0.5F` converts to
`int`: it lies strictly between `-2 ^ 31` and `2 ^ 31`. -/
theorem binary32_fitsInt (timingError : ℚ) (h : |timingError| ≤ 2 ^ 30) :
    -(2 : ℚ) ^ 31 < binary32 (timingError + 1 / 2) ∧
    binary32 (timingError + 1 / 2) < 2 ^ 31 := by
  obtain ⟨hlo, hhi⟩ := abs_le.mp h
  have hlt : |timingError + 1 / 2| < 2 ^ ((7 : Int) + 24) := by
    rw [abs_lt]
    constructor
    · have : (2 : ℚ) ^ ((7 : Int) + 24) = 2147483648 := by norm_num
      rw [this]
      norm_num at hlo
      linarith
    · have : (2 : ℚ) ^ ((7 : Int) + 24) = 2147483648 := by norm_num
      rw [this]
      norm_num at hhi
      linarith
  have hd1 := (binary32_dyadic (timingError + 1 / 2) (2 ^ 23 + 1) 7 (by norm_num) hlt).1
  have hd2 := (binary32_dyadic (timingError + 1 / 2) (-(2 ^ 23)) 7 (by norm_num) hlt).2
  norm_num at hd1 hd2 hlo hhi ⊢
  constructor
  · have := hd2 (by linarith)
    linarith
  · have := hd1 (by linarith)
    linarith

/-- For a timing error that is a multiple of `2 ^ (-17)` between 0 and 127 the
binary32 sum `timingError + 0.5F` is exact. -/
theorem binary32_half_exact (timingError : ℚ) (j : Int) (hj : timingError = j / 2 ^ 17)
    (h0 : 0 ≤ timingError) (h1 : timingError ≤ 127) :
    binary32 (timingError + 1 / 2) = timingError + 1 / 2 := by
  apply binary32_exact _ (j + 2 ^ 16) (-17) (by norm_num)
  · rw [abs_of_nonneg (by linarith)]
    have : (2 : ℚ) ^ ((-17 : Int) + 24) = 128 := by norm_num
    rw [this]
    linarith
  · rw [hj]
    push_cast
    rw [zpow_neg]
    norm_num
    ring

/-- Rounding at a tie above an odd integer goes up, to the even neighbour. -/
theorem roundHalfEven_tie_odd (f : Int) (hodd : f % 2 = 1) :
    roundHalfEven ((f : ℚ) + 1 / 2) = f + 1 := by
  have hf : ((f : ℚ) + 1 / 2).floor = f := floor_eq _ f (by linarith) (by linarith)
  unfold roundHalfEven
  simp only [hf]
  have hr : (f : ℚ) + 1 / 2 - (f : ℚ) = 1 / 2 := by ring
  rw [hr]
  simp only [lt_self_iff_false, if_false, gt_iff_lt]
  rw [if_neg (by omega)]

/-- The binary32 sum of `0.5 - 2 ^ (-25)` and `0.5` is `1.0`: the exact sum
`1 - 2 ^ (-25)` lies half-way between the neighbours `1 - 2 ^ (-24)` and `1`,
and the tie goes to the even one. -/
theorem binary32_tie_below_one :
    binary32 ((16777215 : ℚ) / 33554432 + 1 / 2) = 1 := by
  have hx : (16777215 : ℚ) / 33554432 + 1 / 2 = 33554431 / 33554432 := by norm_num
  rw [hx]
  have hlog : Int.log 2 |(33554431 : ℚ) / 33554432| = -1 := by
    rw [abs_of_pos (by norm_num)]
    exact log2_eq _ (-1) (by norm_num) (by norm_num)
  have hq : binary32Quantum ((33554431 : ℚ) / 33554432) = 1 / 16777216 := by
    unfold binary32Quantum
    rw [hlog]
    norm_num
  unfold binary32
  rw [if_neg (by norm_num), hq]
  have hdiv : (33554431 : ℚ) / 33554432 / (1 / 16777216) = ((16777215 : Int) : ℚ) + 1 / 2 := by
    norm_num
  rw [hdiv, roundHalfEven_tie_odd 16777215 (by decide)]
  norm_num

/-- The timing error `0.5 - 2 ^ (-25)` is a binary32 value. -/
theorem binary32_tie_input : binary32 ((16777215 : ℚ) / 33554432) = 16777215 / 33554432 := by
  apply binary32_exact _ 16777215 (-25) (by norm_num)
  · rw [abs_of_pos (by norm_num)]
    norm_num
  · norm_num

/-- The timing advance computed for `0.5 - 2 ^ (-25)` is 1; the exact formula
gives 0. -/
theorem initialTA_tie : initialTA ((16777215 : ℚ) / 33554432) = 1 ∧
    min 62 (max 0 (truncToInt ((16777215 : ℚ) / 33554432 + 1 / 2))) = 0 := by
  constructor
  · rw [initialTA_eq, binary32_tie_below_one]
    have : truncToInt 1 = 1 := by
      unfold truncToInt
      rw [if_pos (by norm_num)]
      exact floor_eq 1 1 (by norm_num) (by norm_num)
    rw [this]
    decide
  · have : truncToInt ((16777215 : ℚ) / 33554432 + 1 / 2) = 0 := by
      unfold truncToInt
      rw [if_pos (by norm_num)]
      exact floor_eq _ 0 (by norm_num) (by norm_num)
    rw [this]
    decide

/-- C23 (as stated, refuted). The timing error `0.5 - 2 ^ (-25)`, a binary32
value within the maximum, is admitted; its nearest integer is 0 and the exact
formula `min(62, max(0, trunc(timingError + 1/2)))` gives 0, but the binary32
sum `timingError + 0.5F` is `1.0` and the assignment sent carries the timing
advance 1. -/
theorem AccessGrantResponder_initialTA_counterexample :
    binary32 ((16777215 : ℚ) / 33554432) = 16777215 / 33554432 ∧
    min 62 (max 0 (truncToInt ((16777215 : ℚ) / 33554432 + 1 / 2))) = 0 ∧
    binary32 ((16777215 : ℚ) / 33554432 + 1 / 2) = 1 ∧
    ∃ tr, AccessGrantResponder ⟨0, false, 10, 63, 5, 2⟩
        ⟨false, 3, some 1, 3, 2000, none, some 7⟩ 0xE0 40 (-60) (16777215 / 33554432) =
        some tr ∧
      agchSent tr = [AGCHMessage.L3ImmediateAssignment 0xE0 40 7 1] := by
  refine ⟨binary32_tie_input, initialTA_tie.2, binary32_tie_below_one, _,
    AccessGrantResponder_granted ⟨0, false, 10, 63, 5, 2⟩
      ⟨false, 3, some 1, 3, 2000, none, some 7⟩ 0xE0 40 (-60) (16777215 / 33554432) 1
      ChannelType.SDCCHType Event.getSDCCH 7 rfl (by decide) (by norm_num) rfl (by decide)
      (by decide) (by decide) rfl, ?_⟩
  simp only [agchSent, initialTA_tie.1]

/-- C23 (amended). The initial timing advance of the assignment message: for
every admitted request (every call of `AccessGrantResponder` that sends an
assignment) with a timing error of magnitude up to `2 ^ 30`, the value placed
in the message is `min(62, max(0, trunc(s)))`, where `s` is the binary32 sum
`timingError + 0.5F`, which converts to `int`; it lies in 0..62, is 0 for every
negative timing error and 62 for every timing error of 61.5 or more; it is the
value of the exact formula `min(62, max(0, trunc(timingError + 1/2)))` or one
more, and it is that value whenever the sum is exact, as for every timing
error that is a multiple of `2 ^ (-17)` between 0 and 127. -/
theorem AccessGrantResponder_initialTA (cfg : Config) (bts : BTS) (RA when : Nat)
    (RSSI timingError : ℚ) (tr : List Event) (RA0 when0 : Nat) (chan : LCH) (ta : Int)
    (h : AccessGrantResponder cfg bts RA when RSSI timingError = some tr)
    (hm : AGCHMessage.L3ImmediateAssignment RA0 when0 chan ta ∈ agchSent tr)
    (hrange : |timingError| ≤ 2 ^ 30) :
    ta = min 62 (max 0 (truncToInt (binary32 (timingError + 1 / 2)))) ∧
    (-(2 : ℚ) ^ 31 < binary32 (timingError + 1 / 2) ∧
      binary32 (timingError + 1 / 2) < 2 ^ 31) ∧
    0 ≤ ta ∧ ta ≤ 62 ∧
    (timingError < 0 → ta = 0) ∧
    (123 / 2 ≤ timingError → ta = 62) ∧
    min 62 (max 0 (truncToInt (timingError + 1 / 2))) ≤ ta ∧
    ta ≤ min 62 (max 0 (truncToInt (timingError + 1 / 2))) + 1 ∧
    (binary32 (timingError + 1 / 2) = timingError + 1 / 2 →
      ta = min 62 (max 0 (truncToInt (timingError + 1 / 2)))) ∧
    (∀ j : Int, timingError = j / 2 ^ 17 → 0 ≤ timingError → timingError ≤ 127 →
      ta = min 62 (max 0 (truncToInt (timingError + 1 / 2)))) := by
  have hta : ta = initialTA timingError := by
    rcases AccessGrantResponder_cases cfg bts RA when RSSI timingError tr h with
      ⟨_, ht⟩ | ⟨_, _, ht⟩ | ⟨_, _, _, ht⟩ | ⟨_, _, _, _, ht⟩ | ⟨_, _, ht⟩ |
      ⟨_, _, type, request, _, hc, ht⟩ | ⟨_, _, type, request, chan1, _, hc, ht⟩
    · subst ht
      simp [rachReports, agchSent] at hm
    · subst ht
      simp [rachReports, agchSent] at hm
    · subst ht
      simp [rachReports, agchSent] at hm
    · subst ht
      simp [rachReports, agchSent] at hm
    · subst ht
      simp [rachReports, agchSent] at hm
    · subst ht
      rcases allocateChannel_cases bts type request none hc with ⟨hr, _⟩ | ⟨hr, _⟩ <;>
        subst hr <;> simp [rachReports, agchSent] at hm
    · subst ht
      rcases allocateChannel_cases bts type request (some chan1) hc with ⟨hr, _⟩ | ⟨hr, _⟩ <;>
        subst hr <;> simp [rachReports, agchSent] at hm <;> exact hm.2.2.2
  subst hta
  obtain ⟨h1, h2, h3, h4, h5, h6⟩ := initialTA_spec timingError
  have hexact : binary32 (timingError + 1 / 2) = timingError + 1 / 2 →
      initialTA timingError = min 62 (max 0 (truncToInt (timingError + 1 / 2))) := by
    intro he
    rw [initialTA_eq, he]
  refine ⟨initialTA_eq timingError, binary32_fitsInt timingError hrange, h1, h2, h3, h4, h5,
    h6, hexact, ?_⟩
  intro j hj h0 h127
  exact hexact (binary32_half_exact timingError j hj h0 h127)

/-- C23 (amended) at a concrete input: an admitted request with timing error 3,
a multiple of `2 ^ (-17)`, carries the value of the exact formula. -/
theorem AccessGrantResponder_initialTA_witness :
    initialTA 3 = min 62 (max 0 (truncToInt ((3 : ℚ) + 1 / 2))) :=
  (AccessGrantResponder_initialTA ⟨0, false, 10, 63, 5, 2⟩
    ⟨false, 3, some 1, 3, 2000, none, some 7⟩ 0xE0 40 (-60) 3 _ 0xE0 40 7 (initialTA 3)
    (AccessGrantResponder_granted ⟨0, false, 10, 63, 5, 2⟩
      ⟨false, 3, some 1, 3, 2000, none, some 7⟩ 0xE0 40 (-60) 3 1 ChannelType.SDCCHType
      Event.getSDCCH 7 rfl (by decide) (by decide) rfl (by decide) (by decide) (by decide) rfl)
    (by simp [agchSent]) (by norm_num)).2.2.2.2.2.2.2.2.2 393216 (by norm_num) (by norm_num)
    (by norm_num)

/-- C24. Every request that the arbitrator classifies as a location update is
served on a basic control channel: for every request code, NECI in {0,1} and
every VEA setting, `requestingLUR` implies that `decodeChannelNeeded` returns
`SDCCHType`; so a call of `AccessGrantResponder` for such a request never asks
the provider for a traffic channel, and when it asks for a channel it asks for
an SDCCH, the class counted by the reserve check, which it has passed. -/
theorem requestingLUR_served_on_SDCCH (cfg : Config) (RA : Nat)
    (hNECI : cfg.NECI = 0 ∨ cfg.NECI = 1) (hLUR : requestingLUR cfg RA = true) :
    decodeChannelNeeded cfg RA = some ChannelType.SDCCHType ∧
    (∀ bts : BTS, allocateChannel bts ChannelType.SDCCHType =
      some (Event.getSDCCH, bts.getSDCCH)) ∧
    (∀ (bts : BTS) (when : Nat) (RSSI timingError : ℚ) (tr : List Event),
      AccessGrantResponder cfg bts RA when RSSI timingError = some tr →
      tchRequests tr = 0 ∧
      (channelRequests tr = 1 →
        Event.getSDCCH ∈ tr ∧ channelObtained bts tr = bts.getSDCCH ∧
        cfg.SDCCHReserve < castInt bts.SDCCHAvailable)) := by
  have hdec := decodeChannelNeeded_of_requestingLUR cfg RA hNECI hLUR
  refine ⟨hdec, fun _ => rfl, ?_⟩
  intro bts when RSSI timingError tr h
  rcases AccessGrantResponder_cases cfg bts RA when RSSI timingError tr h with
    ⟨_, ht⟩ | ⟨_, _, ht⟩ | ⟨_, _, _, ht⟩ | ⟨_, _, _, _, ht⟩ | ⟨_, _, ht⟩ |
    ⟨_, hres, type, request, hd, hc, ht⟩ | ⟨_, hres, type, request, chan, hd, hc, ht⟩
  · subst ht
    simp [rachReports, tchRequests, channelRequests]
  · subst ht
    simp [rachReports, tchRequests, channelRequests]
  · subst ht
    simp [rachReports, tchRequests, channelRequests]
  · subst ht
    simp [rachReports, tchRequests, channelRequests]
  · subst ht
    simp [rachReports, tchRequests, channelRequests]
  · have hlt : cfg.SDCCHReserve < castInt bts.SDCCHAvailable :=
      not_le.mp (fun hle => hres ⟨hLUR, hle⟩)
    rw [hdec] at hd
    cases hd
    simp only [allocateChannel, Option.some.injEq, Prod.mk.injEq] at hc
    obtain ⟨hr, ha⟩ := hc
    subst ht
    subst hr
    simp [rachReports, tchRequests, channelRequests, channelObtained, hlt]
  · have hlt : cfg.SDCCHReserve < castInt bts.SDCCHAvailable :=
      not_le.mp (fun hle => hres ⟨hLUR, hle⟩)
    rw [hdec] at hd
    cases hd
    simp only [allocateChannel, Option.some.injEq, Prod.mk.injEq] at hc
    obtain ⟨hr, ha⟩ := hc
    subst ht
    subst hr
    simp [rachReports, tchRequests, channelRequests, channelObtained, hlt]

/-- C24 at a concrete input: request code 0 with NECI 0 is a location update
and needs an SDCCH. -/
theorem requestingLUR_served_on_SDCCH_witness :
    decodeChannelNeeded ⟨0, true, 10, 63, 5, 2⟩ 0 = some ChannelType.SDCCHType :=
  (requestingLUR_served_on_SDCCH ⟨0, true, 10, 63, 5, 2⟩ 0 (Or.inl rfl) (by decide)).1

/-- C25. No admission path leaks a channel or answers twice: a call of
`AccessGrantResponder` sends at most one message on the AGCH and makes at most
one channel request; it makes a channel request only when the hold-off, age,
timing-error and AGCH-load screens have passed and the location-update reserve
check has not refused the request; when a channel is obtained the one message
sent is the assignment of that channel, whose physical parameters were set;
and when nothing or a rejection is sent, no channel has been obtained. -/
theorem AccessGrantResponder_no_leak (cfg : Config) (bts : BTS) (RA when : Nat)
    (RSSI timingError : ℚ) (tr : List Event)
    (h : AccessGrantResponder cfg bts RA when RSSI timingError = some tr) :
    (agchSent tr).length ≤ 1 ∧ channelRequests tr ≤ 1 ∧
    (channelRequests tr = 1 →
      (∃ load, passesScreens cfg bts timingError load) ∧ ¬ refusedByReserve cfg bts RA) ∧
    (∀ chan, channelObtained bts tr = some chan →
      channelRequests tr = 1 ∧ setPhyChannels tr = [chan] ∧
      agchSent tr =
        [AGCHMessage.L3ImmediateAssignment RA when chan (initialTA timingError)]) ∧
    ((agchSent tr = [] ∨
        agchSent tr =
          [AGCHMessage.L3ImmediateAssignmentReject RA when (bts.growT3122 / 1000)]) →
      channelObtained bts tr = none ∧ setPhyChannels tr = []) ∧
    (agchSent tr = [] ∨
      agchSent tr =
        [AGCHMessage.L3ImmediateAssignmentReject RA when (bts.growT3122 / 1000)] ∨
      ∃ chan, channelObtained bts tr = some chan) := by
  rcases AccessGrantResponder_cases cfg bts RA when RSSI timingError tr h with
    ⟨_, ht⟩ | ⟨_, _, ht⟩ | ⟨_, _, _, ht⟩ | ⟨_, _, _, _, ht⟩ | ⟨_, _, ht⟩ |
    ⟨hs, hres, type, request, _, hc, ht⟩ | ⟨hs, hres, type, request, chan, _, hc, ht⟩
  · subst ht
    simp [rachReports, agchSent, channelRequests, channelObtained, setPhyChannels]
  · subst ht
    simp [rachReports, agchSent, channelRequests, channelObtained, setPhyChannels]
  · subst ht
    simp [rachReports, agchSent, channelRequests, channelObtained, setPhyChannels]
  · subst ht
    simp [rachReports, agchSent, channelRequests, channelObtained, setPhyChannels]
  · subst ht
    simp [rachReports, agchSent, channelRequests, channelObtained, setPhyChannels]
  · subst ht
    rcases allocateChannel_cases bts type request none hc with ⟨hr, ha, _⟩ | ⟨hr, ha, _⟩ <;>
      subst hr <;>
      simp [rachReports, agchSent, channelRequests, channelObtained, setPhyChannels, ← ha,
        hs, hres]
  · subst ht
    rcases allocateChannel_cases bts type request (some chan) hc with
      ⟨hr, ha, _⟩ | ⟨hr, ha, _⟩ <;>
      subst hr <;>
      simp [rachReports, agchSent, channelRequests, channelObtained, setPhyChannels, ← ha,
        hs, hres]

/-- C25 at a concrete input: channel 7 is obtained and assigned. -/
theorem AccessGrantResponder_no_leak_witness :
    ∃ tr, AccessGrantResponder ⟨0, false, 10, 63, 5, 2⟩
        ⟨false, 3, some 1, 3, 2000, none, some 7⟩ 0xE0 40 (-60) 3 = some tr ∧
      (agchSent tr).length ≤ 1 ∧ channelRequests tr ≤ 1 :=
  ⟨_, AccessGrantResponder_granted ⟨0, false, 10, 63, 5, 2⟩
      ⟨false, 3, some 1, 3, 2000, none, some 7⟩ 0xE0 40 (-60) 3 1 ChannelType.SDCCHType
      Event.getSDCCH 7 rfl (by decide) (by decide) rfl (by decide) (by decide) (by decide) rfl,
    (AccessGrantResponder_no_leak ⟨0, false, 10, 63, 5, 2⟩
      ⟨false, 3, some 1, 3, 2000, none, some 7⟩ 0xE0 40 (-60) 3 _
      (AccessGrantResponder_granted ⟨0, false, 10, 63, 5, 2⟩
        ⟨false, 3, some 1, 3, 2000, none, some 7⟩ 0xE0 40 (-60) 3 1 ChannelType.SDCCHType
        Event.getSDCCH 7 rfl (by decide) (by decide) rfl (by decide) (by decide) (by decide)
        rfl)).1,
    (AccessGrantResponder_no_leak ⟨0, false, 10, 63, 5, 2⟩
      ⟨false, 3, some 1, 3, 2000, none, some 7⟩ 0xE0 40 (-60) 3 _
      (AccessGrantResponder_granted ⟨0, false, 10, 63, 5, 2⟩
        ⟨false, 3, some 1, 3, 2000, none, some 7⟩ 0xE0 40 (-60) 3 1 ChannelType.SDCCHType
        Event.getSDCCH 7 rfl (by decide) (by decide) rfl (by decide) (by decide) (by decide)
        rfl)).2.1⟩

/-! ## Further properties of the paging registry -/

/-- The search loop of `addID` renews the first entry with the identity. -/
theorem Pager.renewID_present (now : Nat) (newID : L3MobileIdentity) (wLife : Nat)
    (pre post : List PagingEntry) (e : PagingEntry) (he : e.mID = newID)
    (hpre : ∀ x ∈ pre, x.mID ≠ newID) :
    Pager.renewID now newID wLife (pre ++ e :: post) =
      some (pre ++ { e with mExpiration := now + wLife } :: post) := by
  induction pre with
  | nil => simp [Pager.renewID, he, PagingEntry.renew]
  | cons x rest ih =>
    have hx : x.mID ≠ newID := hpre x (List.mem_cons_self _ _)
    have hr := ih (fun y hy => hpre y (List.mem_cons_of_mem _ hy))
    simp [Pager.renewID, hx, hr]

/-- The purge loop keeps an entry that is not expired and whose transaction is
found when the loop reaches it. -/
theorem Pager.purge_keep (expired : PagingEntry → Bool) (T : TransactionTable)
    (pre post : List PagingEntry) (e : PagingEntry) (hexp : expired e = false)
    (hfound : TransactionTable.find (Pager.purge expired T pre).2 e.mTransactionID ≠ none) :
    e ∈ (Pager.purge expired T (pre ++ e :: post)).1 := by
  rw [Pager.purge_append]
  apply List.mem_append_right
  have hsome : (TransactionTable.find (Pager.purge expired T pre).2
      e.mTransactionID).isNone = false := by
    cases hf : TransactionTable.find (Pager.purge expired T pre).2 e.mTransactionID with
    | none => exact absurd hf hfound
    | some t => rfl
  simp [Pager.purge, hexp, hsome]

/-- C26. `addID` for an identity that is already in the registry: the entry of
the identity keeps its owning transaction ID and its channel type, only its
expiry is renewed, and the registry afterwards does not depend on the
transaction or the channel type passed in, although that transaction is put
into the Paging state with its timer 3113 set; a later `removeID` for the
identity returns the transaction ID of the entry, the first transaction's;
and `pageAll`, for every table, erases the entry when the first transaction is
not found and keeps the unexpired entry when the first transaction is found
as the loop reaches it, whether the new transaction is in the table or not. -/
theorem Pager_addID_existing (now : Nat) (p : Pager) (pre post : List PagingEntry)
    (e : PagingEntry) (newID : L3MobileIdentity) (chanType : ChannelType)
    (transaction : TransactionEntry) (wLife : Nat)
    (hl : p.mPageIDs = pre ++ e :: post) (hid : e.mID = newID)
    (hpre : ∀ x ∈ pre, x.mID ≠ newID) :
    (Pager.addID now p newID chanType transaction wLife).1.mPageIDs =
      pre ++ { e with mExpiration := now + wLife } :: post ∧
    (Pager.addID now p newID chanType transaction wLife).2 =
      (transaction.setGSMState CallState.Paging).setTimer "3113" wLife ∧
    (Pager.addID now p newID chanType transaction wLife).2.mGSMState = CallState.Paging ∧
    ("3113", wLife) ∈ (Pager.addID now p newID chanType transaction wLife).2.mTimers ∧
    (∀ (chanType0 : ChannelType) (transaction0 : TransactionEntry),
      (Pager.addID now p newID chanType0 transaction0 wLife).1 =
        (Pager.addID now p newID chanType transaction wLife).1) ∧
    (Pager.removeID (Pager.addID now p newID chanType transaction wLife).1 newID).1 =
      e.mTransactionID ∧
    (Pager.removeID (Pager.addID now p newID chanType transaction wLife).1 newID).2.mPageIDs =
      pre ++ post ∧
    (∀ (expired : PagingEntry → Bool) (T : TransactionTable),
      TransactionTable.find T e.mTransactionID = none →
      ({ e with mExpiration := now + wLife } : PagingEntry) ∉
        (Pager.pageAll expired T
          (Pager.addID now p newID chanType transaction wLife).1).pager.mPageIDs) ∧
    (∀ (expired : PagingEntry → Bool) (T : TransactionTable),
      expired { e with mExpiration := now + wLife } = false →
      TransactionTable.find (Pager.purge expired T pre).2 e.mTransactionID ≠ none →
      ({ e with mExpiration := now + wLife } : PagingEntry) ∈
        (Pager.pageAll expired T
          (Pager.addID now p newID chanType transaction wLife).1).pager.mPageIDs) := by
  have hrenew := Pager.renewID_present now newID wLife pre post e hid hpre
  have hadd : ∀ (c : ChannelType) (t : TransactionEntry),
      Pager.addID now p newID c t wLife =
        ({ mPageIDs := pre ++ { e with mExpiration := now + wLife } :: post,
           mPageSignal := p.mPageSignal + 1 },
          (t.setGSMState CallState.Paging).setTimer "3113" wLife) := by
    intro c t
    unfold Pager.addID
    simp only [hl, hrenew]
  have hid' : ({ e with mExpiration := now + wLife } : PagingEntry).mID = newID := hid
  have herase := Pager.eraseID_present newID pre post
    { e with mExpiration := now + wLife } hid' hpre
  refine ⟨?_, ?_, ?_, ?_, ?_, ?_, ?_, ?_, ?_⟩
  · rw [hadd]
  · rw [hadd]
  · rw [hadd]
    rfl
  · rw [hadd]
    simp [TransactionEntry.setTimer]
  · intro c t
    rw [hadd, hadd]
  · rw [hadd]
    simp only [Pager.removeID, herase]
  · rw [hadd]
    simp only [Pager.removeID, herase]
  · intro expired T hnone hmem
    rw [hadd] at hmem
    exact (Pager.purge_mem expired T _ _ hmem).2.2 hnone
  · intro expired T hexp hfound
    rw [hadd]
    exact Pager.purge_keep expired T pre post _ hexp hfound

/-- C26 at a concrete registry: IMSI 1 is paged for transaction 7 on an SDCCH,
then `addID` is called for IMSI 1 with transaction 8 and a TCH/F; `removeID`
returns 7. -/
theorem Pager_addID_existing_witness :
    (Pager.removeID
      (Pager.addID 20 ⟨[⟨L3MobileIdentity.IMSI 1, ChannelType.SDCCHType, 7, 100⟩], 1⟩
        (L3MobileIdentity.IMSI 1) ChannelType.TCHFType
        { mID := 8, mSubscriber := L3MobileIdentity.IMSI 1,
          mService := L3CMServiceType.MobileTerminatedCall,
          mGSMState := CallState.NullState, mTimers := [], mChannel := none, dead := false }
        50).1 (L3MobileIdentity.IMSI 1)).1 =
      (⟨L3MobileIdentity.IMSI 1, ChannelType.SDCCHType, 7, 100⟩ : PagingEntry).mTransactionID :=
  (Pager_addID_existing 20 ⟨[⟨L3MobileIdentity.IMSI 1, ChannelType.SDCCHType, 7, 100⟩], 1⟩
    [] [] ⟨L3MobileIdentity.IMSI 1, ChannelType.SDCCHType, 7, 100⟩
    (L3MobileIdentity.IMSI 1) ChannelType.TCHFType
    { mID := 8, mSubscriber := L3MobileIdentity.IMSI 1,
      mService := L3CMServiceType.MobileTerminatedCall,
      mGSMState := CallState.NullState, mTimers := [], mChannel := none, dead := false }
    50 rfl rfl (fun x hx => absurd hx (List.not_mem_nil x))).2.2.2.2.2.1

/-! ## Properties of the handover reference and of the BTS-side decision -/

/-- One allocation from a reference below 255: the value returned, which is
also the reference kept. -/
theorem Handover.allocateHandoverReference_eq (h : Handover)
    (hle : h.mHandoverReference ≤ 254) :
    (h.allocateHandoverReference).1 = h.mHandoverReference % 254 + 1 ∧
    (h.allocateHandoverReference).2.mHandoverReference = h.mHandoverReference % 254 + 1 := by
  unfold Handover.allocateHandoverReference
  simp only
  split_ifs <;> constructor <;> omega

/-- The values returned by `n` consecutive allocations, in closed form. -/
theorem Handover.allocateMany_eq : ∀ (n : Nat) (h : Handover),
    h.mHandoverReference ≤ 254 →
    (Handover.allocateMany n h).1 =
      (List.range n).map (fun k => (h.mHandoverReference + k) % 254 + 1) ∧
    (Handover.allocateMany n h).2.mHandoverReference ≤ 254
  | 0, h, hle => ⟨rfl, hle⟩
  | n + 1, h, hle => by
    obtain ⟨h1, h2⟩ := Handover.allocateHandoverReference_eq h hle
    have ih := Handover.allocateMany_eq n (h.allocateHandoverReference).2
      (by rw [h2]; omega)
    simp only [Handover.allocateMany]
    refine ⟨?_, ih.2⟩
    rw [ih.1, h1, h2, List.range_succ_eq_map, List.map_cons, List.map_map]
    simp only [Nat.add_zero, List.cons.injEq, true_and]
    apply List.map_congr_left
    intro k _
    simp only [Function.comp_apply]
    omega

/-- C22. The handover reference is a cyclic integer in 1..254. From a
reference in 1..254 (the constructor sets 1) `allocateHandoverReference`
returns, and keeps, the previous reference plus 1, or 1 after 254, a value in
1..254; so every value returned by any number of allocations made from the
constructed engine lies in 1..254, and any 254 consecutive allocations return
pairwise distinct references. -/
theorem Handover_allocateHandoverReference_cyclic :
    Handover.new.mHandoverReference = 1 ∧
    (∀ h : Handover, 1 ≤ h.mHandoverReference → h.mHandoverReference ≤ 254 →
      (h.allocateHandoverReference).1 =
        (if h.mHandoverReference = 254 then 1 else h.mHandoverReference + 1) ∧
      1 ≤ (h.allocateHandoverReference).1 ∧ (h.allocateHandoverReference).1 ≤ 254 ∧
      (h.allocateHandoverReference).2.mHandoverReference = (h.allocateHandoverReference).1) ∧
    (∀ n, ∀ x ∈ (Handover.allocateMany n Handover.new).1, 1 ≤ x ∧ x ≤ 254) ∧
    (∀ n, ((Handover.allocateMany 254 (Handover.allocateMany n Handover.new).2).1).Nodup) ∧
    (∀ n, ((Handover.allocateMany 254 (Handover.allocateMany n Handover.new).2).1).length =
      254) := by
  have hnew : Handover.new.mHandoverReference ≤ 254 := by decide
  refine ⟨rfl, ?_, ?_, ?_, ?_⟩
  · intro h h1 h254
    obtain ⟨e1, e2⟩ := Handover.allocateHandoverReference_eq h h254
    rw [e2, e1]
    split_ifs <;> refine ⟨?_, ?_, ?_, rfl⟩ <;> omega
  · intro n x hx
    rw [(Handover.allocateMany_eq n Handover.new hnew).1] at hx
    obtain ⟨k, _, hk⟩ := List.mem_map.mp hx
    omega
  · intro n
    have hle := (Handover.allocateMany_eq n Handover.new hnew).2
    rw [(Handover.allocateMany_eq 254 _ hle).1]
    apply List.Nodup.map_on _ (List.nodup_range 254)
    intro x hx y hy hxy
    rw [List.mem_range] at hx hy
    omega
  · intro n
    have hle := (Handover.allocateMany_eq n Handover.new hnew).2
    rw [(Handover.allocateMany_eq 254 _ hle).1]
    simp

/-- C22 at a concrete state: the allocation after reference 254 returns 1. -/
theorem Handover_allocateHandoverReference_cyclic_witness :
    (Handover.allocateHandoverReference
      { mHandovers := [], mOutgoingHandovers := [], mHandoverReference := 254,
        mHandoverSignal := 0 }).1 = (if 254 = 254 then 1 else 254 + 1) :=
  (Handover_allocateHandoverReference_cyclic.2.1
    { mHandovers := [], mOutgoingHandovers := [], mHandoverReference := 254,
      mHandoverSignal := 0 } (by decide) (by decide)).1

/-- The calls of `BTSDecision` that trigger no handover: the decision is
disabled, the report carries no neighbour, handover is not allowed for the
transaction, or the largest delta does not exceed the hysteresis. -/
theorem Handover.BTSDecision_quiet (d : DecisionInput) (transaction : TransactionEntry) :
    (¬ (d.mBTSDesicion = true ∧ d.Enable ≠ 0) →
      Handover.BTSDecision d transaction = some []) ∧
    (d.NO_NCELL = 0 → Handover.BTSDecision d transaction = some []) ∧
    (d.mBTSDesicion = true ∧ d.Enable ≠ 0 → d.NO_NCELL ≠ 0 → d.handoverAllowed = false →
      Handover.BTSDecision d transaction = some [DecisionEvent.average transaction.mID]) ∧
    (∀ m k, d.mBTSDesicion = true ∧ d.Enable ≠ 0 → d.NO_NCELL ≠ 0 →
      d.handoverAllowed = true →
      Handover.decisionLoop d.averaged d.NO_NCELL 0 0 0 = some (m, k) → m ≤ d.Hysteresis →
      Handover.BTSDecision d transaction = some [DecisionEvent.average transaction.mID]) := by
  refine ⟨?_, ?_, ?_, ?_⟩
  · intro hoff
    unfold Handover.BTSDecision
    rw [if_neg hoff]
  · intro hn
    unfold Handover.BTSDecision
    split_ifs <;> rfl
  · intro hon hn hno
    unfold Handover.BTSDecision
    rw [if_pos hon, if_neg hn]
    simp [hno]
  · intro m k hon hn hall hloop hle
    unfold Handover.BTSDecision
    rw [if_pos hon, if_neg hn]
    simp [hall, hloop, not_lt.mpr hle]

/-- Every call of `BTSDecision` that finds a delta above the hysteresis reads
the `index` that no statement has assigned. -/
theorem Handover.BTSDecision_trigger (d : DecisionInput) (transaction : TransactionEntry)
    (m : Int) (k : Nat) (hon : d.mBTSDesicion = true ∧ d.Enable ≠ 0) (hn : d.NO_NCELL ≠ 0)
    (hall : d.handoverAllowed = true)
    (hloop : Handover.decisionLoop d.averaged d.NO_NCELL 0 0 0 = some (m, k))
    (hgt : m > d.Hysteresis) :
    Handover.BTSDecision d transaction = none := by
  unfold Handover.BTSDecision
  rw [if_pos hon, if_neg hn]
  simp [hall, hloop, hgt]

/-- C27 (evaluated at the failing input). Two neighbours are reported, with
deltas 10 and 25 against a hysteresis of 5: the best neighbour is index 1, the
loop of `BTSDecision` ends with `max = 25` and its own `index = 1`, and the
handover is triggered; but the `index` used for the target address and for
`resetMeasurement` is the one declared before the loop, which was never
assigned. -/
theorem Handover_BTSDecision_unassigned_index :
    Handover.bestNeighbour [20, 35, 0, 0, 0, 0, 10] 2 = (25, some 1) ∧
    Handover.decisionLoop [20, 35, 0, 0, 0, 0, 10] 2 0 0 0 = some (25, 1) ∧
    Handover.BTSDecision
        { mBTSDesicion := true, Enable := 1, Hysteresis := 5,
          mNeighborAddresses := ["10.0.0.1", "10.0.0.2"], NO_NCELL := 2,
          averaged := [20, 35, 0, 0, 0, 0, 10], handoverAllowed := true }
        { mID := 7, mSubscriber := L3MobileIdentity.IMSI 1,
          mService := L3CMServiceType.MobileOriginatedCall,
          mGSMState := CallState.Active, mTimers := [], mChannel := some 2,
          dead := false } = none := by
  decide

end OpenBTS
